import Mathlib

/-!
# Citizen appeals: the appeal lifecycle engine

A shallow embedding of the appeal store (`internal/repository/appeal_repository.go`),
the lifecycle service (`internal/service/appeal_service.go`), the classifier client
(`pkg/classification/classifier.go`), the appeal handlers
(`internal/handler/appeal_handler.go`), the role middleware (`internal/middleware/auth.go`)
and the token service (`pkg/auth/jwt.go`).

Conventions of the embedding

* The PostgreSQL database is an explicit value `DB` (the two tables the lifecycle writes,
  plus their id sequences).  A Go method `func (r *AppealRepository) M(...) error` becomes
  `AppealRepository.M db ... : Option Error × DB`: the returned error (`none` is Go's `nil`)
  and the committed database after the call.
* `NOW()` is the argument `now`; inside one transaction every `NOW()` is the same instant.
* Every round trip to the database can fail.  The environment's choice is an explicit
  argument (`Fault`, `TxFaults`): `none` lets the statement run, `some e` makes the driver
  return `e`.
* `log.Printf` calls write to the process log only; they are left out.
* A Go call that can panic returns an `Outcome`.
-/

namespace CitizenAppeals

/-! ## Values -/

/-- Go `float64`, as far as comparisons see it: a finite value is the rational it denotes. -/
inductive F64 where
  | nan
  | negInf
  | fin (q : ℚ)
  | posInf
  deriving DecidableEq

/-- Go `a < b` on `float64` (false as soon as one side is NaN). -/
def F64.lt : F64 → F64 → Bool
  | .nan, _ => false
  | _, .nan => false
  | .posInf, _ => false
  | _, .negInf => false
  | .negInf, _ => true
  | _, .posInf => true
  | .fin a, .fin b => decide (a < b)

/-- Go `a > b` on `float64`. -/
def F64.gt (a b : F64) : Bool := F64.lt b a

/-- A reading of the database clock (`NOW()`, `time.Time`). -/
abbrev Time := Nat

/-- `type AppealStatus string` of `models/appeal.go`. -/
abbrev AppealStatus := String

abbrev StatusNew : AppealStatus := "new"
abbrev StatusAssigned : AppealStatus := "assigned"
abbrev StatusInProgress : AppealStatus := "in_progress"
abbrev StatusCompleted : AppealStatus := "completed"
abbrev StatusClosed : AppealStatus := "closed"
abbrev StatusRejected : AppealStatus := "rejected"

/-- `models.Appeal`: the columns of one row of `appeals` (the joined fields, tagged
`db:"-"`, are not columns). A `nil` pointer is `none`. -/
structure Appeal where
  ID : Int
  UserID : Int
  CategoryID : Option Int
  ServiceID : Option Int
  Status : AppealStatus
  Title : String
  Description : String
  Address : String
  Latitude : F64
  Longitude : F64
  Priority : Int
  CreatedAt : Time
  UpdatedAt : Time
  ClosedAt : Option Time
  deriving DecidableEq

/-- `models.AppealHistory`: one row of `appeal_history`. -/
structure AppealHistory where
  ID : Int
  AppealID : Int
  UserID : Int
  OldStatus : Option AppealStatus
  NewStatus : AppealStatus
  Action : String
  Comment : Option String
  CreatedAt : Time
  deriving DecidableEq

/-- `models.CreateAppealRequest`. -/
structure CreateAppealRequest where
  Title : String
  Description : String
  CategoryID : Int
  Address : String
  Latitude : F64
  Longitude : F64
  Priority : Option Int
  PhotoIDs : List Int
  deriving DecidableEq

/-- `models.Service`, the columns read by `GetByName`. -/
structure Service where
  ID : Int
  Name : String
  Description : String
  ContactPerson : String
  ContactPhone : String
  ContactEmail : String
  IsActive : Bool
  CreatedAt : Time
  UpdatedAt : Time
  deriving DecidableEq

/-- `models.SystemSettings`. -/
structure SystemSettings where
  CityName : String
  MapCenterLat : F64
  MapCenterLng : F64
  MapZoom : Int
  ConfidenceThreshold : F64
  deriving DecidableEq

/-! ## Errors -/

/-- An error returned by the pgx driver. `ErrNoRows` is `pgx.ErrNoRows`. -/
inductive PgErr where
  | ErrNoRows
  | failure (msg : String)
  deriving DecidableEq

/-- Go `error` values produced by the repository and service layers. -/
inductive Error where
  /-- The package variable `ErrAppealNotFound = errors.New("appeal not found")`. -/
  | ErrAppealNotFound
  /-- The package variable `ErrServiceNotFound = errors.New("service not found")`. -/
  | ErrServiceNotFound
  /-- The value `fmt.Errorf(msg + ": %w", err)` around a driver error. -/
  | wrapped (msg : String) (err : PgErr)
  /-- Any other error value (classifier transport, settings file). -/
  | other (msg : String)
  deriving DecidableEq

/-- What the environment does to one database round trip. -/
abbrev Fault := Option PgErr

/-! ## The database -/

/-- The state of the PostgreSQL database seen by the appeal store. -/
structure DB where
  appeals : List Appeal
  appeal_history : List AppealHistory
  /-- Last value handed out by the sequence behind `appeals.id`. -/
  appeals_id_seq : Int
  /-- Last value handed out by the sequence behind `appeal_history.id`. -/
  appeal_history_id_seq : Int
  deriving DecidableEq

/-- The database before any appeal was filed. -/
def DB.empty : DB :=
  { appeals := [], appeal_history := [], appeals_id_seq := 0, appeal_history_id_seq := 0 }

/-- The row of `appeals` with the given primary key, if any. -/
def DB.getAppeal (db : DB) (id : Int) : Option Appeal :=
  db.appeals.find? (fun a => a.ID == id)

/-- The rows of `appeal_history` that belong to one appeal, in insertion order. -/
def DB.historyOf (db : DB) (id : Int) : List AppealHistory :=
  db.appeal_history.filter (fun h => h.AppealID == id)

/-- `r.db.Begin(ctx)`: the transaction works on a private copy of the database. -/
def Begin (db : DB) (f : Fault) : Except PgErr DB :=
  match f with
  | some e => .error e
  | none => .ok db

/-- `tx.Commit(ctx)`: on success the transaction's copy becomes the committed database. -/
def Commit (tx : DB) (f : Fault) : Except PgErr DB :=
  match f with
  | some e => .error e
  | none => .ok tx

/-- `defer tx.Rollback(ctx)` taking effect: the writes of the transaction `tx` are dropped
and the committed database stays `db`. -/
def Rollback (db : DB) (_tx : DB) : DB := db

/-- `QueryRow(ctx, "SELECT status FROM appeals WHERE id = $1", id).Scan(&oldStatus)`. -/
def selectStatus (tx : DB) (f : Fault) (id : Int) : Except PgErr AppealStatus :=
  match f with
  | some e => .error e
  | none =>
    match tx.getAppeal id with
    | none => .error .ErrNoRows
    | some a => .ok a.Status

/-- The effect of `UPDATE appeals SET ... WHERE id = $n` on the tables: every row with that
id is rewritten by `set`. -/
def DB.updateAppeals (db : DB) (id : Int) (set : Appeal → Appeal) : DB :=
  { db with appeals := db.appeals.map (fun a => if a.ID == id then set a else a) }

/-- The number of rows of `appeals` matched by `WHERE id = $n`. -/
def DB.rowsWithID (db : DB) (id : Int) : Nat :=
  (db.appeals.filter (fun a => a.ID == id)).length

/-- `Exec(ctx, "UPDATE appeals SET ... WHERE id = $n", ...)`: the result is `RowsAffected()`
and the database after the statement. -/
def execUpdateAppeals (tx : DB) (f : Fault) (id : Int) (set : Appeal → Appeal) :
    Except PgErr (Nat × DB) :=
  match f with
  | some e => .error e
  | none => .ok (tx.rowsWithID id, tx.updateAppeals id set)

/-- Modelled from the spec: the declaration of table `appeal_history` is not among the
sources; per the data model an entry has a numeric identity and a creation timestamp, so
`id` comes from a sequence and `created_at` defaults to `NOW()`.
The effect of `INSERT INTO appeal_history (appeal_id, user_id, old_status, new_status,
action, comment) VALUES (...)` on the tables. -/
def DB.insertHistory (db : DB) (now : Time) (appealID userID : Int)
    (oldStatus : Option AppealStatus) (newStatus : AppealStatus) (action : String)
    (comment : Option String) : DB :=
  { db with
    appeal_history := db.appeal_history ++
      [{ ID := db.appeal_history_id_seq + 1, AppealID := appealID, UserID := userID,
         OldStatus := oldStatus, NewStatus := newStatus, Action := action,
         Comment := comment, CreatedAt := now }],
    appeal_history_id_seq := db.appeal_history_id_seq + 1 }

/-- `Exec(ctx, historyQuery, ...)`: a successful insert of one row affects one row. -/
def execInsertHistory (tx : DB) (f : Fault) (now : Time) (appealID userID : Int)
    (oldStatus : Option AppealStatus) (newStatus : AppealStatus) (action : String)
    (comment : Option String) : Except PgErr (Nat × DB) :=
  match f with
  | some e => .error e
  | none => .ok (1, tx.insertHistory now appealID userID oldStatus newStatus action comment)

/-- The failures the environment injects into the five round trips of a status-changing
transaction (`UpdateStatus`, `Assign`). -/
structure TxFaults where
  /-- `r.db.Begin`. -/
  begin_ : Fault
  /-- `SELECT status FROM appeals`. -/
  query : Fault
  /-- `UPDATE appeals`. -/
  update : Fault
  /-- `INSERT INTO appeal_history`. -/
  history : Fault
  /-- `tx.Commit`. -/
  commit : Fault
  deriving DecidableEq

/-- No injected failure. -/
def TxFaults.none : TxFaults :=
  { begin_ := Option.none, query := Option.none, update := Option.none,
    history := Option.none, commit := Option.none }

/-! ## History recorder -/

/-- The Go map literal `statusLabels`; a missing key reads as the zero value `""`. -/
def statusLabels (s : AppealStatus) : String :=
  if s == StatusNew then "Нове"
  else if s == StatusAssigned then "Призначене"
  else if s == StatusInProgress then "В роботі"
  else if s == StatusCompleted then "Виконане"
  else if s == StatusClosed then "Закрите"
  else if s == StatusRejected then "Відхилене"
  else ""

/-- `label := statusLabels[s]; if label == "" { label = string(s) }`. -/
def statusLabel (s : AppealStatus) : String :=
  if statusLabels s == "" then s else statusLabels s

/-- `fmt.Sprintf("Статус змінено з %s на %s", oldLabel, newLabel)` in `UpdateStatus`. -/
def statusChangeAction (oldStatus newStatus : AppealStatus) : String :=
  "Статус змінено з " ++ statusLabel oldStatus ++ " на " ++ statusLabel newStatus

/-! ## Appeal store -/

/-- `AppealRepository.UpdateStatus`: updates appeal status and records history. -/
def AppealRepository.UpdateStatus (db : DB) (w : TxFaults) (now : Time) (appealID : Int)
    (newStatus : AppealStatus) (userID : Int) (comment : Option String) :
    Option Error × DB :=
  match Begin db w.begin_ with
  | .error err => (some (.wrapped "failed to begin transaction" err), db)
  | .ok tx =>
    -- Get current status
    match selectStatus tx w.query appealID with
    | .error err => (some (.wrapped "failed to get current status" err), Rollback db tx)
    | .ok oldStatus =>
      -- Only record history if status actually changed
      if oldStatus == newStatus then
        -- Still update updated_at timestamp
        match execUpdateAppeals tx w.update appealID (fun a => { a with UpdatedAt := now }) with
        | .error err => (some (.wrapped "failed to update timestamp" err), Rollback db tx)
        | .ok (_, tx1) =>
          match Commit tx1 w.commit with
          | .error err => (some (.wrapped "failed to commit transaction" err), Rollback db tx1)
          | .ok db1 => (none, db1)
      else
        -- Set closed_at for both 'closed' and 'completed' statuses
        let set : Appeal → Appeal :=
          if newStatus == StatusClosed || newStatus == StatusCompleted then
            fun a => { a with Status := newStatus, UpdatedAt := now, ClosedAt := some now }
          else
            fun a => { a with Status := newStatus, UpdatedAt := now }
        match execUpdateAppeals tx w.update appealID set with
        | .error err => (some (.wrapped "failed to update status" err), Rollback db tx)
        | .ok (rowsAffected, tx1) =>
          if rowsAffected == 0 then (some .ErrAppealNotFound, Rollback db tx1)
          else
            -- Record history
            let action := statusChangeAction oldStatus newStatus
            match execInsertHistory tx1 w.history now appealID userID (some oldStatus)
                newStatus action comment with
            | .error err => (some (.wrapped "failed to record history" err), Rollback db tx1)
            | .ok (_, tx2) =>
              match Commit tx2 w.commit with
              | .error err =>
                (some (.wrapped "failed to commit transaction" err), Rollback db tx2)
              | .ok db1 => (none, db1)

/-- `fmt.Sprintf("Звернення призначено до служби. Статус змінено з %s на Призначене",
oldLabel)` in `Assign`. -/
def assignStatusChangeAction (oldStatus : AppealStatus) : String :=
  "Звернення призначено до служби. Статус змінено з " ++ statusLabel oldStatus ++
    " на Призначене"

/-- The literal action of the history row written by `Assign` when the appeal was already
assigned. -/
def reassignAction : String := "Звернення призначено до служби"

/-- `AppealRepository.Assign`: assigns an appeal to a service. -/
def AppealRepository.Assign (db : DB) (w : TxFaults) (now : Time) (appealID serviceID : Int)
    (priority : Option Int) (userID : Int) : Option Error × DB :=
  match Begin db w.begin_ with
  | .error err => (some (.wrapped "failed to begin transaction" err), db)
  | .ok tx =>
    -- Get current status before updating
    match selectStatus tx w.query appealID with
    | .error err => (some (.wrapped "failed to get current status" err), Rollback db tx)
    | .ok oldStatus =>
      -- SET service_id = $1, priority = COALESCE($2, priority), status = 'assigned',
      --     updated_at = NOW()
      let set : Appeal → Appeal := fun a =>
        { a with ServiceID := some serviceID, Priority := priority.getD a.Priority,
                 Status := "assigned", UpdatedAt := now }
      match execUpdateAppeals tx w.update appealID set with
      | .error err => (some (.wrapped "failed to assign appeal" err), Rollback db tx)
      | .ok (rowsAffected, tx1) =>
        if rowsAffected == 0 then (some .ErrAppealNotFound, Rollback db tx1)
        else
          -- both history statements name five columns: `comment` is left NULL
          let inserted :=
            if oldStatus != StatusAssigned then
              execInsertHistory tx1 w.history now appealID userID (some oldStatus)
                "assigned" (assignStatusChangeAction oldStatus) none
            else
              -- Status already assigned, just record assignment without status change
              execInsertHistory tx1 w.history now appealID userID (some oldStatus)
                "assigned" reassignAction none
          match inserted with
          | .error err => (some (.wrapped "failed to record history" err), Rollback db tx1)
          | .ok (_, tx2) =>
            match Commit tx2 w.commit with
            | .error err =>
              (some (.wrapped "failed to commit transaction" err), Rollback db tx2)
            | .ok db1 => (none, db1)

/-- `AppealRepository.UpdatePriority`: updates only the priority of an appeal. One
statement on the pool, outside any explicit transaction. -/
def AppealRepository.UpdatePriority (db : DB) (f : Fault) (now : Time) (appealID : Int)
    (priority : Int) (_userID : Int) : Option Error × DB :=
  match execUpdateAppeals db f appealID
      (fun a => { a with Priority := priority, UpdatedAt := now }) with
  | .error err => (some (.wrapped "failed to update priority" err), db)
  | .ok (rowsAffected, db1) =>
    if rowsAffected == 0 then (some .ErrAppealNotFound, db1) else (none, db1)

/-- `AppealRepository.Update`: writes title, description, category, address, coordinates
and service id of `appeal` into the row with `appeal.ID`. -/
def AppealRepository.Update (db : DB) (f : Fault) (now : Time) (appeal : Appeal) :
    Option Error × DB :=
  match execUpdateAppeals db f appeal.ID
      (fun a => { a with Title := appeal.Title, Description := appeal.Description,
                         CategoryID := appeal.CategoryID, Address := appeal.Address,
                         Latitude := appeal.Latitude, Longitude := appeal.Longitude,
                         ServiceID := appeal.ServiceID, UpdatedAt := now }) with
  | .error err => (some (.wrapped "failed to update appeal" err), db)
  | .ok (rowsAffected, db1) =>
    if rowsAffected == 0 then (some .ErrAppealNotFound, db1) else (none, db1)

/-- Modelled from the spec: the declaration of table `appeals` is not among the sources.
Per the data model the id is a unique number, the assigned service and the closure
timestamp are optional and the two other timestamps are set by the store, so a row inserted
without `service_id` and `closed_at` has both NULL, takes its id from a sequence and has
`created_at = updated_at = NOW()`.
The row stored by the `INSERT INTO appeals (user_id, category_id, title, description,
address, latitude, longitude, priority, status)` of `Create`. -/
def insertedAppealRow (id : Int) (now : Time) (appeal : Appeal) : Appeal :=
  { ID := id, UserID := appeal.UserID, CategoryID := appeal.CategoryID, ServiceID := none,
    Status := appeal.Status, Title := appeal.Title, Description := appeal.Description,
    Address := appeal.Address, Latitude := appeal.Latitude, Longitude := appeal.Longitude,
    Priority := appeal.Priority, CreatedAt := now, UpdatedAt := now, ClosedAt := none }

/-- The effect of a successful `INSERT INTO appeals` on the tables: the row is added and
the id sequence has advanced to its id. -/
def DB.insertAppeal (db : DB) (row : Appeal) : DB :=
  { db with appeals := db.appeals ++ [row], appeals_id_seq := row.ID }

/-- `AppealRepository.Create`: inserts the appeal and scans `RETURNING id, created_at,
updated_at` back into the caller's struct, which is the second component of the result. -/
def AppealRepository.Create (db : DB) (f : Fault) (now : Time) (appeal : Appeal) :
    Option Error × Appeal × DB :=
  match f with
  | some err => (some (.wrapped "failed to create appeal" err), appeal, db)
  | none =>
    let row := insertedAppealRow (db.appeals_id_seq + 1) now appeal
    (none, { appeal with ID := row.ID, CreatedAt := row.CreatedAt, UpdatedAt := row.UpdatedAt },
      db.insertAppeal row)

/-! ## Service lookup -/

/-- The `services` table together with the database's `LOWER` function (which depends on
the collation of the server). -/
structure ServiceRepository where
  services : List Service
  LOWER : String → String

/-- `ServiceRepository.GetByName`: retrieves a service by name (case-insensitive), among
active services only. -/
def ServiceRepository.GetByName (r : ServiceRepository) (f : Fault) (name : String) :
    Except Error Service :=
  match f with
  | some .ErrNoRows => .error .ErrServiceNotFound
  | some err => .error (.wrapped "failed to get service by name" err)
  | none =>
    match r.services.find? (fun s => r.LOWER s.Name == r.LOWER name && s.IsActive) with
    | none => .error .ErrServiceNotFound
    | some s => .ok s

/-! ## Classifier client -/

/-- The fields of `classification.Classifier` that decide its answers. -/
structure Classifier where
  serviceURL : String
  enabled : Bool
  confidenceThreshold : F64
  deriving DecidableEq

/-- The `float64` nearest to the decimal literal `0.8`. -/
def float64_0_8 : F64 := .fin (3602879701896397 / 4503599627370496)

/-- `NewClassifier`. -/
def NewClassifier (serviceURL : String) (enabled : Bool) : Classifier :=
  { serviceURL := serviceURL, enabled := enabled, confidenceThreshold := float64_0_8 }

/-- `Classifier.SetConfidenceThreshold`. -/
def Classifier.SetConfidenceThreshold (c : Classifier) (threshold : F64) : Classifier :=
  let threshold := if F64.lt threshold (.fin 0) then .fin 0 else threshold
  let threshold := if F64.gt threshold (.fin 1) then .fin 1 else threshold
  { c with confidenceThreshold := threshold }

/-- `classification.ClassificationResponse`, the two fields `ClassifyAppeal` reads. -/
structure ClassificationResponse where
  Service : String
  Confidence : F64
  deriving DecidableEq

/-- What the outside world answers to the HTTP call of `ClassifyAppeal`. -/
inductive HttpOutcome where
  /-- `http.NewRequestWithContext` failed. -/
  | requestError (msg : String)
  /-- `httpClient.Do` failed: service unreachable, timeout. -/
  | transportError (msg : String)
  /-- A response arrived with a status other than 200. -/
  | badStatus (statusCode : Nat) (body : String)
  /-- A 200 response whose body does not decode. -/
  | decodeError (msg : String)
  /-- A 200 response with a decoded body. -/
  | ok (result : ClassificationResponse)
  deriving DecidableEq

/-- `Classifier.ClassifyAppeal`: the suggested service name, the confidence and the error.
The request text does not influence the embedding: the answer is the world's `http`.
(`json.Marshal` of a struct holding one string does not fail, so that branch is absent.) -/
def Classifier.ClassifyAppeal (c : Classifier) (http : HttpOutcome) (_text : String) :
    String × F64 × Option Error :=
  if !c.enabled || c.serviceURL == "" then ("", .fin 0, none)
  else
    match http with
    | .requestError msg => ("", .fin 0, some (.other ("failed to create request: " ++ msg)))
    | .transportError msg =>
      ("", .fin 0, some (.other ("failed to call classification service: " ++ msg)))
    | .badStatus statusCode body =>
      ("", .fin 0, some (.other ("classification service returned status " ++
        toString statusCode ++ ": " ++ body)))
    | .decodeError msg => ("", .fin 0, some (.other ("failed to decode response: " ++ msg)))
    | .ok result =>
      -- Only return service if confidence is above threshold
      if F64.lt result.Confidence c.confidenceThreshold then ("", result.Confidence, none)
      else (result.Service, result.Confidence, none)

/-! ## Lifecycle service -/

/-- `service.AppealService`. The appeal repository is the `DB` passed to each call; a `nil`
classifier or settings loader is `none`; the loader is represented by what it returns. -/
structure AppealService where
  serviceRepo : ServiceRepository
  classifier : Option Classifier
  systemSettingsLoader : Option (Except Error (Option SystemSettings))

/-- What the environment does during one `CreateAppeal`. -/
structure CreateWorld where
  /-- The round trip of `repo.Create`. -/
  create : Fault
  /-- The HTTP exchange with the classification service. -/
  http : HttpOutcome
  /-- The round trip of `serviceRepo.GetByName`. -/
  getByName : Fault
  /-- The round trip of `repo.Update`. -/
  update : Fault
  /-- The database clock (`NOW()`) when `repo.Update` runs. -/
  updateNow : Time

/-- The result of `CreateAppeal`: the returned pair, the database, and the classifier, whose
threshold the call may have overwritten. -/
structure CreateResult where
  appeal : Option Appeal
  err : Option Error
  db : DB
  classifier : Option Classifier

/-- `AppealService.CreateAppeal`. `now` is the database clock when `repo.Create` runs. -/
def AppealService.CreateAppeal (s : AppealService) (db : DB) (w : CreateWorld) (now : Time)
    (userID : Int) (req : CreateAppealRequest) : CreateResult :=
  -- Default priority
  let priority : Int := match req.Priority with
    | some p => p
    | none => 2
  let categoryID := req.CategoryID
  let appeal : Appeal :=
    { ID := 0, UserID := userID, CategoryID := some categoryID, ServiceID := none,
      Status := StatusNew, Title := req.Title, Description := req.Description,
      Address := req.Address, Latitude := req.Latitude, Longitude := req.Longitude,
      Priority := priority, CreatedAt := 0, UpdatedAt := 0, ClosedAt := none }
  match AppealRepository.Create db w.create now appeal with
  | (some err, _, db1) => { appeal := none, err := some err, db := db1, classifier := s.classifier }
  | (none, appeal, db1) =>
    -- Assign service ONLY through classification service
    match s.classifier with
    | some classifier =>
      -- Load confidence threshold from system settings
      let classifier :=
        match s.systemSettingsLoader with
        | some (.ok (some settings)) =>
          classifier.SetConfidenceThreshold settings.ConfidenceThreshold
        | _ => classifier
      -- Use only description for classification
      match classifier.ClassifyAppeal w.http req.Description with
      | (_, _, some _) =>
        { appeal := some appeal, err := none, db := db1, classifier := some classifier }
      | (serviceName, _, none) =>
        if serviceName != "" then
          -- Try to find service by name
          match s.serviceRepo.GetByName w.getByName serviceName with
          | .ok service =>
            let appeal := { appeal with ServiceID := some service.ID }
            -- Update appeal with service_id from classification; its error is only logged
            let (_, db2) := AppealRepository.Update db1 w.update w.updateNow appeal
            { appeal := some appeal, err := none, db := db2, classifier := some classifier }
          | .error _ =>
            { appeal := some appeal, err := none, db := db1, classifier := some classifier }
        else
          { appeal := some appeal, err := none, db := db1, classifier := some classifier }
    | none => { appeal := some appeal, err := none, db := db1, classifier := none }

/-! ## Sample data -/

/-- An appeal as filed: status `new`, no service, not closed. -/
def sampleAppeal : Appeal :=
  { ID := 1, UserID := 7, CategoryID := some 3, ServiceID := none, Status := "new",
    Title := "Broken street light", Description := "The light at the corner is out",
    Address := "1 Main St", Latitude := .fin 50, Longitude := .fin 30, Priority := 2,
    CreatedAt := 5, UpdatedAt := 5, ClosedAt := none }

/-- A database holding `sampleAppeal` only. -/
def sampleDB : DB :=
  { appeals := [sampleAppeal], appeal_history := [], appeals_id_seq := 1,
    appeal_history_id_seq := 0 }

/-- One call of a client that submits a status: the failures it meets, the time, the acting
user and the comment. -/
structure StatusCall where
  w : TxFaults
  now : Time
  userID : Int
  comment : Option String

/-- The database after a client submitted the same target status once per element of
`calls`, whatever each call returned. -/
def resubmit (db : DB) (appealID : Int) (status : AppealStatus) (calls : List StatusCall) : DB :=
  calls.foldl
    (fun d c => (AppealRepository.UpdateStatus d c.w c.now appealID status c.userID c.comment).2)
    db

/-- The environment in which only the history insert fails, after the status write. -/
def historyInsertFails : TxFaults :=
  { begin_ := none, query := none, update := none,
    history := some (.failure "insert into appeal_history failed"), commit := none }

/-- The wording by which a history action claims a status change ("status changed"). -/
def statusChangeWording : String := "Статус змінено"

/-- A database holding one appeal that is already assigned to service 3. -/
def assignedDB : DB :=
  { appeals := [{ sampleAppeal with Status := "assigned", ServiceID := some 3 }],
    appeal_history := [], appeals_id_seq := 1, appeal_history_id_seq := 0 }

/-! ## Lifecycle runs -/

/-- One lifecycle operation, with its inputs, the time at which it runs and what the
environment does during it. -/
inductive Op where
  | create (s : AppealService) (w : CreateWorld) (now : Time) (userID : Int)
      (req : CreateAppealRequest)
  | update (f : Fault) (now : Time) (appeal : Appeal)
  | updateStatus (w : TxFaults) (now : Time) (appealID : Int) (newStatus : AppealStatus)
      (userID : Int) (comment : Option String)
  | assign (w : TxFaults) (now : Time) (appealID serviceID : Int) (priority : Option Int)
      (userID : Int)
  | updatePriority (f : Fault) (now : Time) (appealID : Int) (priority : Int) (userID : Int)

/-- The committed database after one lifecycle operation, whatever the operation returned. -/
def step (db : DB) : Op → DB
  | .create s w now userID req => (s.CreateAppeal db w now userID req).db
  | .update f now appeal => (AppealRepository.Update db f now appeal).2
  | .updateStatus w now appealID newStatus userID comment =>
    (AppealRepository.UpdateStatus db w now appealID newStatus userID comment).2
  | .assign w now appealID serviceID priority userID =>
    (AppealRepository.Assign db w now appealID serviceID priority userID).2
  | .updatePriority f now appealID priority userID =>
    (AppealRepository.UpdatePriority db f now appealID priority userID).2

/-- The database after a sequence of lifecycle operations. -/
def run (db : DB) (ops : List Op) : DB := ops.foldl step db

/-- The status and the closure timestamp of an appeal, if the appeal exists. -/
def DB.view (db : DB) (id : Int) : Option (AppealStatus × Option Time) :=
  (db.getAppeal id).map (fun a => (a.Status, a.ClosedAt))

/-- The `closed_at` of an appeal; `none` when it is NULL or the appeal does not exist. -/
def DB.closedAt (db : DB) (id : Int) : Option Time :=
  (db.view id).bind (fun v => v.2)

/-- Whether `s` is `closed` or `completed`. -/
def isClosing (s : AppealStatus) : Bool := s == StatusClosed || s == StatusCompleted

/-- The appeal moved to `closed` or `completed` between two states: it exists in both, its
status differs, and the later status is `closed` or `completed`. -/
def closingTransition (before after : DB) (id : Int) : Bool :=
  match before.view id, after.view id with
  | some v, some v' => v.1 != v'.1 && isClosing v'.1
  | _, _ => false

/-- Whether some step of the run of `ops` from `db` moved the appeal to `closed` or
`completed`. -/
def everClosed (db : DB) : List Op → Int → Bool
  | [], _ => false
  | op :: ops, id => closingTransition db (step db op) id || everClosed (step db op) ops id

/-- The equation every lifecycle step satisfies at every appeal id. -/
def ClosedStep (db db' : DB) (id : Int) : Prop :=
  (db'.closedAt id).isSome = ((db.closedAt id).isSome || closingTransition db db' id)

/-- The classifier once `CreateAppeal` has run its settings block on `classifier`: the
threshold is overwritten when the loader exists and returns settings without an error. -/
def AppealService.withLoadedThreshold (s : AppealService) (classifier : Classifier) :
    Classifier :=
  match s.systemSettingsLoader with
  | some (.ok (some settings)) => classifier.SetConfidenceThreshold settings.ConfidenceThreshold
  | _ => classifier

/-- A `LOWER` that folds the letters `A`..`Z` and leaves every other character alone. -/
def asciiLower (s : String) : String := String.mk (s.data.map Char.toLower)

/-- An active service named "Водоканал" with id 4. -/
def waterService : Service :=
  { ID := 4, Name := "Водоканал", Description := "", ContactPerson := "", ContactPhone := "",
    ContactEmail := "", IsActive := true, CreatedAt := 0, UpdatedAt := 0 }

/-- A lifecycle service with an enabled classifier (default threshold) and one service. -/
def sampleService : AppealService :=
  { serviceRepo := { services := [waterService], LOWER := asciiLower },
    classifier := some (NewClassifier "http://classifier" true),
    systemSettingsLoader := none }

/-- A create request without a priority. -/
def sampleRequest : CreateAppealRequest :=
  { Title := "Прорив труби", Description := "На вулиці прорвало трубу, тече вода",
    CategoryID := 3, Address := "вул. Хрещатик, 1", Latitude := .fin 50, Longitude := .fin 30,
    Priority := none, PhotoIDs := [] }

/-- The classifier answers "Водоканал" with confidence 1, and no round trip fails. -/
def routedWorld : CreateWorld :=
  { create := none,
    http := .ok { Service := "Водоканал", Confidence := .fin 1 },
    getByName := none, update := none, updateNow := 10 }

/-- The classifier answers "Водоканал" with confidence 1, the service is found, and the
store update that records the service id fails. -/
def updateFailsWorld : CreateWorld :=
  { create := none,
    http := .ok { Service := "Водоканал", Confidence := .fin 1 },
    getByName := none, update := some (.failure "connection lost"), updateNow := 10 }

/-- The appeal `CreateAppeal` returns for `sampleRequest` in `routedWorld`. -/
def routedAppeal : Appeal :=
  { ID := 1, UserID := 7, CategoryID := some 3, ServiceID := some 4, Status := "new",
    Title := sampleRequest.Title, Description := sampleRequest.Description,
    Address := sampleRequest.Address, Latitude := .fin 50, Longitude := .fin 30,
    Priority := 2, CreatedAt := 9, UpdatedAt := 9, ClosedAt := none }

/-- A lifecycle service without a classifier: nothing is routed automatically. -/
def manualService : AppealService :=
  { serviceRepo := { services := [waterService], LOWER := asciiLower },
    classifier := none, systemSettingsLoader := none }

/-- A run: an appeal is filed, taken into work, completed, reopened and reassigned. -/
def sampleRun : List Op :=
  [.create manualService routedWorld 1 7 sampleRequest,
   .updateStatus TxFaults.none 2 1 "in_progress" 42 none,
   .updateStatus TxFaults.none 3 1 "completed" 42 none,
   .updateStatus TxFaults.none 4 1 "new" 42 none,
   .assign TxFaults.none 5 1 4 none 42]

/-! ## Request validation and HTTP handlers -/

/-- Go `a <= b` on `float64` (false as soon as one side is NaN). -/
def F64.le : F64 → F64 → Bool
  | .nan, _ => false
  | _, .nan => false
  | .negInf, _ => true
  | _, .posInf => true
  | .posInf, _ => false
  | _, .negInf => false
  | .fin a, .fin b => decide (a ≤ b)

/-- Go `a >= b` on `float64`. -/
def F64.ge (a b : F64) : Bool := F64.le b a

/-- `type UserRole string` of `models/user.go`. -/
abbrev UserRole := String

abbrev RoleCitizen : UserRole := "citizen"
abbrev RoleDispatcher : UserRole := "dispatcher"
abbrev RoleExecutor : UserRole := "executor"
abbrev RoleAdmin : UserRole := "admin"

/-- The values `AuthMiddleware` stores in the request context; `none` when the key is
absent. -/
structure RequestContext where
  userID : Option Int
  userRole : Option UserRole
  deriving DecidableEq

/-- `middleware.GetUserID`: the value and whether it was present (the zero value otherwise). -/
def GetUserID (ctx : RequestContext) : Int × Bool :=
  match ctx.userID with
  | some v => (v, true)
  | none => (0, false)

/-- `middleware.GetUserRole`. -/
def GetUserRole (ctx : RequestContext) : UserRole × Bool :=
  match ctx.userRole with
  | some v => (v, true)
  | none => ("", false)

/-- `models.UpdateAppealRequest`. -/
structure UpdateAppealRequest where
  Title : Option String
  Description : Option String
  CategoryID : Option Int
  Address : Option String
  Latitude : Option F64
  Longitude : Option F64
  deriving DecidableEq

/-- `models.AssignAppealRequest`. -/
structure AssignAppealRequest where
  ServiceID : Int
  Priority : Option Int
  deriving DecidableEq

/-- `models.UpdateStatusRequest`. -/
structure UpdateStatusRequest where
  Status : AppealStatus
  Comment : Option String
  deriving DecidableEq

/-- `models.UpdatePriorityRequest`. -/
structure UpdatePriorityRequest where
  Priority : Int
  deriving DecidableEq

/-- One entry of the error returned by `validator.Struct`: the field and the first tag of
its `validate:"..."` list that failed. -/
structure FieldError where
  field : String
  tag : String
  deriving DecidableEq

/-- The tags of one field, in the order of its `validate:"..."` list, each with whether the
value passes it; the result is the first tag that fails. The library (go-playground
validator v10, not part of the repository) stops at the first failing tag of a field and
goes on with the next field. Its tags read: `required` - the value is not the zero value of
its type; `min=n`, `max=n` - a number compares `>= n`, `<= n`, a string compares its number
of characters; `omitempty` on a pointer - a nil pointer skips the remaining tags, a non-nil
pointer is checked through. -/
def firstFailing (tags : List (String × Bool)) : Option String :=
  (tags.find? (fun t => !t.2)).map (fun t => t.1)

/-- The errors of a struct: one entry per field with a failing tag, in field order. -/
def fieldErrors (fields : List (String × Option String)) : List FieldError :=
  fields.filterMap (fun f => f.2.map (fun tag => { field := f.1, tag := tag }))

/-- `h.validator.Struct(req)` for `models.CreateAppealRequest`; `[]` is a nil error. -/
def CreateAppealRequest.validate (req : CreateAppealRequest) : List FieldError :=
  fieldErrors
    [("Title", firstFailing [("required", req.Title != ""),
        ("min", decide (5 ≤ req.Title.length)), ("max", decide (req.Title.length ≤ 200))]),
     ("Description", firstFailing [("required", req.Description != ""),
        ("min", decide (10 ≤ req.Description.length))]),
     ("CategoryID", firstFailing [("required", req.CategoryID != 0)]),
     ("Address", firstFailing [("required", req.Address != "")]),
     ("Latitude", firstFailing [("required", req.Latitude != .fin 0),
        ("min", F64.ge req.Latitude (.fin (-90))), ("max", F64.le req.Latitude (.fin 90))]),
     ("Longitude", firstFailing [("required", req.Longitude != .fin 0),
        ("min", F64.ge req.Longitude (.fin (-180))), ("max", F64.le req.Longitude (.fin 180))]),
     ("Priority", match req.Priority with
        | none => none
        | some p => firstFailing [("min", decide (1 ≤ p)), ("max", decide (p ≤ 3))])]

/-- `h.validator.Struct(req)` for `models.UpdateAppealRequest`. -/
def UpdateAppealRequest.validate (req : UpdateAppealRequest) : List FieldError :=
  fieldErrors
    [("Title", match req.Title with
        | none => none
        | some t => firstFailing [("min", decide (5 ≤ t.length)), ("max", decide (t.length ≤ 200))]),
     ("Description", match req.Description with
        | none => none
        | some d => firstFailing [("min", decide (10 ≤ d.length))]),
     ("Latitude", match req.Latitude with
        | none => none
        | some x => firstFailing [("min", F64.ge x (.fin (-90))), ("max", F64.le x (.fin 90))]),
     ("Longitude", match req.Longitude with
        | none => none
        | some x => firstFailing [("min", F64.ge x (.fin (-180))), ("max", F64.le x (.fin 180))])]

/-- `h.validator.Struct(req)` for `models.AssignAppealRequest`. -/
def AssignAppealRequest.validate (req : AssignAppealRequest) : List FieldError :=
  fieldErrors
    [("ServiceID", firstFailing [("required", req.ServiceID != 0)]),
     ("Priority", match req.Priority with
        | none => none
        | some p => firstFailing [("min", decide (1 ≤ p)), ("max", decide (p ≤ 3))])]

/-- `h.validator.Struct(req)` for `models.UpdateStatusRequest`. -/
def UpdateStatusRequest.validate (req : UpdateStatusRequest) : List FieldError :=
  fieldErrors [("Status", firstFailing [("required", req.Status != "")])]

/-- `h.validator.Struct(req)` for `models.UpdatePriorityRequest`. -/
def UpdatePriorityRequest.validate (req : UpdatePriorityRequest) : List FieldError :=
  fieldErrors
    [("Priority", firstFailing [("required", req.Priority != 0),
        ("min", decide (1 ≤ req.Priority)), ("max", decide (req.Priority ≤ 3))])]

/-- The text of `err.Error()` for a validation error, one line per failing field. -/
def validationMessage (structName : String) (errs : List FieldError) : String :=
  "\n".intercalate (errs.map (fun e =>
    "Key: '" ++ structName ++ "." ++ e.field ++ "' Error:Field validation for '" ++ e.field
      ++ "' failed on the '" ++ e.tag ++ "' tag"))

/-- The `data` of a success response. -/
inductive ResponseData where
  | appeal (a : Option Appeal)
  | message (text : String)
  deriving DecidableEq

/-- What a handler writes: the HTTP status and the `models.APIResponse` body. -/
structure Response where
  status : Nat
  success : Bool
  data : Option ResponseData
  error : String
  deriving DecidableEq

/-- `respondJSON(w, status, data)`. -/
def respondJSON (status : Nat) (data : ResponseData) : Response :=
  { status := status, success := true, data := some data, error := "" }

/-- `respondError(w, status, message, details...)`; the details only go to the log. -/
def respondError (status : Nat) (message : String) : Response :=
  { status := status, success := false, data := none, error := message }

/-- `AppealRepository.GetByID`, as far as the columns of `appeals` go (the joined user,
category and service are not part of `Appeal` here). -/
def AppealRepository.GetByID (db : DB) (f : Fault) (id : Int) : Except Error Appeal :=
  match f with
  | some .ErrNoRows => .error .ErrAppealNotFound
  | some err => .error (.wrapped "failed to get appeal" err)
  | none =>
    match db.getAppeal id with
    | none => .error .ErrAppealNotFound
    | some appeal => .ok appeal

/-- `handler.AppealHandler`: the appeal repository is the `DB` passed to each call, the
validator has no state, and the notification service (a fire-and-forget collaborator whose
errors are only logged, called after the store operation succeeded) is left out. -/
structure AppealHandler where
  service : AppealService

/-- `AppealHandler.Create`. `body` is what `json.NewDecoder(r.Body).Decode(&req)` yields,
`none` when decoding fails. The result is the response and the database after the call. -/
def AppealHandler.Create (h : AppealHandler) (db : DB) (w : CreateWorld) (now : Time)
    (ctx : RequestContext) (body : Option CreateAppealRequest) : Response × DB :=
  let userID := (GetUserID ctx).1
  match body with
  | none => (respondError 400 "Invalid request body", db)
  | some req =>
    if req.validate != [] then
      (respondError 400 (validationMessage "CreateAppealRequest" req.validate), db)
    else
      let r := h.service.CreateAppeal db w now userID req
      match r.err with
      | some _ => (respondError 500 "Failed to create appeal", r.db)
      | none => (respondJSON 201 (.appeal r.appeal), r.db)

/-- The block `// Update fields` of `AppealHandler.Update`: six `if req.X != nil` statements
in a row, the first two also asking `isCreator`. -/
def applyUpdateFields (appeal : Appeal) (isCreator : Bool) (req : UpdateAppealRequest) :
    Appeal :=
  let appeal :=
    match req.Title with
    | some title => if isCreator then { appeal with Title := title } else appeal
    | none => appeal
  let appeal :=
    match req.Description with
    | some description =>
      if isCreator then { appeal with Description := description } else appeal
    | none => appeal
  let appeal :=
    match req.CategoryID with
    | some categoryID => { appeal with CategoryID := some categoryID }
    | none => appeal
  let appeal :=
    match req.Address with
    | some address => { appeal with Address := address }
    | none => appeal
  let appeal :=
    match req.Latitude with
    | some latitude => { appeal with Latitude := latitude }
    | none => appeal
  let appeal :=
    match req.Longitude with
    | some longitude => { appeal with Longitude := longitude }
    | none => appeal
  appeal

/-- What the environment does during one `AppealHandler.Update`. -/
structure UpdateWorld where
  /-- The round trip of `appealRepo.GetByID`. -/
  getByID : Fault
  /-- The round trip of `appealRepo.Update`. -/
  update : Fault
  deriving DecidableEq

/-- `AppealHandler.Update`. `id` is what `strconv.ParseInt(chi.URLParam(r, "id"), 10, 64)`
yields, `none` when it fails. -/
def AppealHandler.Update (_h : AppealHandler) (db : DB) (w : UpdateWorld) (now : Time)
    (ctx : RequestContext) (id : Option Int) (body : Option UpdateAppealRequest) :
    Response × DB :=
  let userID := (GetUserID ctx).1
  match id with
  | none => (respondError 400 "Invalid appeal ID", db)
  | some id =>
    -- Get existing appeal
    match AppealRepository.GetByID db w.getByID id with
    | .error err =>
      if err == .ErrAppealNotFound then (respondError 404 "Appeal not found", db)
      else (respondError 500 "Failed to get appeal", db)
    | .ok appeal =>
      -- Get user role
      let userRole := (GetUserRole ctx).1
      -- Check permissions: creator can update, dispatcher/admin can update category
      let isCreator := appeal.UserID == userID
      let isDispatcherOrAdmin := userRole == RoleDispatcher || userRole == RoleAdmin
      if !isCreator && !isDispatcherOrAdmin then
        (respondError 403 "You don't have permission to update this appeal", db)
      -- Creator can only update if status is 'new'
      -- Dispatcher/admin can update category at any time
      else if isCreator && appeal.Status != StatusNew then
        (respondError 400 "Cannot update appeal that is already being processed", db)
      else
        match body with
        | none => (respondError 400 "Invalid request body", db)
        | some req =>
          if req.validate != [] then
            (respondError 400 (validationMessage "UpdateAppealRequest" req.validate), db)
          else
            -- Update fields
            let appeal := applyUpdateFields appeal isCreator req
            match AppealRepository.Update db w.update now appeal with
            | (some _, db1) => (respondError 500 "Failed to update appeal", db1)
            | (none, db1) => (respondJSON 200 (.appeal (some appeal)), db1)

/-- What the environment does during one `AppealHandler.UpdateStatus`. -/
structure UpdateStatusWorld where
  /-- The round trip of `appealRepo.GetByID`. -/
  getByID : Fault
  /-- The round trips of `appealRepo.UpdateStatus`. -/
  tx : TxFaults
  deriving DecidableEq

/-- `AppealHandler.UpdateStatus`. -/
def AppealHandler.UpdateStatus (_h : AppealHandler) (db : DB) (w : UpdateStatusWorld)
    (now : Time) (ctx : RequestContext) (id : Option Int)
    (body : Option UpdateStatusRequest) : Response × DB :=
  let userID := (GetUserID ctx).1
  let userRole := (GetUserRole ctx).1
  match id with
  | none => (respondError 400 "Invalid appeal ID", db)
  | some id =>
    match body with
    | none => (respondError 400 "Invalid request body", db)
    | some req =>
      if req.validate != [] then
        (respondError 400 (validationMessage "UpdateStatusRequest" req.validate), db)
      else
        -- Get existing appeal
        match AppealRepository.GetByID db w.getByID id with
        | .error err =>
          if err == .ErrAppealNotFound then (respondError 404 "Appeal not found", db)
          else (respondError 500 "Failed to get appeal", db)
        | .ok appeal =>
          -- Check permissions based on role
          let canUpdate :=
            if userRole == RoleAdmin || userRole == RoleDispatcher then true
            else if userRole == RoleExecutor then
              -- For now, allow executors to update any appeal that has a service
              if appeal.ServiceID != none then true else false
            else false
          if !canUpdate then
            (respondError 403 "You don't have permission to update this appeal status", db)
          else
            match AppealRepository.UpdateStatus db w.tx now id req.Status userID req.Comment with
            | (some _, db1) => (respondError 500 "Failed to update status", db1)
            | (none, db1) => (respondJSON 200 (.message "Status updated successfully"), db1)

/-- `AppealHandler.UpdatePriority`. -/
def AppealHandler.UpdatePriority (_h : AppealHandler) (db : DB) (f : Fault) (now : Time)
    (ctx : RequestContext) (id : Option Int) (body : Option UpdatePriorityRequest) :
    Response × DB :=
  let userID := (GetUserID ctx).1
  let userRole := (GetUserRole ctx).1
  match id with
  | none => (respondError 400 "Invalid appeal ID", db)
  | some id =>
    match body with
    | none => (respondError 400 "Invalid request body", db)
    | some req =>
      if req.validate != [] then
        (respondError 400 (validationMessage "UpdatePriorityRequest" req.validate), db)
      else
        -- Permissions: same as status change
        let canUpdate :=
          if userRole == RoleAdmin || userRole == RoleDispatcher || userRole == RoleExecutor
          then true else false
        if !canUpdate then
          (respondError 403 "You don't have permission to update this appeal priority", db)
        else
          match AppealRepository.UpdatePriority db f now id req.Priority userID with
          | (some err, db1) =>
            if err == .ErrAppealNotFound then (respondError 404 "Appeal not found", db1)
            else (respondError 500 "Failed to update priority", db1)
          | (none, db1) => (respondJSON 200 (.message "Priority updated successfully"), db1)

/-- `AppealHandler.Assign`. -/
def AppealHandler.Assign (_h : AppealHandler) (db : DB) (w : TxFaults) (now : Time)
    (ctx : RequestContext) (id : Option Int) (body : Option AssignAppealRequest) :
    Response × DB :=
  let userID := (GetUserID ctx).1
  let userRole := (GetUserRole ctx).1
  match id with
  | none => (respondError 400 "Invalid appeal ID", db)
  | some id =>
    match body with
    | none => (respondError 400 "Invalid request body", db)
    | some req =>
      -- Only dispatcher and admin can assign appeals
      if userRole != RoleDispatcher && userRole != RoleAdmin then
        (respondError 403 "Only dispatchers and admins can assign appeals", db)
      -- Validate request
      else if req.validate != [] then
        (respondError 400 (validationMessage "AssignAppealRequest" req.validate), db)
      else
        match AppealRepository.Assign db w now id req.ServiceID req.Priority userID with
        | (some err, db1) =>
          if err == .ErrAppealNotFound then (respondError 404 "Appeal not found", db1)
          else (respondError 500 "Failed to assign appeal", db1)
        | (none, db1) => (respondJSON 200 (.message "Appeal assigned successfully"), db1)

/-- The display label of a status in the words of the specification: a fixed table for the
six known statuses, the raw string for every other value. -/
def specStatusLabel (s : AppealStatus) : String :=
  if s = "new" then "Нове"
  else if s = "assigned" then "Призначене"
  else if s = "in_progress" then "В роботі"
  else if s = "completed" then "Виконане"
  else if s = "closed" then "Закрите"
  else if s = "rejected" then "Відхилене"
  else s

/-- Whether `s` is one of the six status tokens. -/
def isKnownStatus (s : AppealStatus) : Bool :=
  s == StatusNew || s == StatusAssigned || s == StatusInProgress || s == StatusCompleted ||
    s == StatusClosed || s == StatusRejected

/-- A valid create request in which only the latitude is 0 (a point on the equator). -/
def equatorRequest : CreateAppealRequest :=
  { sampleRequest with Latitude := .fin 0 }

/-- A create request whose title has four characters. -/
def shortTitleRequest : CreateAppealRequest :=
  { sampleRequest with Title := "Test" }

/-- The row `UpdateStatus` of the permission matrix of the specification. -/
def matrixUpdateStatus (role : UserRole) (serviceSet : Bool) : Bool :=
  role == RoleDispatcher || role == RoleAdmin || (role == RoleExecutor && serviceSet)

/-- The row `UpdatePriority` of the permission matrix of the specification. -/
def matrixUpdatePriority (role : UserRole) : Bool :=
  role == RoleDispatcher || role == RoleExecutor || role == RoleAdmin

/-- The row `Assign` of the permission matrix of the specification. -/
def matrixAssign (role : UserRole) : Bool :=
  role == RoleDispatcher || role == RoleAdmin

/-- The request context of a dispatcher with user id 42. -/
def dispatcherCtx : RequestContext := { userID := some 42, userRole := some RoleDispatcher }

/-- The request context of a citizen with user id 7 (the owner of `sampleAppeal`). -/
def citizenCtx : RequestContext := { userID := some 7, userRole := some RoleCitizen }

/-- The request context of an executor with user id 7 (the owner of `sampleAppeal`). -/
def executorOwnerCtx : RequestContext := { userID := some 7, userRole := some RoleExecutor }

/-- A handler over `sampleService`. -/
def sampleHandler : AppealHandler := { service := sampleService }

/-- An edit that changes the title only. -/
def retitleRequest : UpdateAppealRequest :=
  { Title := some "Не працює ліхтар", Description := none, CategoryID := none,
    Address := none, Latitude := none, Longitude := none }

/-- An edit that changes the address and both coordinates. -/
def relocateRequest : UpdateAppealRequest :=
  { Title := none, Description := none, CategoryID := none,
    Address := some "вул. Інша, 2", Latitude := some (.fin 10), Longitude := some (.fin 20) }

/-! ## Runs of handler requests -/

/-- One request to a handler of the appeal lifecycle, with what the environment does while
it is served. -/
inductive HandlerOp where
  | create (h : AppealHandler) (w : CreateWorld) (now : Time) (ctx : RequestContext)
      (body : Option CreateAppealRequest)
  | update (h : AppealHandler) (w : UpdateWorld) (now : Time) (ctx : RequestContext)
      (id : Option Int) (body : Option UpdateAppealRequest)
  | updateStatus (h : AppealHandler) (w : UpdateStatusWorld) (now : Time)
      (ctx : RequestContext) (id : Option Int) (body : Option UpdateStatusRequest)
  | updatePriority (h : AppealHandler) (f : Fault) (now : Time) (ctx : RequestContext)
      (id : Option Int) (body : Option UpdatePriorityRequest)
  | assign (h : AppealHandler) (w : TxFaults) (now : Time) (ctx : RequestContext)
      (id : Option Int) (body : Option AssignAppealRequest)

/-- The database after one handler request, whatever the response. -/
def handle (db : DB) : HandlerOp → DB
  | .create h w now ctx body => (h.Create db w now ctx body).2
  | .update h w now ctx id body => (h.Update db w now ctx id body).2
  | .updateStatus h w now ctx id body => (h.UpdateStatus db w now ctx id body).2
  | .updatePriority h f now ctx id body => (h.UpdatePriority db f now ctx id body).2
  | .assign h w now ctx id body => (h.Assign db w now ctx id body).2

/-- The database after a sequence of handler requests. -/
def serve (db : DB) (ops : List HandlerOp) : DB := ops.foldl handle db

/-- Every row of `appeals` has a status and a priority that satisfy `Q`. -/
def RowsSatisfy (Q : AppealStatus → Int → Prop) (db : DB) : Prop :=
  ∀ a ∈ db.appeals, Q a.Status a.Priority

/-- Priorities 1, 2 and 3. -/
def PriorityInRange (_s : AppealStatus) (p : Int) : Prop := 1 ≤ p ∧ p ≤ 3

/-- A handler over `manualService` (no classifier). -/
def manualHandler : AppealHandler := { service := manualService }

/-- Requests of one session: a citizen files an appeal with priority 3, a dispatcher assigns
it without a priority, then sets priority 1. -/
def priorityRun : List HandlerOp :=
  [.create manualHandler routedWorld 1 citizenCtx
      (some { sampleRequest with Priority := some 3 }),
   .assign manualHandler TxFaults.none 2 dispatcherCtx (some 1) (some ⟨4, none⟩),
   .updatePriority manualHandler none 3 dispatcherCtx (some 1) (some ⟨1⟩)]

/-- The status of a row is one of the six tokens. -/
def StatusKnown (s : AppealStatus) (_p : Int) : Prop := isKnownStatus s = true

/-- Whether the request, if it is an UpdateStatus request with a decoded body, carries one
of the six status tokens as its target. -/
def HandlerOp.statusTargetKnown : HandlerOp → Bool
  | .updateStatus _ _ _ _ _ (some req) => isKnownStatus req.Status
  | _ => true

/-- Requests of one session: a citizen files an appeal, a dispatcher sets its status to the
string "foo". -/
def fooRun : List HandlerOp :=
  [.create manualHandler routedWorld 1 citizenCtx (some sampleRequest),
   .updateStatus manualHandler ⟨none, TxFaults.none⟩ 2 dispatcherCtx (some 1)
      (some ⟨"foo", none⟩)]

/-- Requests of one session: a citizen files an appeal, a dispatcher takes it into work and
completes it. -/
def knownRun : List HandlerOp :=
  [.create manualHandler routedWorld 1 citizenCtx (some sampleRequest),
   .updateStatus manualHandler ⟨none, TxFaults.none⟩ 2 dispatcherCtx (some 1)
      (some ⟨"in_progress", none⟩),
   .updateStatus manualHandler ⟨none, TxFaults.none⟩ 3 dispatcherCtx (some 1)
      (some ⟨"completed", some "готово"⟩)]

/-! ## Role middleware -/

/-- An `http.Handler` behind `AuthMiddleware`: it reads the request context and the store
and writes one response. -/
abbrev Handler := RequestContext → DB → Response × DB

/-- The `respondError` of package `middleware`: the status and the body
`{"success": false, "error": message}`. -/
def Middleware.respondError (status : Nat) (message : String) : Response :=
  { status := status, success := false, data := none, error := message }

/-- `middleware.RequireRole(roles...)`, applied to the handler `next`. -/
def RequireRole (roles : List UserRole) (next : Handler) : Handler := fun ctx db =>
  match ctx.userRole with
  | none => (Middleware.respondError 401 "User role not found", db)
  | some userRole =>
    -- Check if user has required role
    let hasRole := roles.any (fun role => userRole == role)
    if !hasRole then (Middleware.respondError 403 "Insufficient permissions", db)
    else next ctx db

/-- The handler of `auth_test.go`: it answers 200 and leaves the store alone. -/
def okHandler : Handler := fun _ db =>
  ({ status := 200, success := true, data := none, error := "" }, db)

/-! ## Token service -/

/-- How a Go call ends: it returns, or the runtime panics. -/
inductive Outcome (α : Type) where
  | returned (value : α)
  | panicked (message : String)
  deriving DecidableEq

/-- The errors of `pkg/auth`. -/
inductive AuthError where
  /-- The package variable `ErrInvalidToken`. -/
  | ErrInvalidToken
  /-- The package variable `ErrExpiredToken`. -/
  | ErrExpiredToken
  /-- An error of the signing step. -/
  | signing (msg : String)
  deriving DecidableEq

/-- `auth.Claims`; the three dates of `jwt.RegisteredClaims` that the service writes. -/
structure Claims where
  UserID : Int
  Email : String
  Role : UserRole
  ExpiresAt : Option Time
  IssuedAt : Option Time
  NotBefore : Option Time
  deriving DecidableEq

/-- `auth.TokenService`; the expiration is a number of clock ticks. -/
structure TokenService where
  secretKey : String
  expiration : Nat
  deriving DecidableEq

/-- What `jwt.ParseWithClaims` (library code) returns for a token string. -/
inductive ParseOutcome where
  /-- A non-nil error; `expired` is `errors.Is(err, jwt.ErrTokenExpired)`. -/
  | failed (expired : Bool)
  /-- A token and a nil error; `claims` is the value of the type assertion
  `token.Claims.(*Claims)` (`none` when it fails) and `valid` is `token.Valid`. -/
  | parsed (claims : Option Claims) (valid : Bool)
  deriving DecidableEq

/-- `TokenService.ValidateToken`; `parse` is the library's verdict on each token string
under the service's key at the time of the call. -/
def TokenService.ValidateToken (_s : TokenService) (parse : String → ParseOutcome)
    (tokenString : String) : Option Claims × Option AuthError :=
  match parse tokenString with
  | .failed expired =>
    if expired then (none, some .ErrExpiredToken) else (none, some .ErrInvalidToken)
  | .parsed claims valid =>
    match claims with
    | none => (none, some .ErrInvalidToken)
    | some c => if !valid then (none, some .ErrInvalidToken) else (some c, none)

/-- `TokenService.RefreshToken`. `sign` is `token.SignedString` under the service's key and
`now` is `time.Now()`. Writing a field through a nil `*Claims` panics. -/
def TokenService.RefreshToken (s : TokenService) (parse : String → ParseOutcome)
    (sign : Claims → String × Option AuthError) (now : Time) (oldTokenString : String) :
    Outcome (String × Option AuthError) :=
  let (claims, err) := s.ValidateToken parse oldTokenString
  if err != none && !(err == some .ErrExpiredToken) then .returned ("", err)
  else
    -- Create new token with the same claims but new expiration
    match claims with
    | none => .panicked "runtime error: invalid memory address or nil pointer dereference"
    | some claims =>
      let claims := { claims with ExpiresAt := some (now + s.expiration) }
      let claims := { claims with IssuedAt := some now }
      let claims := { claims with NotBefore := some now }
      .returned (sign claims)

/-- A token service with a one-day expiration (in seconds). -/
def sampleTokenService : TokenService := { secretKey := "test-secret", expiration := 86400 }

/-- The claims of a dispatcher's token issued at 0. -/
def sampleClaims : Claims :=
  { UserID := 1, Email := "dispatcher@example.com", Role := RoleDispatcher,
    ExpiresAt := some 86400, IssuedAt := some 0, NotBefore := some 0 }

/-- The library's verdicts at a time after 86400: the token `"expired"` carries a good
signature and a passed expiry date, `"fresh"` is valid, anything else does not parse. -/
def sampleParse (tokenString : String) : ParseOutcome :=
  if tokenString == "expired" then .failed true
  else if tokenString == "fresh" then .parsed (some sampleClaims) true
  else .failed false

/-- A signer that never fails. -/
def sampleSign (c : Claims) : String × Option AuthError :=
  ("signed:" ++ c.Email, none)

/-! ## Listing appeals -/

/-- `models.AppealFilters`. -/
structure AppealFilters where
  Status : Option AppealStatus
  CategoryID : Option Int
  ServiceID : Option Int
  UserID : Option Int
  FromDate : Option Time
  ToDate : Option Time
  Search : Option String
  Page : Int
  Limit : Int
  SortBy : String
  SortOrder : String
  deriving DecidableEq

/-- Go arithmetic on `int` (64 bits): the result wraps around. -/
def wrapInt64 (x : Int) : Int := (x + 2 ^ 63) % 2 ^ 64 - 2 ^ 63

/-- What the environment does during one `List`, and the two parts of PostgreSQL that the
embedding does not spell out. -/
structure ListWorld where
  /-- The round trip of the `COUNT(*)` statement. -/
  count : Fault
  /-- The round trip of the page statement. -/
  query : Fault
  /-- PostgreSQL `text ILIKE pattern`. -/
  ILIKE : String → String → Bool
  /-- The rows in the order of an `ORDER BY` clause. -/
  ORDER_BY : String → List Appeal → List Appeal

/-- The `WHERE` clause that `List` builds from the filters. -/
def AppealFilters.selects (filters : AppealFilters) (ilike : String → String → Bool)
    (a : Appeal) : Bool :=
  (match filters.Status with
    | some status => a.Status == status
    | none => true) &&
  (match filters.CategoryID with
    | some categoryID => a.CategoryID == some categoryID
    | none => true) &&
  (match filters.ServiceID with
    | some serviceID => a.ServiceID == some serviceID
    | none => true) &&
  (match filters.UserID with
    | some userID => a.UserID == userID
    | none => true) &&
  (match filters.FromDate with
    | some fromDate => decide (a.CreatedAt ≥ fromDate)
    | none => true) &&
  (match filters.ToDate with
    | some toDate => decide (a.CreatedAt ≤ toDate)
    | none => true) &&
  (match filters.Search with
    | some search =>
      if search != "" then
        ilike a.Title ("%" ++ search ++ "%") || ilike a.Description ("%" ++ search ++ "%")
      else true
    | none => true)

/-- The `ORDER BY` clause that `List` builds from `SortBy` and `SortOrder`. -/
def AppealFilters.orderBy (filters : AppealFilters) : String :=
  if filters.SortBy != "" then
    let order := if filters.SortOrder == "asc" then "ASC" else "DESC"
    if filters.SortBy == "priority" then "a.priority " ++ order ++ ", a.created_at DESC"
    else if filters.SortBy == "created_at" then "a.created_at " ++ order
    else if filters.SortBy == "status" then "a.status " ++ order ++ ", a.created_at DESC"
    else "a.created_at DESC"
  else "a.created_at DESC"

/-- `AppealRepository.List`, as far as the columns of `appeals` go (the joined names are not
part of `Appeal` here). The filters are passed by pointer and `List` writes the page and
the limit it uses back into them, so the result carries the filters after the call.
PostgreSQL refuses a negative `OFFSET`. -/
def AppealRepository.List (db : DB) (w : ListWorld) (filters : AppealFilters) :
    Except Error (List Appeal × Int) × AppealFilters :=
  let selected := db.appeals.filter (filters.selects w.ILIKE)
  -- Count total
  match w.count with
  | some err => (.error (.wrapped "failed to count appeals" err), filters)
  | none =>
    let total : Int := selected.length
    let orderBy := filters.orderBy
    -- Pagination
    let filters := if filters.Limit ≤ 0 then { filters with Limit := 20 } else filters
    let filters := if filters.Page ≤ 0 then { filters with Page := 1 } else filters
    let offset := wrapInt64 (wrapInt64 (filters.Page - 1) * filters.Limit)
    -- Get appeals
    match w.query with
    | some err => (.error (.wrapped "failed to list appeals" err), filters)
    | none =>
      if offset < 0 then
        (.error (.wrapped "failed to list appeals" (.failure "OFFSET must not be negative")),
          filters)
      else
        let appeals := ((w.ORDER_BY orderBy selected).drop offset.toNat).take filters.Limit.toNat
        (.ok (appeals, total), filters)

/-- The query parameters of `GET /appeals` after parsing: a field is `none` when the
parameter is absent, empty, or does not parse (`strconv.Atoi`, `strconv.ParseInt`,
`time.Parse` returned an error). -/
structure ListQuery where
  page : Option Int
  limit : Option Int
  status : Option String
  category_id : Option Int
  service_id : Option Int
  user_id : Option Int
  search : Option String
  from_date : Option Time
  to_date : Option Time
  sort_by : String
  sort_order : String
  deriving DecidableEq

/-- `models.PaginatedResponse`. -/
structure PaginatedResponse where
  Items : List Appeal
  Total : Int
  Page : Int
  Limit : Int
  TotalPages : Int
  deriving DecidableEq

/-- What `AppealHandler.List` writes. -/
inductive ListAnswer where
  /-- `respondError`. -/
  | failure (r : Response)
  /-- `respondJSON(w, http.StatusOK, response)`. -/
  | page (response : PaginatedResponse)
  deriving DecidableEq

/-- The filters `AppealHandler.List` builds from the query parameters. -/
def AppealHandler.listFilters (q : ListQuery) : AppealFilters :=
  let filters : AppealFilters :=
    { Status := none, CategoryID := none, ServiceID := none, UserID := none, FromDate := none,
      ToDate := none, Search := none, Page := 1, Limit := 20, SortBy := "", SortOrder := "" }
  let filters := match q.page with
    | some page => { filters with Page := page }
    | none => filters
  let filters := match q.limit with
    | some limit => { filters with Limit := limit }
    | none => filters
  { filters with
    Status := q.status, CategoryID := q.category_id, ServiceID := q.service_id,
    UserID := q.user_id, Search := q.search, FromDate := q.from_date, ToDate := q.to_date,
    SortBy := q.sort_by, SortOrder := q.sort_order }

/-- `AppealHandler.List`. Go's integer `/` and `%` truncate towards zero and panic on a zero
divisor. -/
def AppealHandler.List (_h : AppealHandler) (db : DB) (w : ListWorld) (q : ListQuery) :
    Outcome ListAnswer :=
  match AppealRepository.List db w (AppealHandler.listFilters q) with
  | (.error _, _) => .returned (.failure (respondError 500 "Failed to list appeals"))
  | (.ok (appeals, total), filters) =>
    if filters.Limit = 0 then .panicked "runtime error: integer divide by zero"
    else
      let totalPages := Int.tdiv total filters.Limit
      let totalPages := if Int.tmod total filters.Limit > 0 then totalPages + 1 else totalPages
      .returned (.page
        { Items := appeals, Total := total, Page := filters.Page, Limit := filters.Limit,
          TotalPages := totalPages })

/-- A world in which no round trip fails, the search matches nothing and the rows come in
table order. -/
def quietListWorld : ListWorld :=
  { count := none, query := none, ILIKE := fun _ _ => false, ORDER_BY := fun _ rows => rows }

/-- The request `GET /appeals?page=0&limit=0`. -/
def zeroPageQuery : ListQuery :=
  { page := some 0, limit := some 0, status := none, category_id := none,
    service_id := none, user_id := none, search := none, from_date := none,
    to_date := none, sort_by := "", sort_order := "" }

/-! ## Statistics and dashboards

The tables `categories`, `services` and `user_services` are read here and written by none
of the operations above; they are the `Catalog` passed to each call. A row's `id` is its
primary key, so a join on `id` finds at most one row. Clock readings count seconds:
`EXTRACT(EPOCH FROM (t2 - t1))` is `t2 - t1`. -/

/-- `models.Category`, the two columns the statistics read. -/
structure Category where
  ID : Int
  Name : String
  deriving DecidableEq

/-- `models.UserService`: one row of `user_services`. -/
structure UserService where
  UserID : Int
  ServiceID : Int
  deriving DecidableEq

/-- The tables the statistics join with `appeals`. -/
structure Catalog where
  categories : List Category
  services : List Service
  user_services : List UserService
  deriving DecidableEq

/-- Go `float64(n)` for an integer; `rnd q` is the `float64` nearest to the rational `q`. -/
def F64.ofInt (rnd : ℚ → ℚ) (n : Int) : F64 := .fin (rnd n)

/-- Go `a / b` on `float64` (IEEE 754, zero without a sign): a finite value over zero is
an infinity, zero over zero is NaN. -/
def F64.div (rnd : ℚ → ℚ) : F64 → F64 → F64
  | .nan, _ => .nan
  | _, .nan => .nan
  | .fin a, .fin b =>
    if b = 0 then (if a = 0 then .nan else if 0 < a then .posInf else .negInf)
    else .fin (rnd (a / b))
  | .fin _, _ => .fin 0
  | .posInf, .fin b => if 0 ≤ b then .posInf else .negInf
  | .negInf, .fin b => if 0 ≤ b then .negInf else .posInf
  | _, _ => .nan

/-- Go `a * b` on `float64` (IEEE 754, zero without a sign). -/
def F64.mul (rnd : ℚ → ℚ) : F64 → F64 → F64
  | .nan, _ => .nan
  | _, .nan => .nan
  | .fin a, .fin b => .fin (rnd (a * b))
  | .fin a, .posInf => if a = 0 then .nan else if 0 < a then .posInf else .negInf
  | .fin a, .negInf => if a = 0 then .nan else if 0 < a then .negInf else .posInf
  | .posInf, .fin b => if b = 0 then .nan else if 0 < b then .posInf else .negInf
  | .negInf, .fin b => if b = 0 then .nan else if 0 < b then .negInf else .posInf
  | .posInf, .posInf => .posInf
  | .negInf, .negInf => .posInf
  | _, _ => .negInf

/-- Whether a `float64` is neither NaN nor an infinity. -/
def F64.isFinite : F64 → Bool
  | .fin _ => true
  | _ => false

/-- The statement the repository writes three times over a variable that starts at `0.0`:
`if totalCompleted > 0 { onTimePercentage = float64(onTimeCount) /
float64(totalCompleted) * 100 }`. -/
def onTimePercentage (rnd : ℚ → ℚ) (onTimeCount totalCompleted : Int) : F64 :=
  if totalCompleted > 0 then
    F64.mul rnd (F64.div rnd (F64.ofInt rnd onTimeCount) (F64.ofInt rnd totalCompleted))
      (.fin 100)
  else .fin 0

/-- SQL `status IN ('closed', 'completed')`. -/
def isCompleted (a : Appeal) : Bool := a.Status == "closed" || a.Status == "completed"

/-- SQL `closed_at IS NOT NULL AND EXTRACT(EPOCH FROM (closed_at - created_at))/86400 <= 30`. -/
def closedWithin30Days (a : Appeal) : Bool :=
  match a.ClosedAt with
  | some closedAt => decide ((closedAt : Int) - a.CreatedAt ≤ 30 * 86400)
  | none => false

/-- SQL `status NOT IN ('closed', 'rejected') AND created_at < NOW() - INTERVAL '30 days'`. -/
def isOverdue (now : Time) (a : Appeal) : Bool :=
  !(a.Status == "closed" || a.Status == "rejected") &&
    decide ((a.CreatedAt : Int) < now - 30 * 86400)

/-- The rows of `SELECT key, COUNT(*) ... GROUP BY key`: one row per distinct key. -/
def groupCounts {α : Type} [DecidableEq α] (keys : List α) : List (α × Int) :=
  keys.dedup.map (fun k => (k, ((keys.filter (fun x => decide (x = k))).length : Int)))

/-- The rows of `... GROUP BY key ORDER BY COUNT(*) DESC LIMIT n` (between groups of equal
size PostgreSQL promises no order; here the earlier group comes first). -/
def topGroups {α : Type} [DecidableEq α] (n : Nat) (keys : List α) : List (α × Int) :=
  ((groupCounts keys).insertionSort (fun x y => x.2 ≥ y.2)).take n

/-- A Go `map[string]int64`, as the list of its entries. -/
abbrev CountMap := List (String × Int)

/-- Go `m[key] = value`. -/
def CountMap.set (m : CountMap) (key : String) (value : Int) : CountMap :=
  m.filter (fun e => e.1 != key) ++ [(key, value)]

/-- Go `value, ok := m[key]`. -/
def CountMap.get (m : CountMap) (key : String) : Option Int :=
  (m.find? (fun e => e.1 == key)).map (fun e => e.2)

/-- The loop of `GetStatistics` over the rows of a grouped count: a NULL name is stored
under `bucket`. -/
def scanNamedCounts (bucket : String) (rows : List (Option String × Int)) : CountMap :=
  rows.foldl
    (fun m row =>
      let name := match row.1 with
        | some categoryName => categoryName
        | none => bucket
      m.set name row.2)
    []

/-- The `c.name` of `appeals a LEFT JOIN categories c ON a.category_id = c.id`; NULL when
the appeal has no category or no category row matches. -/
def Catalog.categoryName (cat : Catalog) (a : Appeal) : Option String :=
  match a.CategoryID with
  | some id => (cat.categories.find? (fun c => c.ID == id)).map (fun c => c.Name)
  | none => none

/-- The `s.name` of `appeals a LEFT JOIN services s ON a.service_id = s.id`. -/
def Catalog.serviceName (cat : Catalog) (a : Appeal) : Option String :=
  match a.ServiceID with
  | some id => (cat.services.find? (fun s => s.ID == id)).map (fun s => s.Name)
  | none => none

/-- The date range of `GetStatistics`: `created_at >= fromDate AND created_at <= toDate`,
each bound only when given. -/
def inDateRange (fromDate toDate : Option Time) (a : Appeal) : Bool :=
  (match fromDate with
    | some d => decide (a.CreatedAt ≥ d)
    | none => true) &&
  (match toDate with
    | some d => decide (a.CreatedAt ≤ d)
    | none => true)

/-- The entries of the map `GetStatistics` returns that are embedded here. The entries
`total`, `by_status`, `avg_processing_days`, `avg_processing_hours`, `daily_trend`,
`by_priority` and `overdue_count` come from statements of their own, whose results these
entries do not read. -/
structure Statistics where
  by_category : CountMap
  by_service : CountMap
  on_time_percentage : F64
  on_time_count : Int
  total_completed : Int
  deriving DecidableEq

/-- What the environment does during one `GetStatistics`. -/
structure StatisticsWorld where
  /-- The error with which one of the statements before the category statement (total,
  by status, average time) makes the function return, if any. -/
  before : Option Error
  /-- The round trip of the category statement. -/
  category : Fault
  /-- The round trip of the service statement. -/
  service : Fault
  /-- The error with which one of the statements between the service statement and the
  on-time statement (daily trend, by priority, overdue) makes the function return. -/
  between : Option Error
  /-- The round trip of the on-time statement. -/
  onTime : Fault

/-- `AppealRepository.GetStatistics`. -/
def AppealRepository.GetStatistics (db : DB) (cat : Catalog) (w : StatisticsWorld)
    (rnd : ℚ → ℚ) (fromDate toDate : Option Time) : Except Error Statistics :=
  let selected := db.appeals.filter (inDateRange fromDate toDate)
  match w.before with
  | some err => .error err
  | none =>
    -- By category
    match w.category with
    | some err => .error (.wrapped "failed to get category stats" err)
    | none =>
      let byCategory :=
        scanNamedCounts "Без категорії" (topGroups 10 (selected.map cat.categoryName))
      -- By service
      match w.service with
      | some err => .error (.wrapped "failed to get service stats" err)
      | none =>
        let byService :=
          scanNamedCounts "Не призначено" (topGroups 10 (selected.map cat.serviceName))
        match w.between with
        | some err => .error err
        | none =>
          -- Percentage of appeals completed on time (within 30 days)
          let completed := selected.filter isCompleted
          let counts : Except Error (Int × Int) :=
            match w.onTime with
            | none => .ok (((completed.filter closedWithin30Days).length : Int),
                ((completed.filter isCompleted).length : Int))
            | some .ErrNoRows => .ok (0, 0)
            | some err => .error (.wrapped "failed to calculate on-time percentage" err)
          match counts with
          | .error err => .error err
          | .ok (onTimeCount, totalCompleted) =>
            .ok { by_category := byCategory, by_service := byService,
                  on_time_percentage := onTimePercentage rnd onTimeCount totalCompleted,
                  on_time_count := onTimeCount, total_completed := totalCompleted }

/-- One element of `all_services_stats` (admin dashboard). -/
structure ServiceStats where
  id : Int
  name : String
  total_appeals : Int
  new_count : Int
  assigned_count : Int
  in_progress_count : Int
  completed_count : Int
  overdue_count : Int
  avg_hours : F64
  avg_days : F64
  on_time_count : Int
  total_completed : Int
  on_time_percentage : F64
  deriving DecidableEq

/-- What the environment does during the last statement of `GetAdminDashboard`. -/
structure AdminDashboardWorld where
  /-- The error with which one of the earlier statements of the dashboard makes the
  function return, if any. -/
  before : Option Error
  /-- The round trip of the statement over all services. -/
  allServices : Fault
  /-- The rows in the order of `ORDER BY s.name ASC` (the database's collation). -/
  ORDER_BY_name : List Service → List Service
  /-- The `AVG(...) FILTER (...)` of a service's appeals, in hours; NULL when no row
  qualifies. -/
  avgHours : Int → Option F64

/-- The row that the statement over all services computes for one service, from the appeals
joined to it (`LEFT JOIN appeals a ON s.id = a.service_id`), and the map the loop builds
from that row. -/
def allServicesStatsRow (db : DB) (w : AdminDashboardWorld) (rnd : ℚ → ℚ) (now : Time)
    (s : Service) : ServiceStats :=
  let joined := db.appeals.filter (fun a => a.ServiceID == some s.ID)
  let avgHoursVal := match w.avgHours s.ID with
    | some avgHours => avgHours
    | none => .fin 0
  let onTimeCount : Int :=
    (joined.filter (fun a => isCompleted a && closedWithin30Days a)).length
  let totalCompleted : Int := (joined.filter isCompleted).length
  { id := s.ID, name := s.Name,
    total_appeals := joined.length,
    new_count := (joined.filter (fun a => a.Status == "new")).length,
    assigned_count := (joined.filter (fun a => a.Status == "assigned")).length,
    in_progress_count := (joined.filter (fun a => a.Status == "in_progress")).length,
    completed_count :=
      (joined.filter (fun a => a.Status == "completed" || a.Status == "closed")).length,
    overdue_count := (joined.filter (isOverdue now)).length,
    avg_hours := avgHoursVal,
    avg_days := F64.div rnd avgHoursVal (.fin 24),
    on_time_count := onTimeCount,
    total_completed := totalCompleted,
    on_time_percentage := onTimePercentage rnd onTimeCount totalCompleted }

/-- The entry of the map `GetAdminDashboard` returns that is embedded here; the other
entries come from earlier statements of their own. -/
structure AdminDashboard where
  all_services_stats : List ServiceStats
  deriving DecidableEq

/-- `AppealRepository.GetAdminDashboard`. -/
def AppealRepository.GetAdminDashboard (db : DB) (cat : Catalog) (w : AdminDashboardWorld)
    (rnd : ℚ → ℚ) (now : Time) : Except Error AdminDashboard :=
  match w.before with
  | some err => .error err
  | none =>
    -- Detailed statistics for all services
    match w.allServices with
    | some err => .error (.wrapped "failed to get all services stats" err)
    | none =>
      .ok { all_services_stats :=
              (w.ORDER_BY_name (cat.services.filter (fun s => s.IsActive))).map
                (allServicesStatsRow db w rnd now) }

/-- One element of `category_distribution`. -/
structure CategoryCount where
  category : String
  count : Int
  deriving DecidableEq

/-- The entry `overall` of the per-service statistics. -/
structure OverallStats where
  total_appeals : Int
  new_count : Int
  assigned_count : Int
  in_progress_count : Int
  completed_count : Int
  rejected_count : Int
  overdue_count : Int
  avg_days : F64
  on_time_count : Int
  total_completed : Int
  on_time_percentage : F64
  deriving DecidableEq

/-- The entries of the map `GetServiceStatistics` returns that are embedded here
(`service`, `monthly_trend`, `status_distribution` and `recent_appeals` are left out). -/
structure ServiceStatistics where
  overall : OverallStats
  category_distribution : List CategoryCount
  deriving DecidableEq

/-- What the environment does during one `GetServiceStatistics`. -/
structure ServiceStatisticsWorld where
  /-- The round trip of the service info statement. -/
  serviceInfo : Fault
  /-- The round trip of the overall statement. -/
  overall : Fault
  /-- The error with which one of the statements between the overall and the category
  statement (monthly trend, status distribution) makes the function return, if any. -/
  between : Option Error
  /-- The round trip of the category distribution statement. -/
  categoryDist : Fault
  /-- The error with which the recent appeals statement makes the function return. -/
  after : Option Error
  /-- The `AVG(...) FILTER (...)` of the service's appeals, in days. -/
  avgDays : Option F64

/-- The `(c.id, c.name)` of `appeals a INNER JOIN categories c ON a.category_id = c.id`:
an appeal without a matching category yields no row. -/
def Catalog.categoryOf (cat : Catalog) (a : Appeal) : Option (Int × String) :=
  match a.CategoryID with
  | some id => (cat.categories.find? (fun c => c.ID == id)).map (fun c => (c.ID, c.Name))
  | none => none

/-- `AppealRepository.GetServiceStatistics`. -/
def AppealRepository.GetServiceStatistics (db : DB) (cat : Catalog)
    (w : ServiceStatisticsWorld) (rnd : ℚ → ℚ) (now : Time) (serviceID : Int) :
    Except Error ServiceStatistics :=
  -- Get service info
  match w.serviceInfo, cat.services.find? (fun s => s.ID == serviceID) with
  | some err, _ => .error (.wrapped "failed to get service info" err)
  | none, none => .error (.wrapped "failed to get service info" .ErrNoRows)
  | none, some _service =>
    let ofService := db.appeals.filter (fun a => a.ServiceID == some serviceID)
    -- Overall statistics: when the row is missing every scanned variable keeps its zero
    let overall : Except Error OverallStats :=
      match w.overall with
      | some .ErrNoRows =>
        .ok { total_appeals := 0, new_count := 0, assigned_count := 0,
              in_progress_count := 0, completed_count := 0, rejected_count := 0,
              overdue_count := 0, avg_days := .fin 0, on_time_count := 0,
              total_completed := 0, on_time_percentage := onTimePercentage rnd 0 0 }
      | some err => .error (.wrapped "failed to get overall stats" err)
      | none =>
        let avgDaysVal := match w.avgDays with
          | some avgDays => avgDays
          | none => .fin 0
        let onTimeCount : Int :=
          (ofService.filter (fun a => isCompleted a && closedWithin30Days a)).length
        let totalCompleted : Int := (ofService.filter isCompleted).length
        .ok { total_appeals := ofService.length,
              new_count := (ofService.filter (fun a => a.Status == "new")).length,
              assigned_count := (ofService.filter (fun a => a.Status == "assigned")).length,
              in_progress_count :=
                (ofService.filter (fun a => a.Status == "in_progress")).length,
              completed_count :=
                (ofService.filter
                  (fun a => a.Status == "completed" || a.Status == "closed")).length,
              rejected_count := (ofService.filter (fun a => a.Status == "rejected")).length,
              overdue_count := (ofService.filter (isOverdue now)).length,
              avg_days := avgDaysVal,
              on_time_count := onTimeCount,
              total_completed := totalCompleted,
              on_time_percentage := onTimePercentage rnd onTimeCount totalCompleted }
    match overall with
    | .error err => .error err
    | .ok overall =>
      match w.between with
      | some err => .error err
      | none =>
        -- Category distribution
        match w.categoryDist with
        | some err => .error (.wrapped "failed to get category distribution" err)
        | none =>
          let categoryDistribution :=
            (topGroups 10 (ofService.filterMap cat.categoryOf)).map
              (fun row => ({ category := row.1.2, count := row.2 } : CategoryCount))
          match w.after with
          | some err => .error err
          | none => .ok { overall := overall, category_distribution := categoryDistribution }

/-- One element of `active_appeals`. -/
structure ActiveAppeal where
  id : Int
  title : String
  status : AppealStatus
  created_at : Time
  service_id : Int
  service_name : String
  priority : Int
  days_since_creation : Int
  deriving DecidableEq

/-- The map `GetExecutorDashboard` returns. -/
structure ExecutorDashboard where
  active_appeals : List ActiveAppeal
  my_avg_processing_time : F64
  service_avg_processing_time : F64
  deriving DecidableEq

/-- What the environment does during one `GetExecutorDashboard`. -/
structure ExecutorDashboardWorld where
  /-- The round trip of the statement that reads the executor's services. -/
  services : Fault
  /-- The round trip of the active appeals statement. -/
  active : Fault
  /-- The round trip of the statement for the executor's own average. -/
  myAvg : Fault
  /-- The round trip of the statement for the services' average. -/
  serviceAvg : Fault
  /-- The value of `int(time.Since(createdAt).Hours() / 24)` when the loop runs. -/
  daysSince : Time → Int
  /-- The `AVG(...)` of the executor's own closed appeals, in days; NULL without rows. -/
  myAvgDays : Option F64
  /-- The `AVG(...)` of the services' closed appeals, in days. -/
  serviceAvgDays : Option F64

/-- SQL `ORDER BY priority DESC, created_at ASC`: `a` may come before `b`. -/
def activeOrder (a b : Appeal) : Prop :=
  a.Priority > b.Priority ∨ (a.Priority = b.Priority ∧ a.CreatedAt ≤ b.CreatedAt)

instance : DecidableRel activeOrder := fun a b =>
  inferInstanceAs (Decidable (a.Priority > b.Priority ∨
    (a.Priority = b.Priority ∧ a.CreatedAt ≤ b.CreatedAt)))

/-- The rows of `services s INNER JOIN user_services us ON s.id = us.service_id WHERE
us.user_id = userID`. -/
def Catalog.servicesOf (cat : Catalog) (userID : Int) : List Service :=
  (cat.user_services.filter (fun us => us.UserID == userID)).filterMap
    (fun us => cat.services.find? (fun s => s.ID == us.ServiceID))

/-- Go `serviceNames[serviceID]` on the map the first loop fills: the name written last
for the id, the empty string for an absent id. -/
def serviceNameOf (services : List Service) (serviceID : Int) : String :=
  match services.reverse.find? (fun s => s.ID == serviceID) with
  | some s => s.Name
  | none => ""

/-- The rows of the active appeals statement: the appeals `WHERE service_id IN (serviceIDs)
AND status NOT IN ('closed', 'rejected') ORDER BY priority DESC, created_at ASC LIMIT 50`
(between rows equal in both columns PostgreSQL promises no order; here the table order
is kept). -/
def activeAppealRows (db : DB) (serviceIDs : List Int) : List Appeal :=
  ((db.appeals.filter (fun a =>
      (match a.ServiceID with
        | some serviceID => serviceIDs.contains serviceID
        | none => false) &&
      !(a.Status == "closed" || a.Status == "rejected"))).insertionSort activeOrder).take 50

/-- The body of the loop over the active appeals: the map appended for one row. -/
def scanActiveAppeal (w : ExecutorDashboardWorld) (services : List Service) (a : Appeal) :
    ActiveAppeal :=
  let serviceID := match a.ServiceID with
    | some serviceID => serviceID
    | none => 0
  { id := a.ID, title := a.Title, status := a.Status, created_at := a.CreatedAt,
    service_id := serviceID, service_name := serviceNameOf services serviceID,
    priority := a.Priority, days_since_creation := w.daysSince a.CreatedAt }

/-- `AppealRepository.GetExecutorDashboard`. -/
def AppealRepository.GetExecutorDashboard (db : DB) (cat : Catalog)
    (w : ExecutorDashboardWorld) (userID : Int) : Except Error ExecutorDashboard :=
  -- Get services for this executor
  match w.services with
  | some err => .error (.wrapped "failed to get executor services" err)
  | none =>
    let services := cat.servicesOf userID
    let serviceIDs := services.map (fun s => s.ID)
    if serviceIDs.length = 0 then
      .ok { active_appeals := [], my_avg_processing_time := .fin 0,
            service_avg_processing_time := .fin 0 }
    else
      -- Active appeals for this executor's services
      match w.active with
      | some err => .error (.wrapped "failed to get active appeals" err)
      | none =>
        let activeAppeals := (activeAppealRows db serviceIDs).map (scanActiveAppeal w services)
        -- My average processing time
        let myAvg : Except Error F64 :=
          match w.myAvg with
          | some .ErrNoRows => .ok (.fin 0)
          | some err => .error (.wrapped "failed to get my avg time" err)
          | none => .ok (match w.myAvgDays with
            | some myAvgDays => myAvgDays
            | none => .fin 0)
        match myAvg with
        | .error err => .error err
        | .ok myAvgDaysVal =>
          -- Service average processing time
          let serviceAvg : Except Error F64 :=
            match w.serviceAvg with
            | some .ErrNoRows => .ok (.fin 0)
            | some err => .error (.wrapped "failed to get service avg time" err)
            | none => .ok (match w.serviceAvgDays with
              | some serviceAvgDays => serviceAvgDays
              | none => .fin 0)
          match serviceAvg with
          | .error err => .error err
          | .ok serviceAvgDaysVal =>
            .ok { active_appeals := activeAppeals, my_avg_processing_time := myAvgDaysVal,
                  service_avg_processing_time := serviceAvgDaysVal }

/-- The ids of the active appeals of a dashboard, in the order of the list. -/
def activeIDs : Except Error ExecutorDashboard → Option (List Int)
  | .ok d => some (d.active_appeals.map (fun row => row.id))
  | .error _ => none

/-- Two categories, the water service, and user 9 as an executor of that service. -/
def sampleCatalog : Catalog :=
  { categories := [{ ID := 3, Name := "Водопостачання" }, { ID := 5, Name := "Дороги" }],
    services := [waterService],
    user_services := [{ UserID := 9, ServiceID := 4 }] }

/-- Three appeals of the water service: appeals 1 and 2 have priority 2 and were created
at 100 and 200, appeal 3 has priority 3 and was created at 300; a fourth appeal is closed. -/
def queueDB : DB :=
  { appeals :=
      [{ sampleAppeal with ID := 2, ServiceID := some 4, Status := "assigned",
                           CreatedAt := 200, UpdatedAt := 200 },
       { sampleAppeal with ID := 1, ServiceID := some 4, Status := "assigned",
                           CreatedAt := 100, UpdatedAt := 100 },
       { sampleAppeal with ID := 3, ServiceID := some 4, Status := "in_progress",
                           Priority := 3, CreatedAt := 300, UpdatedAt := 300 },
       { sampleAppeal with ID := 4, ServiceID := some 4, Status := "closed",
                           CreatedAt := 50, UpdatedAt := 60, ClosedAt := some 60 }],
    appeal_history := [], appeals_id_seq := 4, appeal_history_id_seq := 0 }

/-- A world in which no round trip of the executor dashboard fails. -/
def quietExecutorWorld : ExecutorDashboardWorld :=
  { services := none, active := none, myAvg := none, serviceAvg := none,
    daysSince := fun _ => 0, myAvgDays := none, serviceAvgDays := none }

/-- Go `math.Max` on `float64` (zero without a sign): an infinity wins, then NaN. -/
def F64.max (a b : F64) : F64 :=
  if a = .posInf ∨ b = .posInf then .posInf
  else if a = .nan ∨ b = .nan then .nan
  else if F64.lt a b then b else a

/-- Go `math.Min` on `float64` (zero without a sign). -/
def F64.min (a b : F64) : F64 :=
  if a = .negInf ∨ b = .negInf then .negInf
  else if a = .nan ∨ b = .nan then .nan
  else if F64.lt b a then b else a

/-- The specification's wording of the stored threshold: `min(1, max(0, t))`. -/
def specClampedThreshold (t : F64) : F64 := F64.min (.fin 1) (F64.max (.fin 0) t)

/-- An appeal that was closed at 8. -/
def closedAppeal : Appeal :=
  { sampleAppeal with Status := "closed", ServiceID := some 4, UpdatedAt := 8,
                      ClosedAt := some 8 }

/-- A database holding `closedAppeal` only. -/
def closedDB : DB :=
  { appeals := [closedAppeal], appeal_history := [], appeals_id_seq := 1,
    appeal_history_id_seq := 0 }

/-- The request `GET /appeals?page=4611686018427387905&limit=2`: the offset computed in
64 bits wraps around to a negative number. -/
def hugePageQuery : ListQuery :=
  { zeroPageQuery with page := some (2 ^ 62 + 1), limit := some 2 }

/-- The rounding of sample data: every value that occurs is a `float64` already. -/
def exactRounding (q : ℚ) : ℚ := q

/-- A world in which no statement of `GetStatistics` fails. -/
def quietStatisticsWorld : StatisticsWorld :=
  { before := none, category := none, service := none, between := none, onTime := none }

/-- A world in which no statement of the admin dashboard fails. -/
def quietAdminWorld : AdminDashboardWorld :=
  { before := none, allServices := none, ORDER_BY_name := fun rows => rows,
    avgHours := fun _ => none }

/-- A world in which no statement of `GetServiceStatistics` fails. -/
def quietServiceStatisticsWorld : ServiceStatisticsWorld :=
  { serviceInfo := none, overall := none, between := none, categoryDist := none,
    after := none, avgDays := none }

/-- Ten categories. -/
def crowdedCatalog : Catalog :=
  { categories :=
      [{ ID := 1, Name := "A" }, { ID := 2, Name := "B" }, { ID := 3, Name := "C" },
       { ID := 4, Name := "D" }, { ID := 5, Name := "E" }, { ID := 6, Name := "F" },
       { ID := 7, Name := "G" }, { ID := 8, Name := "H" }, { ID := 9, Name := "I" },
       { ID := 10, Name := "J" }],
    services := [waterService], user_services := [] }

/-- Two appeals in each of the ten categories and, last, one appeal without a category. -/
def crowdedDB : DB :=
  { appeals :=
      (List.range 20).map (fun i =>
        { sampleAppeal with ID := (i : Int) + 1, CategoryID := some ((i / 2 : Nat) + 1) })
      ++ [{ sampleAppeal with ID := 21, CategoryID := none }],
    appeal_history := [], appeals_id_seq := 21, appeal_history_id_seq := 0 }

/-- One appeal of the water service that has no category. -/
def uncategorizedDB : DB :=
  { appeals := [{ sampleAppeal with CategoryID := none, ServiceID := some 4,
                                    Status := "assigned" }],
    appeal_history := [], appeals_id_seq := 1, appeal_history_id_seq := 0 }

/-! ## Concurrent status changes

Several `UpdateStatus` calls run against one server and the scheduler picks, statement by
statement, which call moves next. A transaction's writes reach the committed database when
it commits; the `UPDATE` takes the lock of the row and keeps it until the transaction
ends, so the `UPDATE` of another call on the same row waits. `nextval` of a sequence is
not undone or delayed by transactions. No round trip fails here: failures are the subject
of the sequential embedding above. -/

/-- The isolation level of the transactions that `r.db.Begin(ctx)` opens. `Begin` passes no
options, so it is the level the server is configured with; PostgreSQL's default is READ
COMMITTED. (SERIALIZABLE treats the statements of `UpdateStatus` as REPEATABLE READ
does.) -/
inductive Isolation where
  /-- Every statement sees what was committed before the statement began. -/
  | readCommitted
  /-- Every statement sees what was committed before the first statement of the
  transaction, and an `UPDATE` of a row that was changed since fails. -/
  | repeatableRead
  deriving DecidableEq

/-- The arguments of one `UpdateStatus` call, and the `NOW()` of its transaction. -/
structure UpdateStatusCall where
  appealID : Int
  newStatus : AppealStatus
  userID : Int
  comment : Option String
  now : Time
  deriving DecidableEq

/-- How far a running `UpdateStatus` call has come. -/
inductive CallPhase where
  /-- Before `r.db.Begin`. -/
  | notStarted
  /-- The transaction is open and has run no statement. -/
  | begun
  /-- `SELECT status` has returned `oldStatus`; `snapshot` is the database it saw. -/
  | selected (oldStatus : AppealStatus) (snapshot : DB)
  /-- The `UPDATE` has run: the call holds the lock of the row. -/
  | updated (oldStatus : AppealStatus)
  /-- The `INSERT INTO appeal_history` has run and drawn `historyID` from the sequence. -/
  | recorded (oldStatus : AppealStatus) (historyID : Int)
  /-- The call has returned `err`. -/
  | returned (err : Option Error)
  deriving DecidableEq

/-- Whether a call in this phase holds the lock of its row. -/
def CallPhase.holdsRowLock : CallPhase → Bool
  | .updated _ => true
  | .recorded _ _ => true
  | _ => false

/-- The committed database and the calls in flight. -/
structure Server where
  committed : DB
  calls : List (UpdateStatusCall × CallPhase)
  deriving DecidableEq

/-- Whether a call other than the `i`-th holds the lock of the row `appealID`. -/
def Server.lockedByOther (s : Server) (i : Nat) (appealID : Int) : Bool :=
  s.calls.enum.any (fun jc => jc.1 != i && jc.2.1.appealID == appealID && jc.2.2.holdsRowLock)

/-- The `SET` clause of the `UPDATE` that `UpdateStatus` picks for a new status. -/
def UpdateStatusCall.write (c : UpdateStatusCall) : Appeal → Appeal :=
  -- Set closed_at for both 'closed' and 'completed' statuses
  if c.newStatus == StatusClosed || c.newStatus == StatusCompleted then
    fun a => { a with Status := c.newStatus, UpdatedAt := c.now, ClosedAt := some c.now }
  else
    fun a => { a with Status := c.newStatus, UpdatedAt := c.now }

/-- The next statement of the `i`-th call, in the order of the body of `UpdateStatus`:
`Begin`, `SELECT status`, `UPDATE`, then `Commit` (status unchanged) or `INSERT INTO
appeal_history` and `Commit`. The result is `none` when the call cannot move: it has
returned, or its `UPDATE` waits for the lock of the row. At REPEATABLE READ a row counts
as changed since the snapshot when its columns differ. -/
def Server.step (level : Isolation) (s : Server) (i : Nat) : Option Server :=
  match s.calls[i]? with
  | none => none
  | some (c, phase) =>
    let next (committed : DB) (phase : CallPhase) : Option Server :=
      some { committed := committed, calls := s.calls.set i (c, phase) }
    match phase with
    | .notStarted => next s.committed .begun
    | .begun =>
      -- Get current status
      match selectStatus s.committed none c.appealID with
      | .error err =>
        next s.committed (.returned (some (.wrapped "failed to get current status" err)))
      | .ok oldStatus => next s.committed (.selected oldStatus s.committed)
    | .selected oldStatus snapshot =>
      if s.lockedByOther i c.appealID then none
      else if level == .repeatableRead &&
          s.committed.getAppeal c.appealID != snapshot.getAppeal c.appealID then
        next s.committed (.returned (some (.wrapped
          (if oldStatus == c.newStatus then "failed to update timestamp"
            else "failed to update status")
          (.failure "could not serialize access due to concurrent update"))))
      else if oldStatus == c.newStatus then next s.committed (.updated oldStatus)
      else if s.committed.rowsWithID c.appealID == 0 then
        next s.committed (.returned (some .ErrAppealNotFound))
      else next s.committed (.updated oldStatus)
    | .updated oldStatus =>
      if oldStatus == c.newStatus then
        -- Still update updated_at timestamp: the commit publishes it
        next (s.committed.updateAppeals c.appealID (fun a => { a with UpdatedAt := c.now }))
          (.returned none)
      else
        -- Record history
        let historyID := s.committed.appeal_history_id_seq + 1
        next { s.committed with appeal_history_id_seq := historyID }
          (.recorded oldStatus historyID)
    | .recorded oldStatus historyID =>
      -- The commit publishes the new row version and the history row
      let db := s.committed.updateAppeals c.appealID c.write
      next
        { db with
          appeal_history := db.appeal_history ++
            [{ ID := historyID, AppealID := c.appealID, UserID := c.userID,
               OldStatus := some oldStatus, NewStatus := c.newStatus,
               Action := statusChangeAction oldStatus c.newStatus, Comment := c.comment,
               CreatedAt := c.now }] }
        (.returned none)
    | .returned _ => none

/-- The server after the calls moved in the order of `schedule`; `none` when the schedule
asks a call to move that cannot. -/
def Server.run (level : Isolation) (s : Server) : List Nat → Option Server
  | [] => some s
  | i :: schedule =>
    match s.step level i with
    | none => none
    | some s1 => s1.run level schedule

/-- The server after the `i`-th call moved up to `n` times, as far as it can. -/
def Server.finish (level : Isolation) (s : Server) (i : Nat) : Nat → Server
  | 0 => s
  | n + 1 =>
    match s.step level i with
    | none => s
    | some s1 => s1.finish level i n

/-- A dispatcher assigns appeal 1. -/
def toAssigned : UpdateStatusCall :=
  { appealID := 1, newStatus := "assigned", userID := 42, comment := none, now := 10 }

/-- An executor takes appeal 1 into work. -/
def toInProgress : UpdateStatusCall :=
  { appealID := 1, newStatus := "in_progress", userID := 43, comment := none, now := 11 }

/-- The two calls arrive at a server holding `sampleDB` (appeal 1 in status `new`). -/
def raceServer : Server :=
  { committed := sampleDB, calls := [(toAssigned, .notStarted), (toInProgress, .notStarted)] }

/-- Both calls begin and read the status; then the first call updates, records and
commits; then the second call updates, records and commits. -/
def raceSchedule : List Nat := [0, 0, 1, 1, 0, 0, 0, 1, 1, 1]

/-- The same arrival order, up to the point where the second call's `UPDATE` has run. -/
def raceScheduleUntilSecondUpdate : List Nat := [0, 0, 1, 1, 0, 0, 0, 1]

/-- What a run leaves behind: the phase of every call, the status of appeal 1 and the old
and new status of each of its history rows. -/
def Server.summary (s : Option Server) :
    Option (List CallPhase × Option AppealStatus × List (Option AppealStatus × AppealStatus)) :=
  s.map (fun s =>
    (s.calls.map (fun c => c.2), (s.committed.getAppeal 1).map (fun a => a.Status),
      (s.committed.historyOf 1).map (fun h => (h.OldStatus, h.NewStatus))))

/-! # Theorems -/

/-! ## Lookups after a write -/

theorem find?_map_of_id_preserved (g : Appeal → Appeal) (hg : ∀ a, (g a).ID = a.ID)
    (l : List Appeal) (id : Int) :
    (l.map g).find? (fun a => a.ID == id) = (l.find? (fun a => a.ID == id)).map g := by
  induction l with
  | nil => rfl
  | cons x xs ih =>
    simp only [List.map_cons, List.find?_cons, hg]
    cases h : (x.ID == id) <;> simp [ih]

theorem getAppeal_updateAppeals (db : DB) (id : Int) (set : Appeal → Appeal)
    (hset : ∀ a, (set a).ID = a.ID) (id' : Int) :
    (db.updateAppeals id set).getAppeal id'
      = (db.getAppeal id').map (fun a => if a.ID == id then set a else a) := by
  unfold DB.getAppeal DB.updateAppeals
  apply find?_map_of_id_preserved
  intro a
  by_cases h : (a.ID == id) = true <;> simp [h, hset]

theorem getAppeal_id (db : DB) (id : Int) (a : Appeal) (h : db.getAppeal id = some a) :
    a.ID = id := by
  have := List.find?_some h
  simpa using this

theorem getAppeal_updateAppeals_self (db : DB) (id : Int) (set : Appeal → Appeal)
    (hset : ∀ a, (set a).ID = a.ID) (a : Appeal) (h : db.getAppeal id = some a) :
    (db.updateAppeals id set).getAppeal id = some (set a) := by
  rw [getAppeal_updateAppeals db id set hset, h]
  simp [getAppeal_id db id a h]

theorem getAppeal_updateAppeals_other (db : DB) (id : Int) (set : Appeal → Appeal)
    (hset : ∀ a, (set a).ID = a.ID) (id' : Int) (h : id' ≠ id) :
    (db.updateAppeals id set).getAppeal id' = db.getAppeal id' := by
  rw [getAppeal_updateAppeals db id set hset]
  cases hg : db.getAppeal id' with
  | none => rfl
  | some b =>
    have := getAppeal_id db id' b hg
    simp [this, h]

theorem rowsWithID_ne_zero (db : DB) (id : Int) (a : Appeal)
    (h : db.getAppeal id = some a) : db.rowsWithID id ≠ 0 := by
  unfold DB.rowsWithID
  unfold DB.getAppeal at h
  generalize db.appeals = l at h
  induction l with
  | nil => simp at h
  | cons x xs ih =>
    simp only [List.find?_cons] at h
    cases hx : (x.ID == id) with
    | true => simp [List.filter_cons, hx]
    | false =>
      rw [hx] at h
      simpa [List.filter_cons, hx] using ih h

theorem rowsWithID_eq_zero (db : DB) (id : Int)
    (h : db.getAppeal id = none) : db.rowsWithID id = 0 := by
  unfold DB.rowsWithID
  unfold DB.getAppeal at h
  simp only [List.find?_eq_none] at h
  simp only [List.length_eq_zero, List.filter_eq_nil_iff]
  exact h

/-- The row rewrite of the status `UPDATE` in `UpdateStatus`. -/
theorem updateStatus_run (db : DB) (now : Time) (appealID : Int)
    (newStatus : AppealStatus) (userID : Int) (comment : Option String) (a : Appeal)
    (hget : db.getAppeal appealID = some a) (hne : a.Status ≠ newStatus) :
    AppealRepository.UpdateStatus db TxFaults.none now appealID newStatus userID comment
      = (none,
          (db.updateAppeals appealID (fun x => { x with
              Status := newStatus, UpdatedAt := now,
              ClosedAt := if newStatus = StatusClosed ∨ newStatus = StatusCompleted
                          then some now else x.ClosedAt })).insertHistory
            now appealID userID (some a.Status) newStatus
            (statusChangeAction a.Status newStatus) comment) := by
  have hrows := rowsWithID_ne_zero db appealID a hget
  by_cases hc : newStatus = StatusClosed ∨ newStatus = StatusCompleted
  · simp [AppealRepository.UpdateStatus, Begin, TxFaults.none, selectStatus, hget, hne,
      execUpdateAppeals, hrows, execInsertHistory, Commit, hc]
  · simp [AppealRepository.UpdateStatus, Begin, TxFaults.none, selectStatus, hget, hne,
      execUpdateAppeals, hrows, execInsertHistory, Commit, hc]

theorem updateStatus_ok_iff (db : DB) (w : TxFaults) (now : Time) (appealID : Int)
    (newStatus : AppealStatus) (userID : Int) (comment : Option String) (a : Appeal)
    (hget : db.getAppeal appealID = some a) (hne : a.Status ≠ newStatus) :
    (AppealRepository.UpdateStatus db w now appealID newStatus userID comment).1 = none
      ↔ w = TxFaults.none := by
  have hrows := rowsWithID_ne_zero db appealID a hget
  obtain ⟨b, q, u, h, c⟩ := w
  cases b <;> cases q <;> cases u <;> cases h <;> cases c <;>
    simp [AppealRepository.UpdateStatus, Begin, selectStatus, hget, hne, execUpdateAppeals,
      hrows, execInsertHistory, Commit, TxFaults.none, Rollback]

/-- Claim C1: for an existing appeal whose status differs from the target, `UpdateStatus`
succeeds exactly when no round trip fails; it then (a) sets the status to the target, (b)
sets `closed_at` to the transition time when the target is `closed` or `completed` and keeps
it otherwise, and (c) appends exactly one history entry, from the prior status to the
target, carrying the acting user and the supplied comment. -/
theorem updateStatus_transition (db : DB) (w : TxFaults) (now : Time) (appealID : Int)
    (newStatus : AppealStatus) (userID : Int) (comment : Option String) (a : Appeal)
    (hget : db.getAppeal appealID = some a) (hne : a.Status ≠ newStatus) :
    ((AppealRepository.UpdateStatus db w now appealID newStatus userID comment).1 = none
        ↔ w = TxFaults.none) ∧
    (AppealRepository.UpdateStatus db TxFaults.none now appealID newStatus userID comment).2.getAppeal
        appealID
      = some { a with
          Status := newStatus, UpdatedAt := now,
          ClosedAt := if newStatus = StatusClosed ∨ newStatus = StatusCompleted
                      then some now else a.ClosedAt } ∧
    (AppealRepository.UpdateStatus db TxFaults.none now appealID newStatus userID comment).2.appeal_history
      = db.appeal_history ++
          [{ ID := db.appeal_history_id_seq + 1, AppealID := appealID, UserID := userID,
             OldStatus := some a.Status, NewStatus := newStatus,
             Action := statusChangeAction a.Status newStatus, Comment := comment,
             CreatedAt := now }] := by
  have hrows := rowsWithID_ne_zero db appealID a hget
  refine ⟨?_, ?_, ?_⟩
  · exact updateStatus_ok_iff db w now appealID newStatus userID comment a hget hne
  · rw [updateStatus_run db now appealID newStatus userID comment a hget hne]
    show (DB.updateAppeals db appealID _).getAppeal appealID = _
    rw [getAppeal_updateAppeals_self db appealID _ ?_ a hget]
    intro _; rfl
  · rw [updateStatus_run db now appealID newStatus userID comment a hget hne]
    rfl

/-! ## UpdateStatus with the current status -/

theorem updateStatus_noop_run (db : DB) (now : Time) (appealID : Int) (userID : Int)
    (comment : Option String) (a : Appeal) (hget : db.getAppeal appealID = some a) :
    AppealRepository.UpdateStatus db TxFaults.none now appealID a.Status userID comment
      = (none, db.updateAppeals appealID (fun x => { x with UpdatedAt := now })) := by
  simp [AppealRepository.UpdateStatus, Begin, TxFaults.none, selectStatus, hget,
    execUpdateAppeals, Commit]

theorem updateStatus_noop_any (db : DB) (w : TxFaults) (now : Time) (appealID : Int)
    (userID : Int) (comment : Option String) (a : Appeal)
    (hget : db.getAppeal appealID = some a) :
    (AppealRepository.UpdateStatus db w now appealID a.Status userID comment).2 = db ∨
    (AppealRepository.UpdateStatus db w now appealID a.Status userID comment).2
      = db.updateAppeals appealID (fun x => { x with UpdatedAt := now }) := by
  obtain ⟨b, q, u, h, c⟩ := w
  cases b <;> cases q <;> cases u <;> cases c <;>
    simp [AppealRepository.UpdateStatus, Begin, selectStatus, hget, execUpdateAppeals,
      Commit, Rollback]

theorem resubmit_frame (appealID : Int) (calls : List StatusCall) :
    ∀ (db : DB) (a : Appeal), db.getAppeal appealID = some a →
      (resubmit db appealID a.Status calls).appeal_history = db.appeal_history ∧
      ∃ a', (resubmit db appealID a.Status calls).getAppeal appealID = some a' ∧
        { a' with UpdatedAt := 0 } = { a with UpdatedAt := 0 } := by
  induction calls with
  | nil => intro db a hget; exact ⟨rfl, a, hget, rfl⟩
  | cons c cs ih =>
    intro db a hget
    show (resubmit (AppealRepository.UpdateStatus db c.w c.now appealID a.Status c.userID
        c.comment).2 appealID a.Status cs).appeal_history = _ ∧
      ∃ a', (resubmit (AppealRepository.UpdateStatus db c.w c.now appealID a.Status c.userID
        c.comment).2 appealID a.Status cs).getAppeal appealID = some a' ∧ _
    rcases updateStatus_noop_any db c.w c.now appealID c.userID c.comment a hget with h | h
    · rw [h]; exact ih db a hget
    · rw [h]
      have hget1 : (db.updateAppeals appealID (fun x => { x with UpdatedAt := c.now })).getAppeal
          appealID = some { a with UpdatedAt := c.now } := by
        rw [getAppeal_updateAppeals_self db appealID _ ?_ a hget]
        intro _; rfl
      obtain ⟨hh, a', ha', heq⟩ := ih _ _ hget1
      exact ⟨hh, a', ha', heq⟩

/-- Claim C2: resubmitting the current status succeeds, writes no history entry, leaves
every field of the appeal but `updated_at` as it was and sets `updated_at` to the time of the
call; any number of such calls leaves the history as it was. -/
theorem updateStatus_same_status_no_history (db : DB) (now : Time) (appealID : Int)
    (userID : Int) (comment : Option String) (a : Appeal) (calls : List StatusCall)
    (hget : db.getAppeal appealID = some a) :
    (AppealRepository.UpdateStatus db TxFaults.none now appealID a.Status userID comment).1
      = none ∧
    (AppealRepository.UpdateStatus db TxFaults.none now appealID a.Status userID
        comment).2.getAppeal appealID = some { a with UpdatedAt := now } ∧
    (AppealRepository.UpdateStatus db TxFaults.none now appealID a.Status userID
        comment).2.appeal_history = db.appeal_history ∧
    (resubmit db appealID a.Status calls).appeal_history = db.appeal_history ∧
    ∃ a', (resubmit db appealID a.Status calls).getAppeal appealID = some a' ∧
      a'.Status = a.Status ∧ a'.ClosedAt = a.ClosedAt ∧ a'.Priority = a.Priority ∧
      a'.ServiceID = a.ServiceID := by
  rw [updateStatus_noop_run db now appealID userID comment a hget]
  refine ⟨rfl, ?_, rfl, ?_⟩
  · show (DB.updateAppeals db appealID _).getAppeal appealID = _
    rw [getAppeal_updateAppeals_self db appealID _ ?_ a hget]
    intro _; rfl
  · obtain ⟨hh, a', ha', heq⟩ := resubmit_frame appealID calls db a hget
    refine ⟨hh, a', ha', ?_⟩
    have hs := congrArg Appeal.Status heq
    have hc := congrArg Appeal.ClosedAt heq
    have hp := congrArg Appeal.Priority heq
    have hv := congrArg Appeal.ServiceID heq
    exact ⟨hs, hc, hp, hv⟩

theorem updateStatus_same_status_no_history_witness :
    sampleDB.getAppeal 1 = some sampleAppeal ∧
    (AppealRepository.UpdateStatus sampleDB TxFaults.none 9 1 "new" 42 none).1 = none ∧
    (AppealRepository.UpdateStatus sampleDB TxFaults.none 9 1 "new" 42 none).2.getAppeal 1
      = some { sampleAppeal with UpdatedAt := 9 } ∧
    (AppealRepository.UpdateStatus sampleDB TxFaults.none 9 1 "new" 42 none).2.appeal_history
      = [] ∧
    (resubmit sampleDB 1 "new" [⟨TxFaults.none, 9, 42, none⟩, ⟨TxFaults.none, 10, 42, none⟩]).appeal_history = [] :=
  have h := updateStatus_same_status_no_history sampleDB 9 1 42 none sampleAppeal
    [⟨TxFaults.none, 9, 42, none⟩, ⟨TxFaults.none, 10, 42, none⟩] (by decide)
  ⟨by decide, h.1, h.2.1, h.2.2.1, h.2.2.2.1⟩

theorem updateStatus_transition_witness :
    sampleDB.getAppeal 1 = some sampleAppeal ∧ sampleAppeal.Status ≠ "assigned" ∧
    (AppealRepository.UpdateStatus sampleDB TxFaults.none 9 1 "assigned" 42 none).2.appeal_history
      = [{ ID := 1, AppealID := 1, UserID := 42, OldStatus := some "new",
           NewStatus := "assigned", Action := "Статус змінено з Нове на Призначене",
           Comment := none, CreatedAt := 9 }] :=
  ⟨by decide, by decide,
    (updateStatus_transition sampleDB TxFaults.none 9 1 "assigned" 42 none sampleAppeal
      (by decide) (by decide)).2.2⟩

/-! ## Atomicity -/

theorem updateStatus_error_keeps_db (db : DB) (w : TxFaults) (now : Time) (appealID : Int)
    (newStatus : AppealStatus) (userID : Int) (comment : Option String) :
    (AppealRepository.UpdateStatus db w now appealID newStatus userID comment).1 ≠ none →
      (AppealRepository.UpdateStatus db w now appealID newStatus userID comment).2 = db := by
  obtain ⟨b, q, u, h, c⟩ := w
  cases b <;> cases q <;> cases u <;> cases h <;> cases c <;>
    cases hg : db.getAppeal appealID <;>
    simp only [AppealRepository.UpdateStatus, Begin, selectStatus, hg, execUpdateAppeals,
      execInsertHistory, Commit, Rollback] <;>
    (try split_ifs) <;> simp

theorem assign_error_keeps_db (db : DB) (w : TxFaults) (now : Time) (appealID : Int)
    (serviceID : Int) (priority : Option Int) (userID : Int) :
    (AppealRepository.Assign db w now appealID serviceID priority userID).1 ≠ none →
      (AppealRepository.Assign db w now appealID serviceID priority userID).2 = db := by
  obtain ⟨b, q, u, h, c⟩ := w
  cases b <;> cases q <;> cases u <;> cases h <;> cases c <;>
    cases hg : db.getAppeal appealID <;>
    simp only [AppealRepository.Assign, Begin, selectStatus, hg, execUpdateAppeals,
      execInsertHistory, Commit, Rollback] <;>
    (try split_ifs) <;> simp

/-- Claim C3: `UpdateStatus` and `Assign` are atomic. Whatever the store and the inputs, and
whichever round trip fails, a call that returns an error leaves the committed database
(appeal rows and history rows) exactly as it was. -/
theorem status_change_atomic (db : DB) (w : TxFaults) (now : Time) (appealID : Int)
    (newStatus : AppealStatus) (userID : Int) (comment : Option String) (serviceID : Int)
    (priority : Option Int) :
    ((AppealRepository.UpdateStatus db w now appealID newStatus userID comment).1 ≠ none →
      (AppealRepository.UpdateStatus db w now appealID newStatus userID comment).2 = db) ∧
    ((AppealRepository.Assign db w now appealID serviceID priority userID).1 ≠ none →
      (AppealRepository.Assign db w now appealID serviceID priority userID).2 = db) := by
  exact ⟨updateStatus_error_keeps_db db w now appealID newStatus userID comment,
    assign_error_keeps_db db w now appealID serviceID priority userID⟩

theorem status_change_atomic_witness :
    (AppealRepository.UpdateStatus sampleDB historyInsertFails 9 1 "closed" 42 none).1
      = some (.wrapped "failed to record history" (.failure "insert into appeal_history failed")) ∧
    (AppealRepository.UpdateStatus sampleDB historyInsertFails 9 1 "closed" 42 none).2
      = sampleDB ∧
    (AppealRepository.Assign sampleDB historyInsertFails 9 1 4 (some 3) 42).1
      = some (.wrapped "failed to record history" (.failure "insert into appeal_history failed")) ∧
    (AppealRepository.Assign sampleDB historyInsertFails 9 1 4 (some 3) 42).2 = sampleDB :=
  ⟨by decide,
   (status_change_atomic sampleDB historyInsertFails 9 1 "closed" 42 none 4 (some 3)).1
     (by decide),
   by decide,
   (status_change_atomic sampleDB historyInsertFails 9 1 "closed" 42 none 4 (some 3)).2
     (by decide)⟩

/-! ## Assign -/

theorem assign_run (db : DB) (now : Time) (appealID serviceID : Int) (priority : Option Int)
    (userID : Int) (a : Appeal) (hget : db.getAppeal appealID = some a) :
    AppealRepository.Assign db TxFaults.none now appealID serviceID priority userID
      = (none,
          (db.updateAppeals appealID (fun x => { x with
              ServiceID := some serviceID, Priority := priority.getD x.Priority,
              Status := "assigned", UpdatedAt := now })).insertHistory
            now appealID userID (some a.Status) "assigned"
            (if a.Status = StatusAssigned then reassignAction
             else assignStatusChangeAction a.Status) none) := by
  have hrows := rowsWithID_ne_zero db appealID a hget
  by_cases hc : a.Status = StatusAssigned
  · simp [AppealRepository.Assign, Begin, TxFaults.none, selectStatus, hget,
      execUpdateAppeals, hrows, execInsertHistory, Commit, hc]
  · simp [AppealRepository.Assign, Begin, TxFaults.none, selectStatus, hget,
      execUpdateAppeals, hrows, execInsertHistory, Commit, hc]

theorem assign_ok_iff (db : DB) (w : TxFaults) (now : Time) (appealID serviceID : Int)
    (priority : Option Int) (userID : Int) (a : Appeal)
    (hget : db.getAppeal appealID = some a) :
    (AppealRepository.Assign db w now appealID serviceID priority userID).1 = none
      ↔ w = TxFaults.none := by
  have hrows := rowsWithID_ne_zero db appealID a hget
  obtain ⟨b, q, u, h, c⟩ := w
  cases b <;> cases q <;> cases u <;> cases h <;> cases c <;>
    simp only [AppealRepository.Assign, Begin, selectStatus, hget, execUpdateAppeals,
      execInsertHistory, Commit, TxFaults.none, Rollback] <;>
    (try split_ifs) <;> simp_all

/-- Claim C5: for an existing appeal in any prior status, `Assign` succeeds exactly when no
round trip fails; it then sets the service id, sets the priority to the supplied one or
keeps the old one, forces status `assigned` and appends exactly one history entry from the
prior status to `assigned`. When the prior status was `assigned` the action is the
reassignment text alone, which has no status-change wording; otherwise the action contains
the label of the prior status. -/
theorem assign_forces_assigned_and_records_once (db : DB) (w : TxFaults) (now : Time)
    (appealID serviceID : Int) (priority : Option Int) (userID : Int) (a : Appeal)
    (hget : db.getAppeal appealID = some a) :
    ((AppealRepository.Assign db w now appealID serviceID priority userID).1 = none
        ↔ w = TxFaults.none) ∧
    (AppealRepository.Assign db TxFaults.none now appealID serviceID priority
        userID).2.getAppeal appealID
      = some { a with ServiceID := some serviceID, Priority := priority.getD a.Priority,
                      Status := StatusAssigned, UpdatedAt := now } ∧
    (AppealRepository.Assign db TxFaults.none now appealID serviceID priority
        userID).2.appeal_history
      = db.appeal_history ++
          [{ ID := db.appeal_history_id_seq + 1, AppealID := appealID, UserID := userID,
             OldStatus := some a.Status, NewStatus := StatusAssigned,
             Action := if a.Status = StatusAssigned then reassignAction
                       else assignStatusChangeAction a.Status,
             Comment := none, CreatedAt := now }] ∧
    ¬ (statusChangeWording.data <:+: reassignAction.data) ∧
    (statusLabel a.Status).data <:+: (assignStatusChangeAction a.Status).data := by
  have hrows := rowsWithID_ne_zero db appealID a hget
  refine ⟨?_, ?_, ?_, by decide, ?_⟩
  · exact assign_ok_iff db w now appealID serviceID priority userID a hget
  · rw [assign_run db now appealID serviceID priority userID a hget]
    show (DB.updateAppeals db appealID _).getAppeal appealID = _
    rw [getAppeal_updateAppeals_self db appealID _ ?_ a hget]
    intro _; rfl
  · rw [assign_run db now appealID serviceID priority userID a hget]
    rfl
  · refine ⟨"Звернення призначено до служби. Статус змінено з ".data, " на Призначене".data, ?_⟩
    simp [assignStatusChangeAction, String.data_append]

theorem assign_forces_assigned_and_records_once_witness :
    assignedDB.getAppeal 1 = some { sampleAppeal with Status := "assigned", ServiceID := some 3 } ∧
    (AppealRepository.Assign assignedDB TxFaults.none 9 1 4 none 42).2.getAppeal 1
      = some { sampleAppeal with Status := "assigned", ServiceID := some 4, UpdatedAt := 9 } ∧
    (AppealRepository.Assign assignedDB TxFaults.none 9 1 4 none 42).2.appeal_history
      = [{ ID := 1, AppealID := 1, UserID := 42, OldStatus := some "assigned",
           NewStatus := "assigned", Action := "Звернення призначено до служби",
           Comment := none, CreatedAt := 9 }] :=
  have h := assign_forces_assigned_and_records_once assignedDB TxFaults.none 9 1 4 none 42
    { sampleAppeal with Status := "assigned", ServiceID := some 3 } (by decide)
  ⟨by decide, h.2.1, h.2.2.1⟩

/-! ## UpdatePriority -/

/-- Claim C6: for an existing appeal and any priority value, `UpdatePriority` returns an
error and changes nothing when its statement fails, and otherwise succeeds, rewrites only
`priority` and `updated_at` of that appeal, leaves every other appeal as it was and adds no
history entry. -/
theorem updatePriority_changes_priority_only (db : DB) (f : Fault) (now : Time)
    (appealID : Int) (priority : Int) (userID : Int) (a : Appeal)
    (hget : db.getAppeal appealID = some a) :
    (f ≠ none → (AppealRepository.UpdatePriority db f now appealID priority userID).1 ≠ none ∧
      (AppealRepository.UpdatePriority db f now appealID priority userID).2 = db) ∧
    (AppealRepository.UpdatePriority db none now appealID priority userID).1 = none ∧
    (AppealRepository.UpdatePriority db none now appealID priority userID).2.getAppeal appealID
      = some { a with Priority := priority, UpdatedAt := now } ∧
    (∀ other, other ≠ appealID →
      (AppealRepository.UpdatePriority db none now appealID priority userID).2.getAppeal other
        = db.getAppeal other) ∧
    (AppealRepository.UpdatePriority db none now appealID priority userID).2.appeal_history
      = db.appeal_history := by
  have hrows := rowsWithID_ne_zero db appealID a hget
  have hrun : AppealRepository.UpdatePriority db none now appealID priority userID
      = (none, db.updateAppeals appealID
          (fun x => { x with Priority := priority, UpdatedAt := now })) := by
    simp [AppealRepository.UpdatePriority, execUpdateAppeals, hrows]
  refine ⟨?_, ?_, ?_, ?_, ?_⟩
  · intro hf
    cases f with
    | none => exact absurd rfl hf
    | some e => simp [AppealRepository.UpdatePriority, execUpdateAppeals]
  · rw [hrun]
  · rw [hrun]
    show (DB.updateAppeals db appealID _).getAppeal appealID = _
    rw [getAppeal_updateAppeals_self db appealID _ ?_ a hget]
    intro _; rfl
  · intro other hother
    rw [hrun]
    show (DB.updateAppeals db appealID _).getAppeal other = _
    rw [getAppeal_updateAppeals_other db appealID _ ?_ other hother]
    intro _; rfl
  · rw [hrun]; rfl

theorem updatePriority_changes_priority_only_witness :
    sampleDB.getAppeal 1 = some sampleAppeal ∧
    (AppealRepository.UpdatePriority sampleDB none 9 1 3 42).2.getAppeal 1
      = some { sampleAppeal with Priority := 3, UpdatedAt := 9 } ∧
    (AppealRepository.UpdatePriority sampleDB none 9 1 3 42).2.appeal_history = [] :=
  have h := updatePriority_changes_priority_only sampleDB none 9 1 3 42 sampleAppeal
    (by decide)
  ⟨by decide, h.2.2.1, h.2.2.2.2⟩

/-! ## Missing appeals -/

/-- The not-found branch of `UpdateStatus` and `Assign` is never taken: whatever the store,
the inputs and the injected failures, neither returns `ErrAppealNotFound`. -/
theorem status_change_never_returns_ErrAppealNotFound (db : DB) (w : TxFaults) (now : Time)
    (appealID : Int) (newStatus : AppealStatus) (userID : Int) (comment : Option String)
    (serviceID : Int) (priority : Option Int) :
    (AppealRepository.UpdateStatus db w now appealID newStatus userID comment).1
      ≠ some .ErrAppealNotFound ∧
    (AppealRepository.Assign db w now appealID serviceID priority userID).1
      ≠ some .ErrAppealNotFound := by
  obtain ⟨b, q, u, h, c⟩ := w
  cases hg : db.getAppeal appealID with
  | none =>
    constructor
    · cases b <;> cases q <;>
        simp [AppealRepository.UpdateStatus, Begin, selectStatus, hg]
    · cases b <;> cases q <;>
        simp [AppealRepository.Assign, Begin, selectStatus, hg]
  | some a =>
    have hrows := rowsWithID_ne_zero db appealID a hg
    constructor
    · cases b <;> cases q <;> cases u <;> cases h <;> cases c <;>
        simp only [AppealRepository.UpdateStatus, Begin, selectStatus, hg, execUpdateAppeals,
          execInsertHistory, Commit, Rollback] <;>
        (try split_ifs) <;> simp_all
    · cases b <;> cases q <;> cases u <;> cases h <;> cases c <;>
        simp only [AppealRepository.Assign, Begin, selectStatus, hg, execUpdateAppeals,
          execInsertHistory, Commit, Rollback] <;>
        (try split_ifs) <;> simp_all

/-- Claim C7, evaluated on the code: on a store without appeal 1, `UpdateStatus` and
`Assign` both return the wrapped driver error of the status query ("failed to get current
status" around `pgx.ErrNoRows`), which is not the value `ErrAppealNotFound`. -/
theorem status_change_on_missing_appeal_returns_wrapped_error :
    (AppealRepository.UpdateStatus DB.empty TxFaults.none 9 1 "assigned" 42 none).1
      = some (.wrapped "failed to get current status" .ErrNoRows) ∧
    (AppealRepository.Assign DB.empty TxFaults.none 9 1 4 none 42).1
      = some (.wrapped "failed to get current status" .ErrNoRows) ∧
    Error.wrapped "failed to get current status" .ErrNoRows ≠ Error.ErrAppealNotFound := by
  decide

/-! ## The closure timestamp along a run -/

theorem view_updateAppeals_of_harmless (db : DB) (id : Int) (set : Appeal → Appeal)
    (hset : ∀ a, (set a).ID = a.ID ∧ (set a).Status = a.Status ∧ (set a).ClosedAt = a.ClosedAt)
    (id' : Int) : (db.updateAppeals id set).view id' = db.view id' := by
  unfold DB.view
  rw [getAppeal_updateAppeals db id set (fun a => (hset a).1)]
  cases db.getAppeal id' with
  | none => rfl
  | some a =>
    by_cases h : a.ID = id
    · simp [h, (hset a).2.1, (hset a).2.2]
    · simp [h]

theorem view_updateAppeals_other (db : DB) (id : Int) (set : Appeal → Appeal)
    (hset : ∀ a, (set a).ID = a.ID) (id' : Int) (h : id' ≠ id) :
    (db.updateAppeals id set).view id' = db.view id' := by
  unfold DB.view
  rw [getAppeal_updateAppeals_other db id set hset id' h]

theorem view_updateAppeals_self (db : DB) (id : Int) (set : Appeal → Appeal)
    (hset : ∀ a, (set a).ID = a.ID) (a : Appeal) (h : db.getAppeal id = some a) :
    (db.updateAppeals id set).view id = some ((set a).Status, (set a).ClosedAt) := by
  unfold DB.view
  rw [getAppeal_updateAppeals_self db id set hset a h]
  rfl

theorem closedStep_of_view_eq (db db' : DB) (id : Int) (h : db'.view id = db.view id) :
    ClosedStep db db' id := by
  unfold ClosedStep DB.closedAt closingTransition
  rw [h]
  cases db.view id <;> simp


theorem closedStep_refl (db : DB) (id : Int) : ClosedStep db db id :=
  closedStep_of_view_eq db db id rfl

theorem closedStep_updateAppeals_of_harmless (db : DB) (id : Int) (set : Appeal → Appeal)
    (hset : ∀ a, (set a).ID = a.ID ∧ (set a).Status = a.Status ∧ (set a).ClosedAt = a.ClosedAt)
    (id' : Int) : ClosedStep db (db.updateAppeals id set) id' :=
  closedStep_of_view_eq _ _ _ (view_updateAppeals_of_harmless db id set hset id')

theorem closedStep_insertHistory (db db' : DB) (id : Int) (now : Time) (appealID userID : Int)
    (oldStatus : Option AppealStatus) (newStatus : AppealStatus) (action : String)
    (comment : Option String) (h : ClosedStep db db' id) :
    ClosedStep db (db'.insertHistory now appealID userID oldStatus newStatus action comment)
      id := h

/-- A status write: the row keeps its id, and its closure timestamp is set exactly when the
status it moves to is a closing one (and is otherwise kept). -/
theorem closedStep_updateAppeals_status (db : DB) (id : Int) (set : Appeal → Appeal)
    (a : Appeal) (hget : db.getAppeal id = some a) (hid : ∀ x, (set x).ID = x.ID)
    (hclosed : ((set a).ClosedAt).isSome
      = ((a.ClosedAt).isSome || (a.Status != (set a).Status && isClosing (set a).Status)))
    (id' : Int) : ClosedStep db (db.updateAppeals id set) id' := by
  by_cases h : id' = id
  · subst h
    unfold ClosedStep DB.closedAt closingTransition
    rw [view_updateAppeals_self db id' set hid a hget]
    simp only [DB.view, hget, Option.map_some', Option.bind_some]
    exact hclosed
  · exact closedStep_of_view_eq _ _ _ (view_updateAppeals_other db id set hid id' h)


theorem closedStep_of_view_eq_right (db db1 db2 : DB) (id : Int)
    (h : db2.view id = db1.view id) (h1 : ClosedStep db db1 id) : ClosedStep db db2 id := by
  unfold ClosedStep DB.closedAt closingTransition at *
  rw [h]
  exact h1

theorem closedStep_insertAppeal (db : DB) (row : Appeal) (hrow : row.ClosedAt = none)
    (id : Int) : ClosedStep db (db.insertAppeal row) id := by
  unfold ClosedStep DB.closedAt closingTransition DB.view DB.getAppeal DB.insertAppeal
  simp only [List.find?_append]
  cases h : List.find? (fun a => a.ID == id) db.appeals with
  | some a => simp
  | none =>
    by_cases hr : row.ID = id <;> simp [List.find?_cons, hr, hrow]

theorem updateStatus_closedStep (db : DB) (w : TxFaults) (now : Time) (appealID : Int)
    (newStatus : AppealStatus) (userID : Int) (comment : Option String) (id : Int) :
    ClosedStep db
      (AppealRepository.UpdateStatus db w now appealID newStatus userID comment).2 id := by
  cases hg : db.getAppeal appealID with
  | none =>
    have : (AppealRepository.UpdateStatus db w now appealID newStatus userID comment).2 = db := by
      apply updateStatus_error_keeps_db
      obtain ⟨b, q, u, h, c⟩ := w
      cases b <;> cases q <;>
        simp [AppealRepository.UpdateStatus, Begin, selectStatus, hg]
    rw [this]
    exact closedStep_refl db id
  | some a =>
    by_cases hs : a.Status = newStatus
    · subst hs
      rcases updateStatus_noop_any db w now appealID userID comment a hg with h | h
      · rw [h]; exact closedStep_refl db id
      · rw [h]
        refine closedStep_updateAppeals_of_harmless db appealID _ ?_ id
        intro _; exact ⟨rfl, rfl, rfl⟩
    · by_cases hw : w = TxFaults.none
      · subst hw
        rw [updateStatus_run db now appealID newStatus userID comment a hg hs]
        apply closedStep_insertHistory
        refine closedStep_updateAppeals_status db appealID _ a hg ?_ ?_ id
        · intro _; rfl
        by_cases hc : newStatus = StatusClosed ∨ newStatus = StatusCompleted
        · rcases hc with hc | hc
          · subst hc; simp [hs, isClosing]
          · subst hc; simp [hs, isClosing]
        · have : isClosing newStatus = false := by
            simpa [isClosing] using hc
          simp [hc, this]
      · have herr : (AppealRepository.UpdateStatus db w now appealID newStatus userID
            comment).1 ≠ none := fun h =>
          hw ((updateStatus_ok_iff db w now appealID newStatus userID comment a hg hs).1 h)
        rw [updateStatus_error_keeps_db db w now appealID newStatus userID comment herr]
        exact closedStep_refl db id

theorem assign_closedStep (db : DB) (w : TxFaults) (now : Time) (appealID serviceID : Int)
    (priority : Option Int) (userID : Int) (id : Int) :
    ClosedStep db (AppealRepository.Assign db w now appealID serviceID priority userID).2 id := by
  cases hg : db.getAppeal appealID with
  | none =>
    have : (AppealRepository.Assign db w now appealID serviceID priority userID).2 = db := by
      apply assign_error_keeps_db
      obtain ⟨b, q, u, h, c⟩ := w
      cases b <;> cases q <;>
        simp [AppealRepository.Assign, Begin, selectStatus, hg]
    rw [this]
    exact closedStep_refl db id
  | some a =>
    by_cases hw : w = TxFaults.none
    · subst hw
      rw [assign_run db now appealID serviceID priority userID a hg]
      apply closedStep_insertHistory
      refine closedStep_updateAppeals_status db appealID _ a hg ?_ ?_ id
      · intro _; rfl
      have : isClosing "assigned" = false := by decide
      simp [this]
    · have herr : (AppealRepository.Assign db w now appealID serviceID priority userID).1
          ≠ none := fun h =>
        hw ((assign_ok_iff db w now appealID serviceID priority userID a hg).1 h)
      rw [assign_error_keeps_db db w now appealID serviceID priority userID herr]
      exact closedStep_refl db id

theorem updatePriority_closedStep (db : DB) (f : Fault) (now : Time) (appealID : Int)
    (priority : Int) (userID : Int) (id : Int) :
    ClosedStep db (AppealRepository.UpdatePriority db f now appealID priority userID).2 id := by
  cases f with
  | some e => exact closedStep_refl db id
  | none =>
    have : (AppealRepository.UpdatePriority db none now appealID priority userID).2
        = db.updateAppeals appealID
            (fun a => { a with Priority := priority, UpdatedAt := now }) := by
      simp only [AppealRepository.UpdatePriority, execUpdateAppeals]
      split_ifs <;> rfl
    rw [this]
    refine closedStep_updateAppeals_of_harmless db appealID _ ?_ id
    intro _; exact ⟨rfl, rfl, rfl⟩

theorem update_view (db : DB) (f : Fault) (now : Time) (appeal : Appeal) (id : Int) :
    (AppealRepository.Update db f now appeal).2.view id = db.view id := by
  cases f with
  | some e => rfl
  | none =>
    have : (AppealRepository.Update db none now appeal).2
        = db.updateAppeals appeal.ID
            (fun a => { a with
              Title := appeal.Title, Description := appeal.Description,
              CategoryID := appeal.CategoryID, Address := appeal.Address,
              Latitude := appeal.Latitude, Longitude := appeal.Longitude,
              ServiceID := appeal.ServiceID, UpdatedAt := now }) := by
      simp only [AppealRepository.Update, execUpdateAppeals]
      split_ifs <;> rfl
    rw [this]
    refine view_updateAppeals_of_harmless db appeal.ID _ ?_ id
    intro _; exact ⟨rfl, rfl, rfl⟩


theorem createAppeal_db_of_insert_failed (s : AppealService) (db : DB) (w : CreateWorld)
    (now : Time) (userID : Int) (req : CreateAppealRequest) (e : PgErr)
    (hw : w.create = some e) : (s.CreateAppeal db w now userID req).db = db := by
  simp [AppealService.CreateAppeal, AppealRepository.Create, hw]

theorem createAppeal_db_view (s : AppealService) (db : DB) (w : CreateWorld)
    (now : Time) (userID : Int) (req : CreateAppealRequest) (hw : w.create = none) (id : Int) :
    (s.CreateAppeal db w now userID req).db.view id
      = (db.insertAppeal (insertedAppealRow (db.appeals_id_seq + 1) now
          { ID := 0, UserID := userID, CategoryID := some req.CategoryID, ServiceID := none,
            Status := StatusNew, Title := req.Title, Description := req.Description,
            Address := req.Address, Latitude := req.Latitude, Longitude := req.Longitude,
            Priority := (match req.Priority with
              | some p => p
              | none => 2),
            CreatedAt := 0, UpdatedAt := 0, ClosedAt := none })).view id := by
  simp only [AppealService.CreateAppeal, AppealRepository.Create, hw]
  repeat' split
  all_goals first
    | rfl
    | exact update_view _ _ _ _ _

theorem createAppeal_closedStep (s : AppealService) (db : DB) (w : CreateWorld)
    (now : Time) (userID : Int) (req : CreateAppealRequest) (id : Int) :
    ClosedStep db (s.CreateAppeal db w now userID req).db id := by
  cases hw : w.create with
  | some e =>
    rw [createAppeal_db_of_insert_failed s db w now userID req e hw]
    exact closedStep_refl db id
  | none =>
    exact closedStep_of_view_eq_right db _ _ id
      (createAppeal_db_view s db w now userID req hw id)
      (closedStep_insertAppeal db _ rfl id)

theorem step_closedStep (db : DB) (op : Op) (id : Int) : ClosedStep db (step db op) id := by
  cases op with
  | create s w now userID req => exact createAppeal_closedStep s db w now userID req id
  | update f now appeal =>
    exact closedStep_of_view_eq db _ id (update_view db f now appeal id)
  | updateStatus w now appealID newStatus userID comment =>
    exact updateStatus_closedStep db w now appealID newStatus userID comment id
  | assign w now appealID serviceID priority userID =>
    exact assign_closedStep db w now appealID serviceID priority userID id
  | updatePriority f now appealID priority userID =>
    exact updatePriority_closedStep db f now appealID priority userID id

theorem run_closedAt (ops : List Op) :
    ∀ (db : DB) (id : Int),
      ((run db ops).closedAt id).isSome = ((db.closedAt id).isSome || everClosed db ops id) := by
  induction ops with
  | nil => intro db id; simp [run, everClosed]
  | cons op ops ih =>
    intro db id
    show ((run (step db op) ops).closedAt id).isSome = _
    rw [ih (step db op) id, step_closedStep db op id]
    simp [everClosed, Bool.or_assoc]

/-- Claim C4: in every state reached from the empty store by any sequence of lifecycle
operations (each with arbitrary inputs and arbitrary injected failures), the `closed_at` of
an appeal is non-null if and only if some step of the run moved that appeal to `closed` or
`completed`; and once `closed_at` is non-null, no further operation clears it. -/
theorem closedAt_set_iff_ever_closed (ops : List Op) (id : Int) :
    ((run DB.empty ops).closedAt id ≠ none ↔ everClosed DB.empty ops id = true) ∧
    (∀ op : Op, (run DB.empty ops).closedAt id ≠ none →
      (step (run DB.empty ops) op).closedAt id ≠ none) := by
  constructor
  · have h := run_closedAt ops DB.empty id
    have h0 : (DB.empty.closedAt id).isSome = false := rfl
    rw [h0, Bool.false_or] at h
    rw [← h, Option.ne_none_iff_isSome]
  · intro op hset
    have h := step_closedStep (run DB.empty ops) op id
    unfold ClosedStep at h
    rw [Option.ne_none_iff_isSome] at hset ⊢
    rw [h, hset, Bool.true_or]

/-! ## Creation and auto-routing -/

theorem one_not_lt_default_threshold : F64.lt (.fin 1) float64_0_8 = false := by
  simp [F64.lt, float64_0_8]; norm_num

theorem classify_routedWorld :
    (NewClassifier "http://classifier" true).ClassifyAppeal routedWorld.http
      sampleRequest.Description = ("Водоканал", .fin 1, none) := by
  simp [NewClassifier, Classifier.ClassifyAppeal, routedWorld, one_not_lt_default_threshold]

/-- Claim C8, evaluated on the code: the classifier suggests an active service with
confidence above the threshold and every store round trip succeeds; the returned appeal and
the stored row have the service id of that service, and their status is `new`, not
`assigned`. -/
theorem createAppeal_routed_status_stays_new :
    (sampleService.CreateAppeal DB.empty routedWorld 9 7 sampleRequest).err = none ∧
    ((sampleService.CreateAppeal DB.empty routedWorld 9 7 sampleRequest).appeal.map
      (fun a => (a.ServiceID, a.Status))) = some (some 4, "new") ∧
    (((sampleService.CreateAppeal DB.empty routedWorld 9 7 sampleRequest).db.getAppeal 1).map
      (fun a => (a.ServiceID, a.Status))) = some (some 4, "new") ∧
    (sampleService.CreateAppeal DB.empty routedWorld 9 7 sampleRequest).db.appeal_history
      = [] := by
  have hc := classify_routedWorld
  have hg : sampleService.serviceRepo.GetByName routedWorld.getByName "Водоканал"
      = .ok waterService := by rfl
  simp only [AppealService.CreateAppeal, sampleService, hc]
  simp only [sampleService] at hg
  simp only [hg]
  decide


/-- Claim C9: whenever the store insert succeeds, `CreateAppeal` returns an appeal and a nil
error, whatever the settings loader, the classifier, the service lookup and the follow-up
store update do. -/
theorem createAppeal_routing_never_fails (s : AppealService) (db : DB) (w : CreateWorld)
    (now : Time) (userID : Int) (req : CreateAppealRequest) (hw : w.create = none) :
    (s.CreateAppeal db w now userID req).err = none ∧
    ∃ appeal, (s.CreateAppeal db w now userID req).appeal = some appeal := by
  simp only [AppealService.CreateAppeal, AppealRepository.Create, hw]
  repeat' split
  all_goals exact ⟨rfl, _, rfl⟩

theorem createAppeal_routing_never_fails_witness :
    updateFailsWorld.create = none ∧
    (AppealRepository.Update
      (DB.empty.insertAppeal (insertedAppealRow 1 9 sampleAppeal)) updateFailsWorld.update
      updateFailsWorld.updateNow sampleAppeal).1 = some (.wrapped "failed to update appeal" (.failure "connection lost")) ∧
    (sampleService.CreateAppeal DB.empty updateFailsWorld 9 7 sampleRequest).err = none ∧
    ∃ appeal,
      (sampleService.CreateAppeal DB.empty updateFailsWorld 9 7 sampleRequest).appeal
        = some appeal :=
  have h := createAppeal_routing_never_fails sampleService DB.empty updateFailsWorld 9 7
    sampleRequest rfl
  ⟨rfl, by decide, h.1, h.2⟩


theorem setConfidenceThreshold_enabled (c : Classifier) (t : F64) :
    (c.SetConfidenceThreshold t).enabled = c.enabled := rfl

theorem withLoadedThreshold_enabled (s : AppealService) (c : Classifier) :
    (s.withLoadedThreshold c).enabled = c.enabled := by
  unfold AppealService.withLoadedThreshold
  split <;> rfl

theorem classifyAppeal_disabled (c : Classifier) (http : HttpOutcome) (text : String)
    (h : c.enabled = false) : c.ClassifyAppeal http text = ("", .fin 0, none) := by
  simp [Classifier.ClassifyAppeal, h]

/-- Claim C10: the appeal returned by `CreateAppeal` has status `new`, and its service id is
`sid` exactly when a classifier is configured, the classifier (with the loaded threshold)
answers the description with a non-empty label and no error, and that label resolves to a
service whose id is `sid`; the category id of the request plays no part. In particular the
service id is nil when the classifier is absent, disabled, returns an error, returns no
label, or the label resolves to no active service. -/
theorem createAppeal_service_only_from_classifier (s : AppealService) (db : DB)
    (w : CreateWorld) (now : Time) (userID : Int) (req : CreateAppealRequest) (ap : Appeal)
    (hap : (s.CreateAppeal db w now userID req).appeal = some ap) :
    ap.Status = StatusNew ∧
    (∀ sid, ap.ServiceID = some sid ↔
      ∃ c0 label conf svc, s.classifier = some c0 ∧
        (s.withLoadedThreshold c0).ClassifyAppeal w.http req.Description
          = (label, conf, none) ∧
        label ≠ "" ∧ s.serviceRepo.GetByName w.getByName label = .ok svc ∧ svc.ID = sid) ∧
    (s.classifier = none → ap.ServiceID = none) ∧
    (∀ c0, s.classifier = some c0 → c0.enabled = false → ap.ServiceID = none) ∧
    (∀ c0, s.classifier = some c0 →
      ((s.withLoadedThreshold c0).ClassifyAppeal w.http req.Description).2.2 ≠ none →
      ap.ServiceID = none) ∧
    (∀ c0, s.classifier = some c0 →
      ((s.withLoadedThreshold c0).ClassifyAppeal w.http req.Description).1 = "" →
      ap.ServiceID = none) ∧
    (∀ c0 e, s.classifier = some c0 →
      s.serviceRepo.GetByName w.getByName
        ((s.withLoadedThreshold c0).ClassifyAppeal w.http req.Description).1 = .error e →
      ap.ServiceID = none) := by
  have key : ap.Status = StatusNew ∧
      (∀ sid, ap.ServiceID = some sid ↔
        ∃ c0 label conf svc, s.classifier = some c0 ∧
          (s.withLoadedThreshold c0).ClassifyAppeal w.http req.Description
            = (label, conf, none) ∧
          label ≠ "" ∧ s.serviceRepo.GetByName w.getByName label = .ok svc ∧ svc.ID = sid) := by
    cases hw : w.create with
    | some e => simp [AppealService.CreateAppeal, AppealRepository.Create, hw] at hap
    | none =>
      cases hc : s.classifier with
      | none =>
        simp only [AppealService.CreateAppeal, AppealRepository.Create, hw, hc] at hap
        cases hap
        simp
      | some c0 =>
        have hload : (match s.systemSettingsLoader with
            | some (.ok (some settings)) =>
              c0.SetConfidenceThreshold settings.ConfidenceThreshold
            | _ => c0) = s.withLoadedThreshold c0 := rfl
        simp only [AppealService.CreateAppeal, AppealRepository.Create, hw, hc, hload] at hap
        rcases hcl : (s.withLoadedThreshold c0).ClassifyAppeal w.http req.Description with
          ⟨label, conf, err⟩
        rw [hcl] at hap
        cases err with
        | some e =>
          cases hap
          refine ⟨rfl, fun sid => ⟨fun h => ?_, ?_⟩⟩
          · cases h
          · rintro ⟨_, label', _, _, h1, h2, _⟩
            cases h1
            rw [hcl] at h2
            cases h2
        | none =>
          by_cases hl : label = ""
          · simp [hl] at hap
            subst hap
            refine ⟨rfl, fun sid => ⟨fun h => ?_, ?_⟩⟩
            · cases h
            · rintro ⟨_, label', _, _, h1, h2, h3, _⟩
              cases h1
              rw [hcl] at h2
              cases h2
              exact absurd hl h3
          · cases hg : s.serviceRepo.GetByName w.getByName label with
            | error e =>
              simp [hl, hg] at hap
              subst hap
              refine ⟨rfl, fun sid => ⟨fun h => ?_, ?_⟩⟩
              · cases h
              · rintro ⟨_, label', _, svc, h1, h2, _, h4, _⟩
                cases h1
                rw [hcl] at h2
                cases h2
                rw [hg] at h4
                cases h4
            | ok svc =>
              simp [hl, hg] at hap
              subst hap
              refine ⟨rfl, fun sid => ⟨fun h => ?_, ?_⟩⟩
              · cases h
                exact ⟨c0, label, conf, svc, rfl, hcl, hl, hg, rfl⟩
              · rintro ⟨_, label', _, svc', h1, h2, _, h4, h5⟩
                cases h1
                rw [hcl] at h2
                cases h2
                rw [hg] at h4
                cases h4
                rw [h5]
  refine ⟨key.1, key.2, ?_, ?_, ?_, ?_, ?_⟩
  · intro hnone
    cases hs : ap.ServiceID with
    | none => rfl
    | some sid =>
      obtain ⟨c0, _, _, _, h1, _⟩ := (key.2 sid).1 hs
      rw [hnone] at h1
      cases h1
  · intro c0 hc0 hdis
    cases hs : ap.ServiceID with
    | none => rfl
    | some sid =>
      obtain ⟨c1, label, _, _, h1, h2, h3, _⟩ := (key.2 sid).1 hs
      rw [hc0] at h1
      cases h1
      rw [classifyAppeal_disabled _ _ _
        ((withLoadedThreshold_enabled s c0).trans hdis)] at h2
      cases h2
      exact absurd rfl h3
  · intro c0 hc0 herr
    cases hs : ap.ServiceID with
    | none => rfl
    | some sid =>
      obtain ⟨c1, label, _, _, h1, h2, _⟩ := (key.2 sid).1 hs
      rw [hc0] at h1
      cases h1
      rw [h2] at herr
      exact absurd rfl herr
  · intro c0 hc0 hlabel
    cases hs : ap.ServiceID with
    | none => rfl
    | some sid =>
      obtain ⟨c1, label, _, _, h1, h2, h3, _⟩ := (key.2 sid).1 hs
      rw [hc0] at h1
      cases h1
      rw [h2] at hlabel
      exact absurd hlabel h3
  · intro c0 e hc0 hget
    cases hs : ap.ServiceID with
    | none => rfl
    | some sid =>
      obtain ⟨c1, label, _, _, h1, h2, _, h4, _⟩ := (key.2 sid).1 hs
      rw [hc0] at h1
      cases h1
      rw [h2] at hget
      rw [h4] at hget
      cases hget


theorem createAppeal_routedWorld_appeal :
    (sampleService.CreateAppeal DB.empty routedWorld 9 7 sampleRequest).appeal
      = some routedAppeal := by
  have hc := classify_routedWorld
  have hg : sampleService.serviceRepo.GetByName routedWorld.getByName "Водоканал"
      = .ok waterService := by rfl
  simp only [AppealService.CreateAppeal, sampleService, hc]
  simp only [sampleService] at hg
  simp only [hg]
  decide

theorem createAppeal_service_only_from_classifier_witness :
    (sampleService.CreateAppeal DB.empty routedWorld 9 7 sampleRequest).appeal
      = some routedAppeal ∧
    routedAppeal.Status = StatusNew ∧
    (routedAppeal.ServiceID = some 4 ↔
      ∃ c0 label conf svc, sampleService.classifier = some c0 ∧
        (sampleService.withLoadedThreshold c0).ClassifyAppeal routedWorld.http
          sampleRequest.Description = (label, conf, none) ∧
        label ≠ "" ∧
        sampleService.serviceRepo.GetByName routedWorld.getByName label = .ok svc ∧
        svc.ID = 4) :=
  have h := createAppeal_service_only_from_classifier sampleService DB.empty routedWorld 9 7
    sampleRequest routedAppeal createAppeal_routedWorld_appeal
  ⟨createAppeal_routedWorld_appeal, h.1, h.2.1 4⟩

theorem closedAt_set_iff_ever_closed_witness :
    everClosed DB.empty sampleRun 1 = true ∧
    (run DB.empty sampleRun).closedAt 1 ≠ none ∧
    (run DB.empty sampleRun).closedAt 1 = some 3 ∧
    (run DB.empty (sampleRun.take 2)).closedAt 1 = none :=
  ⟨by decide, (closedAt_set_iff_ever_closed sampleRun 1).1.2 (by decide), by decide,
    by decide⟩

/-! ## Classifier threshold -/

theorem F64.lt_irrefl (a : F64) : F64.lt a a = false := by
  cases a <;> simp [F64.lt]

theorem F64.lt_eq_false_of_ge (a b : F64) (h : F64.ge a b = true) : F64.lt a b = false := by
  cases a <;> cases b <;> simp_all [F64.ge, F64.le, F64.lt]

/-- Claim C11: with the classifier enabled and a 200 response carrying label `L` and
confidence `conf`, `ClassifyAppeal` returns `(L, conf, nil)` when `conf >= threshold`, in
particular when `conf` equals the threshold, and `("", conf, nil)` when `conf < threshold`;
the error is nil in both cases, and non-nil for a transport failure or a non-200 response. -/
theorem classifyAppeal_threshold (c : Classifier) (text : String) (L : String) (conf : F64)
    (hen : c.enabled = true) (hurl : c.serviceURL ≠ "") :
    (F64.ge conf c.confidenceThreshold = true →
      c.ClassifyAppeal (.ok ⟨L, conf⟩) text = (L, conf, none)) ∧
    (conf = c.confidenceThreshold →
      c.ClassifyAppeal (.ok ⟨L, conf⟩) text = (L, conf, none)) ∧
    (F64.lt conf c.confidenceThreshold = true →
      c.ClassifyAppeal (.ok ⟨L, conf⟩) text = ("", conf, none)) ∧
    (c.ClassifyAppeal (.ok ⟨L, conf⟩) text).2.2 = none ∧
    (∀ msg, (c.ClassifyAppeal (.transportError msg) text).2.2 ≠ none) ∧
    (∀ statusCode body, (c.ClassifyAppeal (.badStatus statusCode body) text).2.2 ≠ none) := by
  refine ⟨?_, ?_, ?_, ?_, ?_, ?_⟩
  · intro h
    simp [Classifier.ClassifyAppeal, hen, hurl, F64.lt_eq_false_of_ge _ _ h]
  · intro h
    simp [Classifier.ClassifyAppeal, hen, hurl, ← h, F64.lt_irrefl]
  · intro h
    simp [Classifier.ClassifyAppeal, hen, hurl, h]
  · by_cases h : F64.lt conf c.confidenceThreshold = true <;>
      simp [Classifier.ClassifyAppeal, hen, hurl, h]
  · intro msg
    simp [Classifier.ClassifyAppeal, hen, hurl]
  · intro statusCode body
    simp [Classifier.ClassifyAppeal, hen, hurl]

theorem classifyAppeal_threshold_witness :
    (NewClassifier "http://classifier" true).enabled = true ∧
    (NewClassifier "http://classifier" true).serviceURL ≠ "" ∧
    (NewClassifier "http://classifier" true).ClassifyAppeal
        (.ok ⟨"Водоканал", float64_0_8⟩) "тече вода" = ("Водоканал", float64_0_8, none) :=
  ⟨rfl, by decide,
    (classifyAppeal_threshold (NewClassifier "http://classifier" true) "тече вода"
      "Водоканал" float64_0_8 rfl (by decide)).2.1 rfl⟩

/-! ## The appeal built by CreateAppeal -/

/-- Claim C19: whenever the store insert succeeds, the appeal returned by `CreateAppeal` has
status `new`, the calling user as owner, the title, description, address, latitude,
longitude and category id of the request, and the priority of the request when it has one,
2 otherwise. -/
theorem createAppeal_builds_appeal_from_request (s : AppealService) (db : DB)
    (w : CreateWorld) (now : Time) (userID : Int) (req : CreateAppealRequest)
    (hw : w.create = none) :
    ∃ ap, (s.CreateAppeal db w now userID req).appeal = some ap ∧
      ap.Status = StatusNew ∧ ap.UserID = userID ∧ ap.Title = req.Title ∧
      ap.Description = req.Description ∧ ap.Address = req.Address ∧
      ap.Latitude = req.Latitude ∧ ap.Longitude = req.Longitude ∧
      ap.CategoryID = some req.CategoryID ∧ ap.Priority = req.Priority.getD 2 := by
  have hp : (match req.Priority with
      | some p => p
      | none => 2) = req.Priority.getD 2 := by
    cases req.Priority <;> rfl
  simp only [AppealService.CreateAppeal, AppealRepository.Create, hw, hp]
  repeat' split
  all_goals exact ⟨_, rfl, rfl, rfl, rfl, rfl, rfl, rfl, rfl, rfl, rfl⟩

theorem createAppeal_builds_appeal_from_request_witness :
    routedWorld.create = none ∧
    ∃ ap, (sampleService.CreateAppeal DB.empty routedWorld 9 7 sampleRequest).appeal = some ap ∧
      ap.Status = StatusNew ∧ ap.UserID = 7 ∧ ap.Title = sampleRequest.Title ∧
      ap.Description = sampleRequest.Description ∧ ap.Address = sampleRequest.Address ∧
      ap.Latitude = sampleRequest.Latitude ∧ ap.Longitude = sampleRequest.Longitude ∧
      ap.CategoryID = some sampleRequest.CategoryID ∧
      ap.Priority = sampleRequest.Priority.getD 2 :=
  ⟨rfl, createAppeal_builds_appeal_from_request sampleService DB.empty routedWorld 9 7
    sampleRequest rfl⟩

/-! ## History action text -/

theorem statusLabel_eq_spec (s : AppealStatus) : statusLabel s = specStatusLabel s := by
  unfold statusLabel statusLabels specStatusLabel
  simp only [beq_iff_eq]
  split_ifs <;> first | rfl | (exfalso; revert ‹_›; decide)


/-- Claim C20: the action of the history entry written by `UpdateStatus` for a transition
is the sentence "Статус змінено з <label old> на <label new>", where the label of each of
the six known statuses is its fixed display label and the label of any other status value
is the value itself; the text is defined for every pair of status values. -/
theorem updateStatus_action_text (db : DB) (now : Time) (appealID : Int)
    (newStatus : AppealStatus) (userID : Int) (comment : Option String) (a : Appeal)
    (hget : db.getAppeal appealID = some a) (hne : a.Status ≠ newStatus) :
    ((AppealRepository.UpdateStatus db TxFaults.none now appealID newStatus userID
        comment).2.appeal_history.getLast?).map (fun e => e.Action)
      = some ("Статус змінено з " ++ specStatusLabel a.Status ++ " на " ++
          specStatusLabel newStatus) ∧
    (∀ s t : AppealStatus, statusChangeAction s t
      = "Статус змінено з " ++ specStatusLabel s ++ " на " ++ specStatusLabel t) ∧
    (∀ s : AppealStatus, statusLabel s = specStatusLabel s) ∧
    (specStatusLabel StatusNew = "Нове" ∧ specStatusLabel StatusAssigned = "Призначене" ∧
      specStatusLabel StatusInProgress = "В роботі" ∧
      specStatusLabel StatusCompleted = "Виконане" ∧
      specStatusLabel StatusClosed = "Закрите" ∧
      specStatusLabel StatusRejected = "Відхилене") ∧
    (∀ s : AppealStatus, isKnownStatus s = false → specStatusLabel s = s) := by
  have hact : ∀ s t : AppealStatus, statusChangeAction s t
      = "Статус змінено з " ++ specStatusLabel s ++ " на " ++ specStatusLabel t := by
    intro s t
    simp only [statusChangeAction, statusLabel_eq_spec]
  refine ⟨?_, hact, statusLabel_eq_spec, by decide, ?_⟩
  · rw [updateStatus_run db now appealID newStatus userID comment a hget hne]
    simp [DB.insertHistory, DB.updateAppeals, hact]
  · intro s hs
    simp only [isKnownStatus, Bool.or_eq_false_iff, beq_eq_false_iff_ne] at hs
    obtain ⟨⟨⟨⟨⟨h1, h2⟩, h3⟩, h4⟩, h5⟩, h6⟩ := hs
    simp [specStatusLabel, h1, h2, h3, h4, h5, h6]

theorem updateStatus_action_text_witness :
    sampleDB.getAppeal 1 = some sampleAppeal ∧ sampleAppeal.Status ≠ "on_hold" ∧
    ((AppealRepository.UpdateStatus sampleDB TxFaults.none 9 1 "on_hold" 42
        none).2.appeal_history.getLast?).map (fun e => e.Action)
      = some "Статус змінено з Нове на on_hold" :=
  ⟨by decide, by decide,
    (updateStatus_action_text sampleDB 9 1 "on_hold" 42 none sampleAppeal (by decide)
      (by decide)).1⟩

/-! ## Validation of create requests -/

theorem firstFailing_eq_none_iff (tags : List (String × Bool)) :
    firstFailing tags = none ↔ ∀ t ∈ tags, t.2 = true := by
  simp [firstFailing, List.find?_eq_none]

theorem fieldErrors_eq_nil_iff (fields : List (String × Option String)) :
    fieldErrors fields = [] ↔ ∀ f ∈ fields, f.2 = none := by
  simp [fieldErrors, List.filterMap_eq_nil_iff]

/-- A create request passes validation exactly when every tag of every field passes. -/
theorem createAppealRequest_validate_eq_nil_iff (req : CreateAppealRequest) :
    req.validate = [] ↔
      (req.Title ≠ "" ∧ 5 ≤ req.Title.length ∧ req.Title.length ≤ 200) ∧
      (req.Description ≠ "" ∧ 10 ≤ req.Description.length) ∧
      req.CategoryID ≠ 0 ∧ req.Address ≠ "" ∧
      (req.Latitude ≠ .fin 0 ∧ F64.ge req.Latitude (.fin (-90)) = true ∧
        F64.le req.Latitude (.fin 90) = true) ∧
      (req.Longitude ≠ .fin 0 ∧ F64.ge req.Longitude (.fin (-180)) = true ∧
        F64.le req.Longitude (.fin 180) = true) ∧
      (∀ p, req.Priority = some p → 1 ≤ p ∧ p ≤ 3) := by
  unfold CreateAppealRequest.validate
  rw [fieldErrors_eq_nil_iff]
  cases hp : req.Priority with
  | none => simp [firstFailing_eq_none_iff]
  | some p => simp [firstFailing_eq_none_iff]


/-- Claim C17: a create request whose title has fewer than 5 characters, or whose
description has fewer than 10, or whose latitude is not within [-90, 90], or whose longitude
is not within [-180, 180], fails validation; handler `Create` answers 400 with the
validation message and leaves the database as it was, whatever the lifecycle service and
the environment are (the service is not reached). -/
theorem create_validation_fails_fast (h : AppealHandler) (db : DB) (w : CreateWorld)
    (now : Time) (ctx : RequestContext) (req : CreateAppealRequest)
    (hbad : req.Title.length < 5 ∨ req.Description.length < 10 ∨
      ¬ (F64.ge req.Latitude (.fin (-90)) = true ∧ F64.le req.Latitude (.fin 90) = true) ∨
      ¬ (F64.ge req.Longitude (.fin (-180)) = true ∧
          F64.le req.Longitude (.fin 180) = true)) :
    req.validate ≠ [] ∧
    h.Create db w now ctx (some req)
      = (respondError 400 (validationMessage "CreateAppealRequest" req.validate), db) ∧
    (h.Create db w now ctx (some req)).1.status = 400 ∧
    (h.Create db w now ctx (some req)).2 = db := by
  have hv : req.validate ≠ [] := by
    intro hnil
    rw [createAppealRequest_validate_eq_nil_iff] at hnil
    obtain ⟨⟨_, ht, _⟩, ⟨_, hd⟩, _, _, ⟨_, hla⟩, ⟨_, hlo⟩, _⟩ := hnil
    rcases hbad with hb | hb | hb | hb
    · omega
    · omega
    · exact hb hla
    · exact hb hlo
  have hrun : h.Create db w now ctx (some req)
      = (respondError 400 (validationMessage "CreateAppealRequest" req.validate), db) := by
    simp [AppealHandler.Create, hv]
  exact ⟨hv, hrun, by rw [hrun]; rfl, by rw [hrun]⟩

theorem create_validation_fails_fast_witness :
    shortTitleRequest.Title.length < 5 ∧
    (({ service := sampleService } : AppealHandler).Create DB.empty routedWorld 9
        { userID := some 7, userRole := some RoleCitizen } (some shortTitleRequest)).1.status
      = 400 ∧
    (({ service := sampleService } : AppealHandler).Create DB.empty routedWorld 9
        { userID := some 7, userRole := some RoleCitizen } (some shortTitleRequest)).2
      = DB.empty :=
  have h := create_validation_fails_fast { service := sampleService } DB.empty routedWorld 9
    { userID := some 7, userRole := some RoleCitizen } shortTitleRequest (Or.inl (by decide))
  ⟨by decide, h.2.2.1, h.2.2.2⟩


/-! ## Coordinates -/

theorem zero_in_latitude_range :
    F64.ge (.fin 0) (.fin (-90)) = true ∧ F64.le (.fin 0) (.fin 90) = true := by
  constructor <;> simp [F64.ge, F64.le]

theorem thirty_in_longitude_range :
    F64.ge (.fin 30) (.fin (-180)) = true ∧ F64.le (.fin 30) (.fin 180) = true := by
  constructor <;> simp [F64.ge, F64.le] <;> norm_num

theorem fifty_in_latitude_range :
    F64.ge (.fin 50) (.fin (-90)) = true ∧ F64.le (.fin 50) (.fin 90) = true := by
  constructor <;> simp [F64.ge, F64.le] <;> norm_num

theorem equatorRequest_validate :
    equatorRequest.validate = [{ field := "Latitude", tag := "required" }] := by
  have h := thirty_in_longitude_range
  simp [CreateAppealRequest.validate, equatorRequest, sampleRequest, fieldErrors, firstFailing,
    h.1, h.2]
  decide

/-- Claim C18, evaluated on the code: `equatorRequest` has every other field valid,
latitude 0 and longitude 30, both inside their ranges, and validation rejects it (tag
`required` of `Latitude`); handler `Create` answers 400. -/
theorem create_rejects_latitude_zero :
    (F64.ge equatorRequest.Latitude (.fin (-90)) = true ∧
      F64.le equatorRequest.Latitude (.fin 90) = true) ∧
    (F64.ge equatorRequest.Longitude (.fin (-180)) = true ∧
      F64.le equatorRequest.Longitude (.fin 180) = true) ∧
    equatorRequest.validate = [{ field := "Latitude", tag := "required" }] ∧
    ¬ (equatorRequest.validate = [] ↔
        ((F64.ge equatorRequest.Latitude (.fin (-90)) = true ∧
          F64.le equatorRequest.Latitude (.fin 90) = true) ∧
         (F64.ge equatorRequest.Longitude (.fin (-180)) = true ∧
          F64.le equatorRequest.Longitude (.fin 180) = true))) ∧
    (({ service := sampleService } : AppealHandler).Create DB.empty routedWorld 9
        { userID := some 7, userRole := some RoleCitizen } (some equatorRequest)).1.status
      = 400 := by
  have hlat : F64.ge equatorRequest.Latitude (.fin (-90)) = true ∧
      F64.le equatorRequest.Latitude (.fin 90) = true := zero_in_latitude_range
  have hlng : F64.ge equatorRequest.Longitude (.fin (-180)) = true ∧
      F64.le equatorRequest.Longitude (.fin 180) = true := thirty_in_longitude_range
  have hv := equatorRequest_validate
  refine ⟨hlat, hlng, hv, ?_, ?_⟩
  · intro hiff
    have := hiff.2 ⟨hlat, hlng⟩
    rw [hv] at this
    cases this
  · simp [AppealHandler.Create, hv, respondError]

/-- The sibling path: an edit that moves the appeal to latitude 0, longitude 0 passes the
validation of `UpdateAppealRequest` (`omitempty,min,max` on a pointer has no `required`). -/
theorem update_accepts_latitude_zero :
    ({ Title := none, Description := none, CategoryID := none, Address := none,
       Latitude := some (.fin 0), Longitude := some (.fin 0) } : UpdateAppealRequest).validate
      = [] := by
  simp [UpdateAppealRequest.validate, fieldErrors, firstFailing, F64.ge, F64.le]

/-- The extent of the defect: for a create request whose other fields are valid, the
validation as coded accepts the request if and only if its latitude lies in [-90, 90] and
is not 0 and its longitude lies in [-180, 180] and is not 0. -/
theorem create_accepts_iff_coordinates_in_range_and_nonzero (req : CreateAppealRequest)
    (htitle : 5 ≤ req.Title.length ∧ req.Title.length ≤ 200)
    (hdesc : 10 ≤ req.Description.length)
    (hcat : req.CategoryID ≠ 0) (haddr : req.Address ≠ "")
    (hprio : ∀ p, req.Priority = some p → 1 ≤ p ∧ p ≤ 3) :
    req.validate = [] ↔
      ((F64.ge req.Latitude (.fin (-90)) = true ∧ F64.le req.Latitude (.fin 90) = true) ∧
        req.Latitude ≠ .fin 0) ∧
      ((F64.ge req.Longitude (.fin (-180)) = true ∧
        F64.le req.Longitude (.fin 180) = true) ∧ req.Longitude ≠ .fin 0) := by
  have ht : req.Title ≠ "" := by
    intro h
    rw [h] at htitle
    exact absurd htitle.1 (by decide)
  have hd : req.Description ≠ "" := by
    intro h
    rw [h] at hdesc
    exact absurd hdesc (by decide)
  rw [createAppealRequest_validate_eq_nil_iff]
  constructor
  · rintro ⟨_, _, _, _, ⟨h1, h2, h3⟩, ⟨h4, h5, h6⟩, _⟩
    exact ⟨⟨⟨h2, h3⟩, h1⟩, ⟨⟨h5, h6⟩, h4⟩⟩
  · rintro ⟨⟨⟨h2, h3⟩, h1⟩, ⟨⟨h5, h6⟩, h4⟩⟩
    exact ⟨⟨ht, htitle⟩, ⟨hd, hdesc⟩, hcat, haddr, ⟨h1, h2, h3⟩, ⟨h4, h5, h6⟩, hprio⟩

theorem create_accepts_iff_coordinates_in_range_and_nonzero_witness :
    (5 ≤ sampleRequest.Title.length ∧ sampleRequest.Title.length ≤ 200) ∧
    10 ≤ sampleRequest.Description.length ∧
    sampleRequest.validate = [] :=
  ⟨by decide, by decide,
    (create_accepts_iff_coordinates_in_range_and_nonzero sampleRequest (by decide) (by decide)
      (by decide) (by decide) (by intro p hp; cases hp)).2
      ⟨⟨fifty_in_latitude_range, by decide⟩, ⟨thirty_in_longitude_range, by decide⟩⟩⟩

/-! ## Permission checks of the transitions -/

theorem handlerUpdateStatus_403_iff (h : AppealHandler) (db : DB) (w : UpdateStatusWorld)
    (now : Time) (ctx : RequestContext) (id : Int) (req : UpdateStatusRequest) (a : Appeal)
    (hv : req.validate = []) (hgb : w.getByID = none) (hget : db.getAppeal id = some a) :
    ((h.UpdateStatus db w now ctx (some id) (some req)).1.status = 403 ↔
      matrixUpdateStatus (GetUserRole ctx).1 a.ServiceID.isSome = false) ∧
    (matrixUpdateStatus (GetUserRole ctx).1 a.ServiceID.isSome = false →
      (h.UpdateStatus db w now ctx (some id) (some req)).2 = db) := by
  simp only [AppealHandler.UpdateStatus, hv, hgb, AppealRepository.GetByID, hget,
    matrixUpdateStatus]
  generalize (GetUserRole ctx).1 = role
  rcases hr : AppealRepository.UpdateStatus db w.tx now id req.Status (GetUserID ctx).1
    req.Comment with ⟨err, db1⟩
  by_cases h1 : role = RoleAdmin <;> by_cases h2 : role = RoleDispatcher <;>
    by_cases h3 : role = RoleExecutor <;> cases hs : a.ServiceID <;> cases err <;>
    simp_all [respondError, respondJSON]


theorem updateStatus_no_faults_ok (db : DB) (now : Time) (appealID : Int)
    (newStatus : AppealStatus) (userID : Int) (comment : Option String) (a : Appeal)
    (hget : db.getAppeal appealID = some a) :
    (AppealRepository.UpdateStatus db TxFaults.none now appealID newStatus userID comment).1
      = none := by
  by_cases hs : a.Status = newStatus
  · subst hs
    rw [updateStatus_noop_run db now appealID userID comment a hget]
  · exact (updateStatus_ok_iff db TxFaults.none now appealID newStatus userID comment a hget
      hs).2 rfl

theorem handlerUpdateStatus_200 (h : AppealHandler) (db : DB) (w : UpdateStatusWorld)
    (now : Time) (ctx : RequestContext) (id : Int) (req : UpdateStatusRequest) (a : Appeal)
    (hv : req.validate = []) (hgb : w.getByID = none) (hget : db.getAppeal id = some a)
    (htx : w.tx = TxFaults.none)
    (hm : matrixUpdateStatus (GetUserRole ctx).1 a.ServiceID.isSome = true) :
    (h.UpdateStatus db w now ctx (some id) (some req)).1.status = 200 := by
  have hok := updateStatus_no_faults_ok db now id req.Status (GetUserID ctx).1 req.Comment a hget
  simp only [AppealHandler.UpdateStatus, hv, hgb, AppealRepository.GetByID, hget, htx]
  simp only [matrixUpdateStatus] at hm
  generalize (GetUserRole ctx).1 = role at hm
  rcases hr : AppealRepository.UpdateStatus db TxFaults.none now id req.Status
    (GetUserID ctx).1 req.Comment with ⟨err, db1⟩
  rw [hr] at hok
  simp only at hok
  subst hok
  by_cases h1 : role = RoleAdmin <;> by_cases h2 : role = RoleDispatcher <;>
    by_cases h3 : role = RoleExecutor <;> cases hs : a.ServiceID <;>
    simp_all [respondError, respondJSON]

theorem handlerUpdatePriority_403_iff (h : AppealHandler) (db : DB) (f : Fault) (now : Time)
    (ctx : RequestContext) (id : Int) (req : UpdatePriorityRequest)
    (hv : req.validate = []) :
    ((h.UpdatePriority db f now ctx (some id) (some req)).1.status = 403 ↔
      matrixUpdatePriority (GetUserRole ctx).1 = false) ∧
    (matrixUpdatePriority (GetUserRole ctx).1 = false →
      (h.UpdatePriority db f now ctx (some id) (some req)).2 = db) := by
  simp only [AppealHandler.UpdatePriority, hv, matrixUpdatePriority]
  generalize (GetUserRole ctx).1 = role
  rcases hr : AppealRepository.UpdatePriority db f now id req.Priority (GetUserID ctx).1
    with ⟨err, db1⟩
  by_cases h1 : role = RoleAdmin <;> by_cases h2 : role = RoleDispatcher <;>
    by_cases h3 : role = RoleExecutor <;> rcases err with _ | err <;>
    (try by_cases he : err = Error.ErrAppealNotFound) <;>
    simp_all [respondError, respondJSON]

theorem handlerAssign_403_iff (h : AppealHandler) (db : DB) (w : TxFaults) (now : Time)
    (ctx : RequestContext) (id : Int) (req : AssignAppealRequest) :
    ((h.Assign db w now ctx (some id) (some req)).1.status = 403 ↔
      matrixAssign (GetUserRole ctx).1 = false) ∧
    (matrixAssign (GetUserRole ctx).1 = false →
      (h.Assign db w now ctx (some id) (some req)).2 = db) := by
  simp only [AppealHandler.Assign, matrixAssign]
  generalize (GetUserRole ctx).1 = role
  rcases hr : AppealRepository.Assign db w now id req.ServiceID req.Priority (GetUserID ctx).1
    with ⟨err, db1⟩
  by_cases h1 : role = RoleAdmin <;> by_cases h2 : role = RoleDispatcher <;>
    by_cases hv : req.validate = [] <;> rcases err with _ | err <;>
    (try by_cases he : err = Error.ErrAppealNotFound) <;>
    simp_all [respondError, respondJSON]


theorem handlerUpdatePriority_200 (h : AppealHandler) (db : DB) (now : Time)
    (ctx : RequestContext) (id : Int) (req : UpdatePriorityRequest) (a : Appeal)
    (hv : req.validate = []) (hget : db.getAppeal id = some a)
    (hm : matrixUpdatePriority (GetUserRole ctx).1 = true) :
    (h.UpdatePriority db none now ctx (some id) (some req)).1.status = 200 := by
  have hrows := rowsWithID_ne_zero db id a hget
  simp only [AppealHandler.UpdatePriority, hv, AppealRepository.UpdatePriority,
    execUpdateAppeals]
  simp only [matrixUpdatePriority] at hm
  generalize (GetUserRole ctx).1 = role at hm
  by_cases h1 : role = RoleAdmin <;> by_cases h2 : role = RoleDispatcher <;>
    by_cases h3 : role = RoleExecutor <;>
    simp_all [respondError, respondJSON]

theorem handlerAssign_200 (h : AppealHandler) (db : DB) (now : Time)
    (ctx : RequestContext) (id : Int) (req : AssignAppealRequest) (a : Appeal)
    (hv : req.validate = []) (hget : db.getAppeal id = some a)
    (hm : matrixAssign (GetUserRole ctx).1 = true) :
    (h.Assign db TxFaults.none now ctx (some id) (some req)).1.status = 200 := by
  simp only [AppealHandler.Assign, hv,
    assign_run db now id req.ServiceID req.Priority (GetUserID ctx).1 a hget]
  simp only [matrixAssign] at hm
  generalize (GetUserRole ctx).1 = role at hm
  by_cases h1 : role = RoleAdmin <;> by_cases h2 : role = RoleDispatcher <;>
    simp_all [respondError, respondJSON]

/-- Claim C12: for a well-formed request on an existing appeal, each handler answers 403
exactly when the permission matrix denies the role, a denied request leaves the database
as it was, and a permitted request succeeds (200) when the store does not fail.
`UpdateStatus` is permitted iff the role is dispatcher or admin, or executor with the
appeal's service id set; `UpdatePriority` iff the role is dispatcher, executor or admin;
`Assign` iff the role is dispatcher or admin; a citizen gets 403 from all three. -/
theorem transitions_follow_permission_matrix (h : AppealHandler) (db : DB) (now : Time)
    (ctx : RequestContext) (id : Int) (a : Appeal)
    (wS : UpdateStatusWorld) (reqS : UpdateStatusRequest)
    (fP : Fault) (reqP : UpdatePriorityRequest)
    (wA : TxFaults) (reqA : AssignAppealRequest)
    (hget : db.getAppeal id = some a) (hgb : wS.getByID = none)
    (hvS : reqS.validate = []) (hvP : reqP.validate = []) (hvA : reqA.validate = []) :
    (((h.UpdateStatus db wS now ctx (some id) (some reqS)).1.status = 403 ↔
        matrixUpdateStatus (GetUserRole ctx).1 a.ServiceID.isSome = false) ∧
      (matrixUpdateStatus (GetUserRole ctx).1 a.ServiceID.isSome = false →
        (h.UpdateStatus db wS now ctx (some id) (some reqS)).2 = db) ∧
      (matrixUpdateStatus (GetUserRole ctx).1 a.ServiceID.isSome = true →
        wS.tx = TxFaults.none →
        (h.UpdateStatus db wS now ctx (some id) (some reqS)).1.status = 200)) ∧
    (((h.UpdatePriority db fP now ctx (some id) (some reqP)).1.status = 403 ↔
        matrixUpdatePriority (GetUserRole ctx).1 = false) ∧
      (matrixUpdatePriority (GetUserRole ctx).1 = false →
        (h.UpdatePriority db fP now ctx (some id) (some reqP)).2 = db) ∧
      (matrixUpdatePriority (GetUserRole ctx).1 = true →
        (h.UpdatePriority db none now ctx (some id) (some reqP)).1.status = 200)) ∧
    (((h.Assign db wA now ctx (some id) (some reqA)).1.status = 403 ↔
        matrixAssign (GetUserRole ctx).1 = false) ∧
      (matrixAssign (GetUserRole ctx).1 = false →
        (h.Assign db wA now ctx (some id) (some reqA)).2 = db) ∧
      (matrixAssign (GetUserRole ctx).1 = true →
        (h.Assign db TxFaults.none now ctx (some id) (some reqA)).1.status = 200)) ∧
    ((GetUserRole ctx).1 = RoleCitizen →
      (h.UpdateStatus db wS now ctx (some id) (some reqS)).1.status = 403 ∧
      (h.UpdatePriority db fP now ctx (some id) (some reqP)).1.status = 403 ∧
      (h.Assign db wA now ctx (some id) (some reqA)).1.status = 403) := by
  have hS := handlerUpdateStatus_403_iff h db wS now ctx id reqS a hvS hgb hget
  have hP := handlerUpdatePriority_403_iff h db fP now ctx id reqP hvP
  have hA := handlerAssign_403_iff h db wA now ctx id reqA
  refine ⟨⟨hS.1, hS.2, fun hm htx =>
      handlerUpdateStatus_200 h db wS now ctx id reqS a hvS hgb hget htx hm⟩,
    ⟨hP.1, hP.2, fun hm => handlerUpdatePriority_200 h db now ctx id reqP a hvP hget hm⟩,
    ⟨hA.1, hA.2, fun hm => handlerAssign_200 h db now ctx id reqA a hvA hget hm⟩, ?_⟩
  intro hc
  refine ⟨hS.1.2 ?_, hP.1.2 ?_, hA.1.2 ?_⟩
  · rw [hc]
    generalize a.ServiceID.isSome = ss
    cases ss <;> decide
  · rw [hc]; decide
  · rw [hc]; decide

theorem transitions_follow_permission_matrix_witness :
    sampleDB.getAppeal 1 = some sampleAppeal ∧
    (sampleHandler.UpdateStatus sampleDB ⟨none, TxFaults.none⟩ 9 dispatcherCtx (some 1)
      (some ⟨"in_progress", none⟩)).1.status = 200 ∧
    (sampleHandler.UpdateStatus sampleDB ⟨none, TxFaults.none⟩ 9 executorOwnerCtx (some 1)
      (some ⟨"in_progress", none⟩)).1.status = 403 ∧
    (sampleHandler.Assign sampleDB TxFaults.none 9 citizenCtx (some 1)
      (some ⟨4, none⟩)).2 = sampleDB :=
  have hd := transitions_follow_permission_matrix sampleHandler sampleDB 9 dispatcherCtx 1
    sampleAppeal ⟨none, TxFaults.none⟩ ⟨"in_progress", none⟩ none ⟨3⟩ TxFaults.none ⟨4, none⟩
    (by decide) rfl (by decide) (by decide) (by decide)
  have he := transitions_follow_permission_matrix sampleHandler sampleDB 9 executorOwnerCtx 1
    sampleAppeal ⟨none, TxFaults.none⟩ ⟨"in_progress", none⟩ none ⟨3⟩ TxFaults.none ⟨4, none⟩
    (by decide) rfl (by decide) (by decide) (by decide)
  have hc := transitions_follow_permission_matrix sampleHandler sampleDB 9 citizenCtx 1
    sampleAppeal ⟨none, TxFaults.none⟩ ⟨"in_progress", none⟩ none ⟨3⟩ TxFaults.none ⟨4, none⟩
    (by decide) rfl (by decide) (by decide) (by decide)
  ⟨by decide, hd.1.2.2 (by decide) rfl, he.1.1.2 (by decide), hc.2.2.1.2.1 (by decide)⟩

/-! ## Editing an appeal -/

theorem applyUpdateFields_frame (a : Appeal) (c : Bool) (req : UpdateAppealRequest) :
    (applyUpdateFields a c req).ID = a.ID ∧
    (applyUpdateFields a c req).UserID = a.UserID ∧
    (applyUpdateFields a c req).Status = a.Status ∧
    (applyUpdateFields a c req).Priority = a.Priority ∧
    (applyUpdateFields a c req).ServiceID = a.ServiceID ∧
    (applyUpdateFields a c req).ClosedAt = a.ClosedAt := by
  obtain ⟨t, d, cat, ad, la, lo⟩ := req
  cases t <;> cases d <;> cases cat <;> cases ad <;> cases la <;> cases lo <;> cases c <;>
    exact ⟨rfl, rfl, rfl, rfl, rfl, rfl⟩

theorem applyUpdateFields_not_creator (a : Appeal) (req : UpdateAppealRequest) :
    (applyUpdateFields a false req).Title = a.Title ∧
    (applyUpdateFields a false req).Description = a.Description ∧
    (applyUpdateFields a false req).CategoryID = (req.CategoryID.map some).getD a.CategoryID ∧
    (applyUpdateFields a false req).Address = req.Address.getD a.Address ∧
    (applyUpdateFields a false req).Latitude = req.Latitude.getD a.Latitude ∧
    (applyUpdateFields a false req).Longitude = req.Longitude.getD a.Longitude := by
  obtain ⟨t, d, cat, ad, la, lo⟩ := req
  cases t <;> cases d <;> cases cat <;> cases ad <;> cases la <;> cases lo <;>
    exact ⟨rfl, rfl, rfl, rfl, rfl, rfl⟩

theorem update_ok_of_exists (db : DB) (now : Time) (appeal a : Appeal)
    (hget : db.getAppeal appeal.ID = some a) :
    (AppealRepository.Update db none now appeal).1 = none := by
  have hrows := rowsWithID_ne_zero db appeal.ID a hget
  simp [AppealRepository.Update, execUpdateAppeals, hrows]

theorem update_error_keeps_db (db : DB) (f : Fault) (now : Time) (appeal : Appeal)
    (h : (AppealRepository.Update db f now appeal).1 ≠ none) (id : Int) :
    (AppealRepository.Update db f now appeal).2.getAppeal id = db.getAppeal id := by
  cases f with
  | some e => rfl
  | none =>
    cases hg : db.getAppeal appeal.ID with
    | some a => exact absurd (update_ok_of_exists db now appeal a hg) h
    | none =>
      have hz := rowsWithID_eq_zero db appeal.ID hg
      simp only [AppealRepository.Update, execUpdateAppeals, hz]
      by_cases hid : id = appeal.ID
      · subst hid
        show (DB.updateAppeals db appeal.ID _).getAppeal appeal.ID = _
        rw [getAppeal_updateAppeals db appeal.ID _ ?_ appeal.ID, hg]
        · rfl
        · intro _; rfl
      · show (DB.updateAppeals db appeal.ID _).getAppeal id = _
        rw [getAppeal_updateAppeals_other db appeal.ID _ ?_ id hid]
        intro _; rfl

/-- Claim C13, amended: once the appeal has been read and for a valid body, handler `Update`
decides by ownership first and role second. The user who created the appeal, whatever
their role, may edit it while its status is `new` (200 when the store does not fail); a
dispatcher or admin who did not create it may edit it whatever its status; a user who did
not create it and is neither dispatcher nor admin gets 403; a creator who is neither
dispatcher nor admin gets 400 once the status is no longer `new`. A refused request leaves
the database as it was. -/
theorem update_permitted_by_ownership_then_role (h : AppealHandler) (db : DB) (w : UpdateWorld) (now : Time)
    (ctx : RequestContext) (id : Int) (req : UpdateAppealRequest) (a : Appeal)
    (hgb : w.getByID = none) (hget : db.getAppeal id = some a) (hv : req.validate = []) :
    (a.UserID = (GetUserID ctx).1 → a.Status = StatusNew → w.update = none →
      (h.Update db w now ctx (some id) (some req)).1.status = 200) ∧
    (a.UserID ≠ (GetUserID ctx).1 →
      (GetUserRole ctx).1 = RoleDispatcher ∨ (GetUserRole ctx).1 = RoleAdmin →
      w.update = none →
      (h.Update db w now ctx (some id) (some req)).1.status = 200) ∧
    (a.UserID ≠ (GetUserID ctx).1 →
      (GetUserRole ctx).1 ≠ RoleDispatcher → (GetUserRole ctx).1 ≠ RoleAdmin →
      (h.Update db w now ctx (some id) (some req)).1.status = 403 ∧
      (h.Update db w now ctx (some id) (some req)).2 = db) ∧
    (a.UserID = (GetUserID ctx).1 → a.Status ≠ StatusNew →
      (GetUserRole ctx).1 ≠ RoleDispatcher → (GetUserRole ctx).1 ≠ RoleAdmin →
      (h.Update db w now ctx (some id) (some req)).1.status = 400 ∧
      (h.Update db w now ctx (some id) (some req)).2 = db) := by
  have hid := getAppeal_id db id a hget
  have hok : ∀ c, (AppealRepository.Update db none now (applyUpdateFields a c req)).1
      = none := by
    intro c
    apply update_ok_of_exists db now _ a
    rw [(applyUpdateFields_frame a c req).1, hid]
    exact hget
  refine ⟨?_, ?_, ?_, ?_⟩
  · intro hu hs hw
    have := hok true
    rcases hr : AppealRepository.Update db none now (applyUpdateFields a true req)
      with ⟨err, db1⟩
    rw [hr] at this
    simp only at this
    subst this
    simp [AppealHandler.Update, hgb, AppealRepository.GetByID, hget, hv, hu, hs, hw, hr,
      respondJSON]
  · intro hu hrole hw
    have := hok false
    rcases hr : AppealRepository.Update db none now (applyUpdateFields a false req)
      with ⟨err, db1⟩
    rw [hr] at this
    simp only at this
    subst this
    have hb : (a.UserID == (GetUserID ctx).1) = false := by simpa using hu
    rcases hrole with hrole | hrole <;>
      simp [AppealHandler.Update, hgb, AppealRepository.GetByID, hget, hv, hb, hrole, hw, hr,
        respondJSON]
  · intro hu h1 h2
    simp [AppealHandler.Update, hgb, AppealRepository.GetByID, hget, hu, h1, h2, respondError]
  · intro hu hs h1 h2
    simp [AppealHandler.Update, hgb, AppealRepository.GetByID, hget, hu, hs, h1, h2,
      respondError]


theorem update_permitted_by_ownership_then_role_witness :
    assignedDB.getAppeal 1
      = some { sampleAppeal with Status := "assigned", ServiceID := some 3 } ∧
    (sampleHandler.Update assignedDB ⟨none, none⟩ 9 dispatcherCtx (some 1)
      (some retitleRequest)).1.status = 200 ∧
    (sampleHandler.Update assignedDB ⟨none, none⟩ 9 citizenCtx (some 1)
      (some retitleRequest)).1.status = 400 :=
  have hd := update_permitted_by_ownership_then_role sampleHandler assignedDB ⟨none, none⟩ 9
    dispatcherCtx 1 retitleRequest { sampleAppeal with Status := "assigned", ServiceID := some 3 }
    rfl (by decide) (by decide)
  have hc := update_permitted_by_ownership_then_role sampleHandler assignedDB ⟨none, none⟩ 9
    citizenCtx 1 retitleRequest { sampleAppeal with Status := "assigned", ServiceID := some 3 }
    rfl (by decide) (by decide)
  ⟨by decide, hd.2.1 (by decide) (Or.inl rfl) rfl,
    (hc.2.2.2 (by decide) (by decide) (by decide) (by decide)).1⟩

/-- Claim C13 fails as stated: an executor who created the appeal (user 7, role executor,
appeal 1 in status `new`) edits it through handler `Update`; the answer is 200 and the
stored title is the new one. -/
theorem update_permits_executor_who_owns_the_appeal :
    (GetUserRole executorOwnerCtx).1 = RoleExecutor ∧
    sampleDB.getAppeal 1 = some sampleAppeal ∧
    (sampleHandler.Update sampleDB ⟨none, none⟩ 9 executorOwnerCtx (some 1)
      (some retitleRequest)).1.status = 200 ∧
    ((sampleHandler.Update sampleDB ⟨none, none⟩ 9 executorOwnerCtx (some 1)
      (some retitleRequest)).2.getAppeal 1).map (fun a => a.Title)
      = some "Не працює ліхтар" := by
  decide

theorem relocateRequest_validate : relocateRequest.validate = [] := by
  simp [UpdateAppealRequest.validate, relocateRequest, fieldErrors, firstFailing, F64.ge,
    F64.le]
  norm_num

/-- What an edit by a dispatcher or admin who is not the creator stores: category, address,
latitude and longitude are taken from the request where it carries them; title and
description are kept. -/
theorem update_by_non_creator_stores (h : AppealHandler) (db : DB) (now : Time)
    (ctx : RequestContext) (id : Int) (req : UpdateAppealRequest) (a : Appeal)
    (hget : db.getAppeal id = some a) (hv : req.validate = [])
    (hu : a.UserID ≠ (GetUserID ctx).1)
    (hrole : (GetUserRole ctx).1 = RoleDispatcher ∨ (GetUserRole ctx).1 = RoleAdmin) :
    (h.Update db ⟨none, none⟩ now ctx (some id) (some req)).2.getAppeal id
      = some { a with
          CategoryID := (req.CategoryID.map some).getD a.CategoryID,
          Address := req.Address.getD a.Address,
          Latitude := req.Latitude.getD a.Latitude,
          Longitude := req.Longitude.getD a.Longitude,
          UpdatedAt := now } := by
  have hid := getAppeal_id db id a hget
  have hrows := rowsWithID_ne_zero db id a hget
  have hb : (a.UserID == (GetUserID ctx).1) = false := by simpa using hu
  have hf := applyUpdateFields_frame a false req
  have hn := applyUpdateFields_not_creator a req
  have hrun : (h.Update db ⟨none, none⟩ now ctx (some id) (some req)).2
      = db.updateAppeals id (fun x => { x with
          Title := (applyUpdateFields a false req).Title,
          Description := (applyUpdateFields a false req).Description,
          CategoryID := (applyUpdateFields a false req).CategoryID,
          Address := (applyUpdateFields a false req).Address,
          Latitude := (applyUpdateFields a false req).Latitude,
          Longitude := (applyUpdateFields a false req).Longitude,
          ServiceID := (applyUpdateFields a false req).ServiceID,
          UpdatedAt := now }) := by
    rcases hrole with hrole | hrole <;>
      simp [AppealHandler.Update, AppealRepository.GetByID, hget, hv, hb, hrole,
        AppealRepository.Update, execUpdateAppeals, hf.1, hid, hrows]
  rw [hrun, getAppeal_updateAppeals_self db id _ ?_ a hget]
  · rw [hn.1, hn.2.1, hn.2.2.1, hn.2.2.2.1, hn.2.2.2.2.1, hn.2.2.2.2.2, hf.2.2.2.2.1]
  · intro _; rfl

/-- Claim C14, evaluated on the code: a dispatcher (user 42) who did not create appeal 1
(owner 7) sends an edit carrying an address and coordinates; handler `Update` answers 200
and the stored address, latitude and longitude are those of the request, while title and
description are kept. -/
theorem update_by_dispatcher_changes_address_and_coordinates :
    (GetUserRole dispatcherCtx).1 = RoleDispatcher ∧
    (sampleDB.getAppeal 1).map (fun a => a.UserID) = some 7 ∧
    (GetUserID dispatcherCtx).1 = 42 ∧
    (sampleHandler.Update sampleDB ⟨none, none⟩ 9 dispatcherCtx (some 1)
      (some relocateRequest)).1.status = 200 ∧
    ((sampleHandler.Update sampleDB ⟨none, none⟩ 9 dispatcherCtx (some 1)
      (some relocateRequest)).2.getAppeal 1).map
        (fun a => (a.Address, a.Latitude, a.Longitude, a.Title, a.Description))
      = some ("вул. Інша, 2", .fin 10, .fin 20, sampleAppeal.Title,
          sampleAppeal.Description) ∧
    (sampleDB.getAppeal 1).map (fun a => (a.Address, a.Latitude, a.Longitude))
      = some ("1 Main St", .fin 50, .fin 30) := by
  have hv := relocateRequest_validate
  refine ⟨rfl, by decide, rfl, ?_, ?_, by decide⟩
  · simp only [AppealHandler.Update, AppealRepository.GetByID, hv]
    decide
  · simp only [AppealHandler.Update, AppealRepository.GetByID, hv]
    decide

/-! ## Status and priority of the rows after each store operation -/

theorem rows_updateAppeals (Q : AppealStatus → Int → Prop) (db : DB) (id : Int)
    (set : Appeal → Appeal) (hdb : RowsSatisfy Q db)
    (hset : ∀ a ∈ db.appeals, Q (set a).Status (set a).Priority) :
    RowsSatisfy Q (db.updateAppeals id set) := by
  intro a ha
  simp only [DB.updateAppeals, List.mem_map] at ha
  obtain ⟨b, hb, rfl⟩ := ha
  by_cases hid : (b.ID == id) = true
  · simp only [hid, if_true]; exact hset b hb
  · simp only [hid]; exact hdb b hb

theorem rows_insertAppeal (Q : AppealStatus → Int → Prop) (db : DB) (row : Appeal)
    (hdb : RowsSatisfy Q db) (hrow : Q row.Status row.Priority) :
    RowsSatisfy Q (db.insertAppeal row) := by
  intro a ha
  simp only [DB.insertAppeal, List.mem_append, List.mem_singleton] at ha
  rcases ha with ha | rfl
  · exact hdb a ha
  · exact hrow

theorem updateStatus_shape (db : DB) (w : TxFaults) (now : Time) (appealID : Int)
    (newStatus : AppealStatus) (userID : Int) (comment : Option String) :
    (AppealRepository.UpdateStatus db w now appealID newStatus userID comment).2 = db ∨
    (AppealRepository.UpdateStatus db w now appealID newStatus userID comment).2
      = db.updateAppeals appealID (fun x => { x with UpdatedAt := now }) ∨
    ∃ a, db.getAppeal appealID = some a ∧ a.Status ≠ newStatus ∧
      (AppealRepository.UpdateStatus db w now appealID newStatus userID comment)
        = (none, (db.updateAppeals appealID (fun x => { x with
              Status := newStatus, UpdatedAt := now,
              ClosedAt := if newStatus = StatusClosed ∨ newStatus = StatusCompleted
                          then some now else x.ClosedAt })).insertHistory
            now appealID userID (some a.Status) newStatus
            (statusChangeAction a.Status newStatus) comment) := by
  cases hg : db.getAppeal appealID with
  | none =>
    left
    apply updateStatus_error_keeps_db
    obtain ⟨b, q, u, h, c⟩ := w
    cases b <;> cases q <;>
      simp [AppealRepository.UpdateStatus, Begin, selectStatus, hg]
  | some a =>
    by_cases hs : a.Status = newStatus
    · subst hs
      rcases updateStatus_noop_any db w now appealID userID comment a hg with h | h
      · exact Or.inl h
      · exact Or.inr (Or.inl h)
    · by_cases hw : w = TxFaults.none
      · subst hw
        exact Or.inr (Or.inr ⟨a, rfl, hs,
          updateStatus_run db now appealID newStatus userID comment a hg hs⟩)
      · left
        apply updateStatus_error_keeps_db
        exact fun h =>
          hw ((updateStatus_ok_iff db w now appealID newStatus userID comment a hg hs).1 h)

theorem assign_shape (db : DB) (w : TxFaults) (now : Time) (appealID serviceID : Int)
    (priority : Option Int) (userID : Int) :
    (AppealRepository.Assign db w now appealID serviceID priority userID).2 = db ∨
    ∃ a, db.getAppeal appealID = some a ∧
      (AppealRepository.Assign db w now appealID serviceID priority userID)
        = (none, (db.updateAppeals appealID (fun x => { x with
              ServiceID := some serviceID, Priority := priority.getD x.Priority,
              Status := "assigned", UpdatedAt := now })).insertHistory
            now appealID userID (some a.Status) "assigned"
            (if a.Status = StatusAssigned then reassignAction
             else assignStatusChangeAction a.Status) none) := by
  cases hg : db.getAppeal appealID with
  | none =>
    left
    apply assign_error_keeps_db
    obtain ⟨b, q, u, h, c⟩ := w
    cases b <;> cases q <;>
      simp [AppealRepository.Assign, Begin, selectStatus, hg]
  | some a =>
    by_cases hw : w = TxFaults.none
    · subst hw
      exact Or.inr ⟨a, rfl, assign_run db now appealID serviceID priority userID a hg⟩
    · left
      apply assign_error_keeps_db
      exact fun h => hw ((assign_ok_iff db w now appealID serviceID priority userID a hg).1 h)

theorem updateStatus_rows (Q : AppealStatus → Int → Prop) (db : DB) (w : TxFaults)
    (now : Time) (appealID : Int) (newStatus : AppealStatus) (userID : Int)
    (comment : Option String) (hdb : RowsSatisfy Q db)
    (hQ : ∀ a ∈ db.appeals, Q newStatus a.Priority) :
    RowsSatisfy Q
      (AppealRepository.UpdateStatus db w now appealID newStatus userID comment).2 := by
  rcases updateStatus_shape db w now appealID newStatus userID comment with h | h | ⟨a, _, _, h⟩
  · rw [h]; exact hdb
  · rw [h]; exact rows_updateAppeals Q db appealID _ hdb hdb
  · rw [h]; exact rows_updateAppeals Q db appealID _ hdb hQ

theorem assign_rows (Q : AppealStatus → Int → Prop) (db : DB) (w : TxFaults)
    (now : Time) (appealID serviceID : Int) (priority : Option Int) (userID : Int)
    (hdb : RowsSatisfy Q db)
    (hQ : ∀ a ∈ db.appeals, Q StatusAssigned (priority.getD a.Priority)) :
    RowsSatisfy Q (AppealRepository.Assign db w now appealID serviceID priority userID).2 := by
  rcases assign_shape db w now appealID serviceID priority userID with h | ⟨a, _, h⟩
  · rw [h]; exact hdb
  · rw [h]; exact rows_updateAppeals Q db appealID _ hdb hQ

theorem updatePriority_rows (Q : AppealStatus → Int → Prop) (db : DB) (f : Fault)
    (now : Time) (appealID : Int) (priority : Int) (userID : Int)
    (hdb : RowsSatisfy Q db) (hQ : ∀ a ∈ db.appeals, Q a.Status priority) :
    RowsSatisfy Q (AppealRepository.UpdatePriority db f now appealID priority userID).2 := by
  cases f with
  | some e => exact hdb
  | none =>
    have : (AppealRepository.UpdatePriority db none now appealID priority userID).2
        = db.updateAppeals appealID
            (fun a => { a with Priority := priority, UpdatedAt := now }) := by
      simp only [AppealRepository.UpdatePriority, execUpdateAppeals]
      split_ifs <;> rfl
    rw [this]
    exact rows_updateAppeals Q db appealID _ hdb hQ

theorem update_rows (Q : AppealStatus → Int → Prop) (db : DB) (f : Fault)
    (now : Time) (appeal : Appeal) (hdb : RowsSatisfy Q db) :
    RowsSatisfy Q (AppealRepository.Update db f now appeal).2 := by
  cases f with
  | some e => exact hdb
  | none =>
    have : (AppealRepository.Update db none now appeal).2
        = db.updateAppeals appeal.ID
            (fun a => { a with
              Title := appeal.Title, Description := appeal.Description,
              CategoryID := appeal.CategoryID, Address := appeal.Address,
              Latitude := appeal.Latitude, Longitude := appeal.Longitude,
              ServiceID := appeal.ServiceID, UpdatedAt := now }) := by
      simp only [AppealRepository.Update, execUpdateAppeals]
      split_ifs <;> rfl
    rw [this]
    exact rows_updateAppeals Q db appeal.ID _ hdb hdb

theorem createAppeal_rows (Q : AppealStatus → Int → Prop) (s : AppealService) (db : DB)
    (w : CreateWorld) (now : Time) (userID : Int) (req : CreateAppealRequest)
    (hdb : RowsSatisfy Q db) (hQ : Q StatusNew (req.Priority.getD 2)) :
    RowsSatisfy Q (s.CreateAppeal db w now userID req).db := by
  have hp : (match req.Priority with
      | some p => p
      | none => 2) = req.Priority.getD 2 := by
    cases req.Priority <;> rfl
  cases hw : w.create with
  | some e =>
    rw [createAppeal_db_of_insert_failed s db w now userID req e hw]
    exact hdb
  | none =>
    have h1 : RowsSatisfy Q (db.insertAppeal (insertedAppealRow (db.appeals_id_seq + 1) now
        { ID := 0, UserID := userID, CategoryID := some req.CategoryID, ServiceID := none,
          Status := StatusNew, Title := req.Title, Description := req.Description,
          Address := req.Address, Latitude := req.Latitude, Longitude := req.Longitude,
          Priority := req.Priority.getD 2, CreatedAt := 0, UpdatedAt := 0,
          ClosedAt := none })) :=
      rows_insertAppeal Q db _ hdb hQ
    simp only [AppealService.CreateAppeal, AppealRepository.Create, hw, hp]
    repeat' split
    all_goals first
      | exact h1
      | exact update_rows Q _ _ _ _ h1

/-! ## Priority along handler runs -/

theorem updatePriorityRequest_validate_eq_nil_iff (req : UpdatePriorityRequest) :
    req.validate = [] ↔ req.Priority ≠ 0 ∧ 1 ≤ req.Priority ∧ req.Priority ≤ 3 := by
  unfold UpdatePriorityRequest.validate
  rw [fieldErrors_eq_nil_iff]
  simp [firstFailing_eq_none_iff]

theorem assignAppealRequest_validate_eq_nil_iff (req : AssignAppealRequest) :
    req.validate = [] ↔ req.ServiceID ≠ 0 ∧ ∀ p, req.Priority = some p → 1 ≤ p ∧ p ≤ 3 := by
  unfold AssignAppealRequest.validate
  rw [fieldErrors_eq_nil_iff]
  cases hp : req.Priority with
  | none => simp [firstFailing_eq_none_iff]
  | some p => simp [firstFailing_eq_none_iff]

theorem updateStatusRequest_validate_eq_nil_iff (req : UpdateStatusRequest) :
    req.validate = [] ↔ req.Status ≠ "" := by
  unfold UpdateStatusRequest.validate
  rw [fieldErrors_eq_nil_iff]
  simp [firstFailing_eq_none_iff]

theorem handlerCreate_db (h : AppealHandler) (db : DB) (w : CreateWorld) (now : Time)
    (ctx : RequestContext) (body : Option CreateAppealRequest) :
    (h.Create db w now ctx body).2 = db ∨
    ∃ req, body = some req ∧ req.validate = [] ∧
      (h.Create db w now ctx body).2
        = (h.service.CreateAppeal db w now (GetUserID ctx).1 req).db := by
  cases body with
  | none => exact Or.inl rfl
  | some req =>
    by_cases hv : req.validate = []
    · refine Or.inr ⟨req, rfl, hv, ?_⟩
      simp only [AppealHandler.Create, hv]
      cases (h.service.CreateAppeal db w now (GetUserID ctx).1 req).err <;> rfl
    · left
      simp [AppealHandler.Create, hv]

theorem handlerUpdate_db (h : AppealHandler) (db : DB) (w : UpdateWorld) (now : Time)
    (ctx : RequestContext) (id : Option Int) (body : Option UpdateAppealRequest) :
    (h.Update db w now ctx id body).2 = db ∨
    ∃ appeal, (h.Update db w now ctx id body).2
      = (AppealRepository.Update db w.update now appeal).2 := by
  cases id with
  | none => exact Or.inl rfl
  | some appealID =>
    simp only [AppealHandler.Update]
    cases hg : AppealRepository.GetByID db w.getByID appealID with
    | error err =>
      simp only
      split_ifs <;> exact Or.inl rfl
    | ok appeal =>
      simp only
      split_ifs
      · exact Or.inl rfl
      · exact Or.inl rfl
      · cases body with
        | none => exact Or.inl rfl
        | some req =>
          simp only
          split_ifs
          · exact Or.inl rfl
          · right
            refine ⟨applyUpdateFields appeal (appeal.UserID == (GetUserID ctx).1) req, ?_⟩
            rcases AppealRepository.Update db w.update now
              (applyUpdateFields appeal (appeal.UserID == (GetUserID ctx).1) req)
              with ⟨err, db1⟩
            cases err <;> rfl

theorem handlerUpdateStatus_db (h : AppealHandler) (db : DB) (w : UpdateStatusWorld)
    (now : Time) (ctx : RequestContext) (id : Option Int)
    (body : Option UpdateStatusRequest) :
    (h.UpdateStatus db w now ctx id body).2 = db ∨
    ∃ appealID req, id = some appealID ∧ body = some req ∧ req.validate = [] ∧
      (h.UpdateStatus db w now ctx id body).2
        = (AppealRepository.UpdateStatus db w.tx now appealID req.Status (GetUserID ctx).1
            req.Comment).2 := by
  cases id with
  | none => exact Or.inl rfl
  | some appealID =>
    cases body with
    | none => exact Or.inl rfl
    | some req =>
      by_cases hv : req.validate = []
      · simp only [AppealHandler.UpdateStatus, hv]
        repeat' split
        all_goals first
          | exact Or.inl rfl
          | (rename_i heq
             exact Or.inr ⟨appealID, req, rfl, rfl, hv, (congrArg Prod.snd heq).symm⟩)
      · left
        simp [AppealHandler.UpdateStatus, hv]

theorem handlerUpdatePriority_db (h : AppealHandler) (db : DB) (f : Fault)
    (now : Time) (ctx : RequestContext) (id : Option Int)
    (body : Option UpdatePriorityRequest) :
    (h.UpdatePriority db f now ctx id body).2 = db ∨
    ∃ appealID req, id = some appealID ∧ body = some req ∧ req.validate = [] ∧
      (h.UpdatePriority db f now ctx id body).2
        = (AppealRepository.UpdatePriority db f now appealID req.Priority
            (GetUserID ctx).1).2 := by
  cases id with
  | none => exact Or.inl rfl
  | some appealID =>
    cases body with
    | none => exact Or.inl rfl
    | some req =>
      by_cases hv : req.validate = []
      · simp only [AppealHandler.UpdatePriority, hv]
        repeat' split
        all_goals first
          | exact Or.inl rfl
          | (rename_i heq
             exact Or.inr ⟨appealID, req, rfl, rfl, hv, (congrArg Prod.snd heq).symm⟩)
          | (rename_i heq _
             exact Or.inr ⟨appealID, req, rfl, rfl, hv, (congrArg Prod.snd heq).symm⟩)
      · left
        simp [AppealHandler.UpdatePriority, hv]

theorem handlerAssign_db (h : AppealHandler) (db : DB) (w : TxFaults)
    (now : Time) (ctx : RequestContext) (id : Option Int)
    (body : Option AssignAppealRequest) :
    (h.Assign db w now ctx id body).2 = db ∨
    ∃ appealID req, id = some appealID ∧ body = some req ∧ req.validate = [] ∧
      (h.Assign db w now ctx id body).2
        = (AppealRepository.Assign db w now appealID req.ServiceID req.Priority
            (GetUserID ctx).1).2 := by
  cases id with
  | none => exact Or.inl rfl
  | some appealID =>
    cases body with
    | none => exact Or.inl rfl
    | some req =>
      by_cases hv : req.validate = []
      · simp only [AppealHandler.Assign, hv]
        repeat' split
        all_goals first
          | exact Or.inl rfl
          | (rename_i heq
             exact Or.inr ⟨appealID, req, rfl, rfl, hv, (congrArg Prod.snd heq).symm⟩)
          | (rename_i heq _
             exact Or.inr ⟨appealID, req, rfl, rfl, hv, (congrArg Prod.snd heq).symm⟩)
      · left
        simp only [AppealHandler.Assign]
        split
        · rfl
        · simp [hv]


theorem handle_rows_priority (db : DB) (op : HandlerOp)
    (hdb : RowsSatisfy PriorityInRange db) : RowsSatisfy PriorityInRange (handle db op) := by
  cases op with
  | create h w now ctx body =>
    show RowsSatisfy PriorityInRange (h.Create db w now ctx body).2
    rcases handlerCreate_db h db w now ctx body with hr | ⟨req, _, hv, hr⟩
    · rw [hr]; exact hdb
    · rw [hr]
      apply createAppeal_rows PriorityInRange h.service db w now _ req hdb
      have hp := ((createAppealRequest_validate_eq_nil_iff req).1 hv).2.2.2.2.2.2
      cases hq : req.Priority with
      | none => exact ⟨by decide, by decide⟩
      | some p => exact hp p hq
  | update h w now ctx id body =>
    show RowsSatisfy PriorityInRange (h.Update db w now ctx id body).2
    rcases handlerUpdate_db h db w now ctx id body with hr | ⟨appeal, hr⟩
    · rw [hr]; exact hdb
    · rw [hr]
      exact update_rows PriorityInRange db w.update now appeal hdb
  | updateStatus h w now ctx id body =>
    show RowsSatisfy PriorityInRange (h.UpdateStatus db w now ctx id body).2
    rcases handlerUpdateStatus_db h db w now ctx id body with hr | ⟨appealID, req, _, _, _, hr⟩
    · rw [hr]; exact hdb
    · rw [hr]
      exact updateStatus_rows PriorityInRange db w.tx now appealID req.Status _ _ hdb hdb
  | updatePriority h f now ctx id body =>
    show RowsSatisfy PriorityInRange (h.UpdatePriority db f now ctx id body).2
    rcases handlerUpdatePriority_db h db f now ctx id body with
      hr | ⟨appealID, req, _, _, hv, hr⟩
    · rw [hr]; exact hdb
    · rw [hr]
      have hp := ((updatePriorityRequest_validate_eq_nil_iff req).1 hv).2
      exact updatePriority_rows PriorityInRange db f now appealID req.Priority _ hdb
        (fun _ _ => hp)
  | assign h w now ctx id body =>
    show RowsSatisfy PriorityInRange (h.Assign db w now ctx id body).2
    rcases handlerAssign_db h db w now ctx id body with hr | ⟨appealID, req, _, _, hv, hr⟩
    · rw [hr]; exact hdb
    · rw [hr]
      have hp := ((assignAppealRequest_validate_eq_nil_iff req).1 hv).2
      apply assign_rows PriorityInRange db w now appealID req.ServiceID req.Priority _ hdb
      intro a ha
      cases hq : req.Priority with
      | none => exact hdb a ha
      | some p => exact hp p hq

theorem serve_rows_priority (ops : List HandlerOp) :
    ∀ db, RowsSatisfy PriorityInRange db → RowsSatisfy PriorityInRange (serve db ops) := by
  induction ops with
  | nil => intro db hdb; exact hdb
  | cons op ops ih =>
    intro db hdb
    exact ih (handle db op) (handle_rows_priority db op hdb)

theorem assign_priority_of_none (db : DB) (w : TxFaults) (now : Time)
    (appealID serviceID : Int) (userID : Int) (a : Appeal)
    (hget : db.getAppeal appealID = some a) :
    ((AppealRepository.Assign db w now appealID serviceID none userID).2.getAppeal
      appealID).map (fun x => x.Priority) = some a.Priority := by
  rcases assign_shape db w now appealID serviceID none userID with h | ⟨b, _, h⟩
  · rw [h, hget]; rfl
  · rw [h]
    show ((DB.updateAppeals db appealID _).getAppeal appealID).map _ = _
    rw [getAppeal_updateAppeals_self db appealID _ ?_ a hget]
    · rfl
    · intro _; rfl


/-- Claim C16: in every state reached from the empty store through any sequence of handler
requests (Create, Update, UpdateStatus, UpdatePriority, Assign, with arbitrary inputs and
injected failures) every appeal's priority is between 1 and 3. A Create, UpdatePriority or
Assign request carrying a priority outside 1..3 is refused (400; Assign answers 403 first
when the role is not allowed) and leaves the database as it was; an Assign without a
priority leaves the appeal's priority as it was. -/
theorem priority_stays_in_range (ops : List HandlerOp) :
    (∀ a ∈ (serve DB.empty ops).appeals, 1 ≤ a.Priority ∧ a.Priority ≤ 3) ∧
    (∀ (h : AppealHandler) (db : DB) (w : CreateWorld) (now : Time) (ctx : RequestContext)
        (req : CreateAppealRequest) (p : Int), req.Priority = some p → (p < 1 ∨ 3 < p) →
      (h.Create db w now ctx (some req)).1.status = 400 ∧
      (h.Create db w now ctx (some req)).2 = db) ∧
    (∀ (h : AppealHandler) (db : DB) (f : Fault) (now : Time) (ctx : RequestContext)
        (id : Int) (req : UpdatePriorityRequest), (req.Priority < 1 ∨ 3 < req.Priority) →
      (h.UpdatePriority db f now ctx (some id) (some req)).1.status = 400 ∧
      (h.UpdatePriority db f now ctx (some id) (some req)).2 = db) ∧
    (∀ (h : AppealHandler) (db : DB) (w : TxFaults) (now : Time) (ctx : RequestContext)
        (id : Int) (req : AssignAppealRequest) (p : Int), req.Priority = some p →
        (p < 1 ∨ 3 < p) →
      ((h.Assign db w now ctx (some id) (some req)).1.status = 400 ∨
        (h.Assign db w now ctx (some id) (some req)).1.status = 403) ∧
      (h.Assign db w now ctx (some id) (some req)).2 = db) ∧
    (∀ (h : AppealHandler) (db : DB) (w : TxFaults) (now : Time) (ctx : RequestContext)
        (id : Int) (req : AssignAppealRequest) (a : Appeal), req.Priority = none →
        db.getAppeal id = some a →
      ((h.Assign db w now ctx (some id) (some req)).2.getAppeal id).map (fun x => x.Priority)
        = some a.Priority) := by
  refine ⟨?_, ?_, ?_, ?_, ?_⟩
  · exact serve_rows_priority ops DB.empty (fun a ha => by simp [DB.empty] at ha)
  · intro h db w now ctx req p hp hbad
    have hv : req.validate ≠ [] := by
      intro hnil
      have := ((createAppealRequest_validate_eq_nil_iff req).1 hnil).2.2.2.2.2.2 p hp
      omega
    simp [AppealHandler.Create, hv, respondError]
  · intro h db f now ctx id req hbad
    have hv : req.validate ≠ [] := by
      intro hnil
      have := ((updatePriorityRequest_validate_eq_nil_iff req).1 hnil).2
      omega
    simp [AppealHandler.UpdatePriority, hv, respondError]
  · intro h db w now ctx id req p hp hbad
    have hv : req.validate ≠ [] := by
      intro hnil
      have := ((assignAppealRequest_validate_eq_nil_iff req).1 hnil).2 p hp
      omega
    simp only [AppealHandler.Assign]
    split
    · exact ⟨Or.inr rfl, rfl⟩
    · simp [hv, respondError]
  · intro h db w now ctx id req a hp hget
    rcases handlerAssign_db h db w now ctx (some id) (some req) with hr | ⟨i, r, hi, hb, _, hr⟩
    · rw [hr, hget]; rfl
    · cases hi; cases hb
      rw [hr, hp]
      exact assign_priority_of_none db w now id req.ServiceID _ a hget

theorem priority_stays_in_range_witness :
    ((serve DB.empty priorityRun).appeals.map (fun a => a.Priority)) = [1] ∧
    (∀ a ∈ (serve DB.empty priorityRun).appeals, 1 ≤ a.Priority ∧ a.Priority ≤ 3) ∧
    (sampleHandler.UpdatePriority sampleDB none 9 dispatcherCtx (some 1) (some ⟨4⟩)).1.status
      = 400 :=
  have h := priority_stays_in_range priorityRun
  ⟨by decide, h.1, (h.2.2.1 sampleHandler sampleDB none 9 dispatcherCtx 1 ⟨4⟩
    (Or.inr (by decide))).1⟩

/-! ## Status values along handler runs -/

theorem handle_rows_status (db : DB) (op : HandlerOp) (hop : op.statusTargetKnown = true)
    (hdb : RowsSatisfy StatusKnown db) : RowsSatisfy StatusKnown (handle db op) := by
  cases op with
  | create h w now ctx body =>
    show RowsSatisfy StatusKnown (h.Create db w now ctx body).2
    rcases handlerCreate_db h db w now ctx body with hr | ⟨req, _, hv, hr⟩
    · rw [hr]; exact hdb
    · rw [hr]
      exact createAppeal_rows StatusKnown h.service db w now _ req hdb
        (show isKnownStatus StatusNew = true by decide)
  | update h w now ctx id body =>
    show RowsSatisfy StatusKnown (h.Update db w now ctx id body).2
    rcases handlerUpdate_db h db w now ctx id body with hr | ⟨appeal, hr⟩
    · rw [hr]; exact hdb
    · rw [hr]
      exact update_rows StatusKnown db w.update now appeal hdb
  | updateStatus h w now ctx id body =>
    show RowsSatisfy StatusKnown (h.UpdateStatus db w now ctx id body).2
    rcases handlerUpdateStatus_db h db w now ctx id body with
      hr | ⟨appealID, req, _, hb, _, hr⟩
    · rw [hr]; exact hdb
    · rw [hr]
      subst hb
      exact updateStatus_rows StatusKnown db w.tx now appealID req.Status _ _ hdb
        (fun _ _ => hop)
  | updatePriority h f now ctx id body =>
    show RowsSatisfy StatusKnown (h.UpdatePriority db f now ctx id body).2
    rcases handlerUpdatePriority_db h db f now ctx id body with
      hr | ⟨appealID, req, _, _, hv, hr⟩
    · rw [hr]; exact hdb
    · rw [hr]
      exact updatePriority_rows StatusKnown db f now appealID req.Priority _ hdb hdb
  | assign h w now ctx id body =>
    show RowsSatisfy StatusKnown (h.Assign db w now ctx id body).2
    rcases handlerAssign_db h db w now ctx id body with hr | ⟨appealID, req, _, _, hv, hr⟩
    · rw [hr]; exact hdb
    · rw [hr]
      exact assign_rows StatusKnown db w now appealID req.ServiceID req.Priority _ hdb
        (fun _ _ => show isKnownStatus StatusAssigned = true by decide)

theorem serve_rows_status (ops : List HandlerOp) :
    ∀ db, (∀ op ∈ ops, op.statusTargetKnown = true) → RowsSatisfy StatusKnown db →
      RowsSatisfy StatusKnown (serve db ops) := by
  induction ops with
  | nil => intro db _ hdb; exact hdb
  | cons op ops ih =>
    intro db hops hdb
    exact ih (handle db op) (fun o ho => hops o (List.mem_cons_of_mem _ ho))
      (handle_rows_status db op (hops op (List.mem_cons_self _ _)) hdb)

theorem updateStatus_no_faults_status (db : DB) (now : Time) (appealID : Int)
    (newStatus : AppealStatus) (userID : Int) (comment : Option String) (a : Appeal)
    (hget : db.getAppeal appealID = some a) :
    ((AppealRepository.UpdateStatus db TxFaults.none now appealID newStatus userID
      comment).2.getAppeal appealID).map (fun x => x.Status) = some newStatus := by
  by_cases hs : a.Status = newStatus
  · subst hs
    rw [updateStatus_noop_run db now appealID userID comment a hget]
    show ((DB.updateAppeals db appealID _).getAppeal appealID).map _ = _
    rw [getAppeal_updateAppeals_self db appealID _ ?_ a hget]
    · rfl
    · intro _; rfl
  · rw [updateStatus_run db now appealID newStatus userID comment a hget hs]
    show ((DB.updateAppeals db appealID _).getAppeal appealID).map _ = _
    rw [getAppeal_updateAppeals_self db appealID _ ?_ a hget]
    · rfl
    · intro _; rfl

theorem handlerUpdateStatus_permitted_db (h : AppealHandler) (db : DB)
    (w : UpdateStatusWorld) (now : Time) (ctx : RequestContext) (id : Int)
    (req : UpdateStatusRequest) (a : Appeal)
    (hv : req.validate = []) (hgb : w.getByID = none) (hget : db.getAppeal id = some a)
    (hm : matrixUpdateStatus (GetUserRole ctx).1 a.ServiceID.isSome = true) :
    (h.UpdateStatus db w now ctx (some id) (some req)).2
      = (AppealRepository.UpdateStatus db w.tx now id req.Status (GetUserID ctx).1
          req.Comment).2 := by
  simp only [AppealHandler.UpdateStatus, hv, hgb, AppealRepository.GetByID, hget]
  simp only [matrixUpdateStatus] at hm
  generalize (GetUserRole ctx).1 = role at hm
  rcases hr : AppealRepository.UpdateStatus db w.tx now id req.Status (GetUserID ctx).1
    req.Comment with ⟨err, db1⟩
  by_cases h1 : role = RoleAdmin <;> by_cases h2 : role = RoleDispatcher <;>
    by_cases h3 : role = RoleExecutor <;> cases hs : a.ServiceID <;> cases err <;>
    simp_all

/-- Claim C15 fails as stated: a dispatcher sends an UpdateStatus request whose target is
the string "foo"; the handler answers 200, and in the state reached the appeal's status is
"foo", which is none of the six tokens. -/
theorem updateStatus_accepts_unknown_status :
    isKnownStatus "foo" = false ∧
    (manualHandler.UpdateStatus sampleDB ⟨none, TxFaults.none⟩ 9 dispatcherCtx (some 1)
      (some ⟨"foo", none⟩)).1.status = 200 ∧
    ((manualHandler.UpdateStatus sampleDB ⟨none, TxFaults.none⟩ 9 dispatcherCtx (some 1)
      (some ⟨"foo", none⟩)).2.getAppeal 1).map (fun a => a.Status) = some "foo" ∧
    (serve DB.empty fooRun).appeals.map (fun a => a.Status) = ["foo"] := by
  decide


/-- Claim C15, amended: in every state reached from the empty store through handler
requests whose UpdateStatus targets are all among the six tokens, every appeal's status is
one of the six tokens. The handler refuses only the empty target (400, database unchanged);
any other target string, for a role the permission check admits, an existing appeal and a
store that does not fail, is answered 200 and becomes the appeal's status. -/
theorem status_known_when_targets_known (ops : List HandlerOp) :
    ((∀ op ∈ ops, op.statusTargetKnown = true) →
      ∀ a ∈ (serve DB.empty ops).appeals, isKnownStatus a.Status = true) ∧
    (∀ (h : AppealHandler) (db : DB) (w : UpdateStatusWorld) (now : Time)
        (ctx : RequestContext) (id : Int) (req : UpdateStatusRequest), req.Status = "" →
      (h.UpdateStatus db w now ctx (some id) (some req)).1.status = 400 ∧
      (h.UpdateStatus db w now ctx (some id) (some req)).2 = db) ∧
    (∀ (h : AppealHandler) (db : DB) (now : Time) (ctx : RequestContext) (id : Int)
        (req : UpdateStatusRequest) (a : Appeal), req.Status ≠ "" →
        db.getAppeal id = some a →
        matrixUpdateStatus (GetUserRole ctx).1 a.ServiceID.isSome = true →
      (h.UpdateStatus db ⟨none, TxFaults.none⟩ now ctx (some id) (some req)).1.status = 200 ∧
      ((h.UpdateStatus db ⟨none, TxFaults.none⟩ now ctx (some id) (some req)).2.getAppeal
        id).map (fun x => x.Status) = some req.Status) := by
  refine ⟨?_, ?_, ?_⟩
  · intro hops
    exact serve_rows_status ops DB.empty hops (fun a ha => by simp [DB.empty] at ha)
  · intro h db w now ctx id req hs
    have hv : req.validate ≠ [] := by
      intro hnil
      exact (updateStatusRequest_validate_eq_nil_iff req).1 hnil hs
    simp [AppealHandler.UpdateStatus, hv, respondError]
  · intro h db now ctx id req a hs hget hm
    have hv : req.validate = [] := (updateStatusRequest_validate_eq_nil_iff req).2 hs
    have h200 := handlerUpdateStatus_200 h db ⟨none, TxFaults.none⟩ now ctx id req a hv rfl
      hget rfl hm
    refine ⟨h200, ?_⟩
    rw [handlerUpdateStatus_permitted_db h db ⟨none, TxFaults.none⟩ now ctx id req a hv rfl
      hget hm]
    exact updateStatus_no_faults_status db now id req.Status _ req.Comment a hget


theorem status_known_when_targets_known_witness :
    (∀ op ∈ knownRun, op.statusTargetKnown = true) ∧
    (serve DB.empty knownRun).appeals.map (fun a => a.Status) = ["completed"] ∧
    (∀ a ∈ (serve DB.empty knownRun).appeals, isKnownStatus a.Status = true) ∧
    (manualHandler.UpdateStatus sampleDB ⟨none, TxFaults.none⟩ 9 dispatcherCtx (some 1)
      (some ⟨"", none⟩)).1.status = 400 :=
  have h := status_known_when_targets_known knownRun
  ⟨by decide, by decide, h.1 (by decide),
    (h.2.1 manualHandler sampleDB ⟨none, TxFaults.none⟩ 9 dispatcherCtx 1 ⟨"", none⟩ rfl).1⟩

/-! ## The confidence threshold -/

/-- Claim C24 fails as stated: for the input NaN both comparisons of
`SetConfidenceThreshold` are false, the stored threshold is NaN, and NaN does not lie in
[0, 1]. -/
theorem setConfidenceThreshold_stores_nan :
    ((NewClassifier "http://classifier" true).SetConfidenceThreshold .nan).confidenceThreshold
      = .nan ∧
    F64.le (.fin 0) .nan = false ∧ F64.le .nan (.fin 1) = false := by
  decide

/-- Claim C24, amended: for every input the stored threshold is `min(1, max(0, t))`; for
every input other than NaN it lies in [0, 1], and NaN is stored as it is; setting is
idempotent (setting the same input again, or setting the stored value, changes nothing);
a new classifier has the threshold 0.8. -/
theorem setConfidenceThreshold_clamps (c : Classifier) (t : F64) :
    (c.SetConfidenceThreshold t).confidenceThreshold = specClampedThreshold t ∧
    (t ≠ .nan →
      F64.le (.fin 0) (c.SetConfidenceThreshold t).confidenceThreshold = true ∧
      F64.le (c.SetConfidenceThreshold t).confidenceThreshold (.fin 1) = true) ∧
    (t = .nan → (c.SetConfidenceThreshold t).confidenceThreshold = .nan) ∧
    (c.SetConfidenceThreshold t).SetConfidenceThreshold t = c.SetConfidenceThreshold t ∧
    (c.SetConfidenceThreshold t).SetConfidenceThreshold
      (c.SetConfidenceThreshold t).confidenceThreshold = c.SetConfidenceThreshold t ∧
    ∀ serviceURL enabled, (NewClassifier serviceURL enabled).confidenceThreshold
      = float64_0_8 := by
  have f1 : ¬ (1 : ℚ) < 0 := by norm_num
  have f2 : (0 : ℚ) < 1 := by norm_num
  have f3 : (0 : ℚ) ≤ 1 := by norm_num
  have f4 : ¬ (1 : ℚ) < 1 := by norm_num
  have f5 : ¬ (0 : ℚ) < 0 := by norm_num
  cases t with
  | nan => simp [Classifier.SetConfidenceThreshold, specClampedThreshold, F64.min, F64.max,
      F64.lt, F64.gt, NewClassifier]
  | negInf => simp [Classifier.SetConfidenceThreshold, specClampedThreshold, F64.min, F64.max,
      F64.lt, F64.gt, F64.le, NewClassifier, f1, f2, f3, f4, f5]
  | posInf => simp [Classifier.SetConfidenceThreshold, specClampedThreshold, F64.min, F64.max,
      F64.lt, F64.gt, F64.le, NewClassifier, f1, f2, f3, f4, f5]
  | fin q =>
    rcases lt_or_le q 0 with h0 | h0
    · have g1 : ¬ 0 < q := not_lt.mpr h0.le
      have g2 : ¬ 1 < q := by linarith
      have g3 : ¬ 0 ≤ q := not_le.mpr h0
      simp [Classifier.SetConfidenceThreshold, specClampedThreshold, F64.min, F64.max,
        F64.lt, F64.gt, F64.le, NewClassifier, h0, g1, g2, g3, f1, f2, f3, f4, f5]
    · rcases lt_or_le 1 q with h1 | h1
      · have g1 : ¬ q < 0 := not_lt.mpr h0
        have g2 : 0 < q := by linarith
        have g3 : ¬ q ≤ 1 := not_le.mpr h1
        have g4 : ¬ q < 1 := by linarith
        simp [Classifier.SetConfidenceThreshold, specClampedThreshold, F64.min, F64.max,
          F64.lt, F64.gt, F64.le, NewClassifier, h0, h1, g1, g2, g3, g4, f1, f2, f3, f4, f5]
      · have g1 : ¬ q < 0 := not_lt.mpr h0
        have g2 : ¬ 1 < q := not_lt.mpr h1
        rcases eq_or_lt_of_le h0 with h2 | h2
        · subst h2
          simp [Classifier.SetConfidenceThreshold, specClampedThreshold, F64.min, F64.max,
            F64.lt, F64.gt, F64.le, NewClassifier, f1, f2, f3, f4, f5]
        · simp [Classifier.SetConfidenceThreshold, specClampedThreshold, F64.min, F64.max,
            F64.lt, F64.gt, F64.le, NewClassifier, h0, h1, h2, g1, g2, f1, f2, f3, f4, f5]
          split_ifs with h3
          · rfl
          · rw [le_antisymm h1 (not_lt.mp h3)]

theorem setConfidenceThreshold_clamps_witness :
    ((NewClassifier "http://classifier" true).SetConfidenceThreshold (.fin 2)).confidenceThreshold
      = .fin 1 ∧
    F64.le (.fin 0)
      ((NewClassifier "http://classifier" true).SetConfidenceThreshold (.fin 2)).confidenceThreshold
      = true :=
  ⟨by decide,
   ((setConfidenceThreshold_clamps (NewClassifier "http://classifier" true) (.fin 2)).2.1
      (by decide)).1⟩

/-! ## Role middleware -/

/-- Claim C25: `RequireRole` hands the request to the next handler exactly when the context
holds a role that is one of the listed roles; a role that is not listed is answered 403 and
a context without a role 401, and in both cases the answer does not depend on the next
handler and the store is untouched. -/
theorem requireRole_passes_iff_role_listed (roles : List UserRole) (ctx : RequestContext) :
    ((∀ next db, RequireRole roles next ctx db = next ctx db) ↔
      ∃ role, ctx.userRole = some role ∧ role ∈ roles) ∧
    (∀ role, ctx.userRole = some role → role ∉ roles → ∀ next db,
      RequireRole roles next ctx db
        = (Middleware.respondError 403 "Insufficient permissions", db)) ∧
    (ctx.userRole = none → ∀ next db,
      RequireRole roles next ctx db = (Middleware.respondError 401 "User role not found", db)) := by
  have hany : ∀ role : UserRole, roles.any (fun r => role == r) = true ↔ role ∈ roles := by
    intro role
    simp [List.any_eq_true]
  refine ⟨⟨?_, ?_⟩, ?_, ?_⟩
  · intro h
    have h1 := h okHandler DB.empty
    cases hr : ctx.userRole with
    | none =>
      simp only [RequireRole, hr, okHandler, Middleware.respondError] at h1
      exact absurd (congrArg (fun p => p.1.status) h1) (by decide)
    | some role =>
      refine ⟨role, rfl, ?_⟩
      by_contra hn
      have hf : roles.any (fun r => role == r) = false := by
        rw [← Bool.not_eq_true, hany]; exact hn
      simp only [RequireRole, hr, hf, okHandler, Middleware.respondError] at h1
      exact absurd (congrArg (fun p => p.1.status) h1) (by decide)
  · rintro ⟨role, hr, hmem⟩ next db
    have ht : roles.any (fun r => role == r) = true := (hany role).2 hmem
    simp [RequireRole, hr, ht]
  · intro role hr hn next db
    have hf : roles.any (fun r => role == r) = false := by
      rw [← Bool.not_eq_true, hany]; exact hn
    simp [RequireRole, hr, hf]
  · intro hr next db
    simp [RequireRole, hr]

theorem requireRole_passes_iff_role_listed_witness :
    RequireRole [RoleDispatcher, RoleAdmin] okHandler citizenCtx sampleDB
      = (Middleware.respondError 403 "Insufficient permissions", sampleDB) ∧
    RequireRole [RoleDispatcher, RoleAdmin] okHandler dispatcherCtx sampleDB
      = okHandler dispatcherCtx sampleDB :=
  ⟨(requireRole_passes_iff_role_listed [RoleDispatcher, RoleAdmin] citizenCtx).2.1
      RoleCitizen rfl (by decide) okHandler sampleDB,
   ((requireRole_passes_iff_role_listed [RoleDispatcher, RoleAdmin] dispatcherCtx).1.2
      ⟨RoleDispatcher, rfl, by decide⟩) okHandler sampleDB⟩

/-! ## Refreshing a token -/

theorem refreshToken_panics_on_expired (s : TokenService) (parse : String → ParseOutcome)
    (sign : Claims → String × Option AuthError) (now : Time) (oldTokenString : String)
    (hp : parse oldTokenString = .failed true) :
    s.ValidateToken parse oldTokenString = (none, some .ErrExpiredToken) ∧
    s.RefreshToken parse sign now oldTokenString
      = .panicked "runtime error: invalid memory address or nil pointer dereference" := by
  simp [TokenService.RefreshToken, TokenService.ValidateToken, hp]

/-- Claim C28, evaluated on the code: for a correctly signed token that has expired,
`ValidateToken` returns nil claims with `ErrExpiredToken`; `RefreshToken` lets that error
pass and then writes `ExpiresAt` through the nil claims, so the call panics instead of
returning a token or an error. -/
theorem refreshToken_expired_token_dereferences_nil :
    sampleTokenService.ValidateToken sampleParse "expired" = (none, some .ErrExpiredToken) ∧
    sampleTokenService.RefreshToken sampleParse sampleSign 100000 "expired"
      = .panicked "runtime error: invalid memory address or nil pointer dereference" ∧
    sampleTokenService.RefreshToken sampleParse sampleSign 100000 "fresh"
      = .returned ("signed:dispatcher@example.com", none) ∧
    sampleTokenService.RefreshToken sampleParse sampleSign 100000 "garbage"
      = .returned ("", some .ErrInvalidToken) := by
  decide

/-! ## The service id of a created appeal -/

theorem classify_updateFailsWorld :
    (NewClassifier "http://classifier" true).ClassifyAppeal updateFailsWorld.http
      sampleRequest.Description = ("Водоканал", .fin 1, none) := by
  simp [NewClassifier, Classifier.ClassifyAppeal, updateFailsWorld,
    one_not_lt_default_threshold]

/-- Claim C27, evaluated on the code: the classifier suggests the water service (id 4)
and the store update that would persist the service id fails; `CreateAppeal` returns no
error and an appeal whose service id is 4, while the stored row has no service id. -/
theorem createAppeal_returns_service_id_of_failed_update :
    (AppealRepository.Update
      (DB.empty.insertAppeal (insertedAppealRow 1 9 sampleAppeal)) updateFailsWorld.update
      updateFailsWorld.updateNow sampleAppeal).1 ≠ none ∧
    (sampleService.CreateAppeal DB.empty updateFailsWorld 9 7 sampleRequest).err = none ∧
    ((sampleService.CreateAppeal DB.empty updateFailsWorld 9 7 sampleRequest).appeal.map
      (fun a => a.ServiceID)) = some (some 4) ∧
    (((sampleService.CreateAppeal DB.empty updateFailsWorld 9 7 sampleRequest).db.getAppeal
      1).map (fun a => a.ServiceID)) = some none := by
  have hc := classify_updateFailsWorld
  have hg : sampleService.serviceRepo.GetByName updateFailsWorld.getByName "Водоканал"
      = .ok waterService := by rfl
  simp only [AppealService.CreateAppeal, sampleService, hc]
  simp only [sampleService] at hg
  simp only [hg]
  decide

/-! ## No transition graph -/

/-- Claim C30: for every existing appeal and every target status other than its current
one, `UpdateStatus` on a store that does not fail returns no error and the appeal's status
becomes the target; and the handler, for a request that passes validation from a role the
permission matrix admits, answers 200 and leaves the store as the store operation does.
No comparison of the old with the new status takes part. -/
theorem updateStatus_enforces_no_transition_graph (db : DB) (now : Time) (appealID : Int)
    (newStatus : AppealStatus) (userID : Int) (comment : Option String) (a : Appeal)
    (hget : db.getAppeal appealID = some a) (hne : newStatus ≠ a.Status) :
    (AppealRepository.UpdateStatus db TxFaults.none now appealID newStatus userID comment).1
      = none ∧
    ((AppealRepository.UpdateStatus db TxFaults.none now appealID newStatus userID
      comment).2.getAppeal appealID).map (fun x => x.Status) = some newStatus ∧
    (AppealRepository.UpdateStatus db TxFaults.none now appealID newStatus userID
      comment).2.historyOf appealID
      = db.historyOf appealID ++
          [{ ID := db.appeal_history_id_seq + 1, AppealID := appealID, UserID := userID,
             OldStatus := some a.Status, NewStatus := newStatus,
             Action := statusChangeAction a.Status newStatus, Comment := comment,
             CreatedAt := now }] ∧
    ∀ (h : AppealHandler) (ctx : RequestContext) (c : Option String),
      newStatus ≠ "" →
      matrixUpdateStatus (GetUserRole ctx).1 a.ServiceID.isSome = true →
      (h.UpdateStatus db ⟨none, TxFaults.none⟩ now ctx (some appealID)
        (some ⟨newStatus, c⟩)).1.status = 200 ∧
      (((h.UpdateStatus db ⟨none, TxFaults.none⟩ now ctx (some appealID)
        (some ⟨newStatus, c⟩)).2.getAppeal appealID).map (fun x => x.Status))
        = some newStatus := by
  refine ⟨updateStatus_no_faults_ok db now appealID newStatus userID comment a hget,
    updateStatus_no_faults_status db now appealID newStatus userID comment a hget, ?_, ?_⟩
  · rw [updateStatus_run db now appealID newStatus userID comment a hget (Ne.symm hne)]
    simp [DB.historyOf, DB.insertHistory, DB.updateAppeals]
  · intro h ctx c hs hm
    have hv : (⟨newStatus, c⟩ : UpdateStatusRequest).validate = [] :=
      (updateStatusRequest_validate_eq_nil_iff _).2 hs
    refine ⟨handlerUpdateStatus_200 h db ⟨none, TxFaults.none⟩ now ctx appealID _ a hv rfl hget
      rfl hm, ?_⟩
    rw [handlerUpdateStatus_permitted_db h db ⟨none, TxFaults.none⟩ now ctx appealID _ a hv rfl
      hget hm]
    exact updateStatus_no_faults_status db now appealID newStatus (GetUserID ctx).1 c a hget

theorem updateStatus_enforces_no_transition_graph_witness :
    closedDB.getAppeal 1 = some closedAppeal ∧
    (AppealRepository.UpdateStatus closedDB TxFaults.none 9 1 "new" 42 none).1 = none ∧
    ((AppealRepository.UpdateStatus closedDB TxFaults.none 9 1 "new" 42 none).2.getAppeal
      1).map (fun x => x.Status) = some "new" ∧
    (manualHandler.UpdateStatus closedDB ⟨none, TxFaults.none⟩ 9 dispatcherCtx (some 1)
      (some ⟨"new", none⟩)).1.status = 200 :=
  have h := updateStatus_enforces_no_transition_graph closedDB 9 1 "new" 42 none closedAppeal
    (by decide) (by decide)
  ⟨by decide, h.1, h.2.1, (h.2.2.2 manualHandler dispatcherCtx none (by decide) (by decide)).1⟩

/-! ## Pagination -/

theorem list_ok_filters (db : DB) (w : ListWorld) (f f1 : AppealFilters)
    (appeals : List Appeal) (total : Int)
    (h : AppealRepository.List db w f = (.ok (appeals, total), f1)) :
    f1.Limit = (if f.Limit ≤ 0 then 20 else f.Limit) ∧
    f1.Page = (if f.Page ≤ 0 then 1 else f.Page) ∧
    0 ≤ wrapInt64 (wrapInt64 (f1.Page - 1) * f1.Limit) ∧
    0 ≤ total := by
  unfold AppealRepository.List at h
  cases hc : w.count with
  | some e => simp [hc] at h
  | none =>
    cases hq : w.query with
    | some e => simp [hc, hq] at h
    | none =>
      simp only [hc, hq] at h
      split_ifs at h <;>
        simp only [Prod.mk.injEq, Except.ok.injEq, reduceCtorEq, false_and] at h <;>
        obtain ⟨⟨-, rfl⟩, rfl⟩ := h <;>
        simp_all <;> omega

theorem totalPages_eq_ceil (total limit : Int) (h0 : 0 ≤ total) (h1 : 1 ≤ limit) :
    (if Int.tmod total limit > 0 then Int.tdiv total limit + 1 else Int.tdiv total limit)
      = ⌈(total : ℚ) / (limit : ℚ)⌉ := by
  have hl : (0 : Int) < limit := by omega
  have hlq : (0 : ℚ) < (limit : ℚ) := by exact_mod_cast hl
  rw [Int.tdiv_eq_ediv h0 hl.le, Int.tmod_eq_emod h0 hl.le]
  have hd := Int.emod_add_ediv total limit
  have hr0 := Int.emod_nonneg total hl.ne'
  have hr1 := Int.emod_lt_of_pos total hl
  symm
  rw [Int.ceil_eq_iff]
  split_ifs with hr
  · constructor
    · rw [lt_div_iff₀ hlq]
      push_cast
      have : (total / limit) * limit < total := by nlinarith
      have h2 : ((total / limit : Int) : ℚ) * (limit : ℚ) < (total : ℚ) := by exact_mod_cast this
      linarith
    · rw [div_le_iff₀ hlq]
      have : total ≤ (total / limit + 1) * limit := by nlinarith
      exact_mod_cast this
  · have hz : total % limit = 0 := by omega
    constructor
    · rw [lt_div_iff₀ hlq]
      have : (total / limit - 1) * limit < total := by nlinarith
      have h2 : (((total / limit - 1 : Int)) : ℚ) * (limit : ℚ) < (total : ℚ) := by
        exact_mod_cast this
      push_cast at h2
      linarith
    · rw [div_le_iff₀ hlq]
      have : total ≤ (total / limit) * limit := by nlinarith
      exact_mod_cast this

/-- Claim C29: for every page and limit of the request, `AppealHandler.List` never panics;
and whenever the repository's `List` succeeds, the limit in effect is the requested one, or
20 when that is not positive, the page is the requested one, or 1 when that is not
positive, both are at least 1, the offset sent to the database is not negative, and the
handler answers with `total_pages` equal to the ceiling of total over limit. -/
theorem list_pagination_is_division_safe (h : AppealHandler) (db : DB) (w : ListWorld)
    (q : ListQuery) :
    (∀ message, h.List db w q ≠ .panicked message) ∧
    ∀ appeals total filters,
      AppealRepository.List db w (AppealHandler.listFilters q)
        = (.ok (appeals, total), filters) →
      filters.Limit = (if q.limit.getD 20 ≤ 0 then 20 else q.limit.getD 20) ∧
      filters.Page = (if q.page.getD 1 ≤ 0 then 1 else q.page.getD 1) ∧
      1 ≤ filters.Limit ∧ 1 ≤ filters.Page ∧
      0 ≤ wrapInt64 (wrapInt64 (filters.Page - 1) * filters.Limit) ∧
      h.List db w q = .returned (.page
        { Items := appeals, Total := total, Page := filters.Page, Limit := filters.Limit,
          TotalPages := ⌈(total : ℚ) / (filters.Limit : ℚ)⌉ }) := by
  have hlim : (AppealHandler.listFilters q).Limit = q.limit.getD 20 := by
    cases hp : q.page <;> cases hl : q.limit <;> simp [AppealHandler.listFilters, hp, hl]
  have hpage : (AppealHandler.listFilters q).Page = q.page.getD 1 := by
    cases hp : q.page <;> cases hl : q.limit <;> simp [AppealHandler.listFilters, hp, hl]
  have key : ∀ appeals total filters,
      AppealRepository.List db w (AppealHandler.listFilters q)
        = (.ok (appeals, total), filters) →
      1 ≤ filters.Limit ∧ 1 ≤ filters.Page ∧ 0 ≤ total := by
    intro appeals total filters hok
    obtain ⟨h1, h2, _, h4⟩ := list_ok_filters db w _ _ _ _ hok
    refine ⟨?_, ?_, h4⟩
    · rw [h1]; split_ifs <;> omega
    · rw [h2]; split_ifs <;> omega
  constructor
  · intro message
    unfold AppealHandler.List
    rcases hr : AppealRepository.List db w (AppealHandler.listFilters q) with ⟨res, filters⟩
    cases res with
    | error e => simp
    | ok p =>
      obtain ⟨appeals, total⟩ := p
      have hk := key appeals total filters hr
      have hne : filters.Limit ≠ 0 := by omega
      simp [hne]
  · intro appeals total filters hok
    obtain ⟨h1, h2, h3, h4⟩ := list_ok_filters db w _ _ _ _ hok
    obtain ⟨k1, k2, k3⟩ := key appeals total filters hok
    rw [hlim] at h1
    rw [hpage] at h2
    refine ⟨h1, h2, k1, k2, h3, ?_⟩
    have hne : filters.Limit ≠ 0 := by omega
    unfold AppealHandler.List
    rw [hok]
    simp only [hne, if_false]
    rw [totalPages_eq_ceil total filters.Limit k3 k1]

theorem list_pagination_is_division_safe_witness :
    sampleHandler.List sampleDB quietListWorld zeroPageQuery
      = .returned (.page
          { Items := [sampleAppeal], Total := 1, Page := 1, Limit := 20,
            TotalPages := ⌈((1 : Int) : ℚ) / ((20 : Int) : ℚ)⌉ }) :=
  ((list_pagination_is_division_safe sampleHandler sampleDB quietListWorld zeroPageQuery).2
    [sampleAppeal] 1
    (AppealRepository.List sampleDB quietListWorld
      (AppealHandler.listFilters zeroPageQuery)).2 rfl).2.2.2.2.2

/-- A page so far out that the offset wraps around in 64 bits: the database refuses the
negative `OFFSET`, `List` fails and the handler answers 500. -/
theorem list_refuses_wrapped_offset :
    wrapInt64 (wrapInt64 (2 ^ 62 + 1 - 1) * 2) = -(2 ^ 63) ∧
    sampleHandler.List sampleDB quietListWorld hugePageQuery
      = .returned (.failure (respondError 500 "Failed to list appeals")) := by
  decide

/-! ## The executor's active appeals -/

theorem activeOrder_total (a b : Appeal) : activeOrder a b ∨ activeOrder b a := by
  unfold activeOrder
  rcases lt_trichotomy a.Priority b.Priority with h | h | h
  · exact Or.inr (Or.inl h)
  · rcases le_total a.CreatedAt b.CreatedAt with h1 | h1
    · exact Or.inl (Or.inr ⟨h, h1⟩)
    · exact Or.inr (Or.inr ⟨h.symm, h1⟩)
  · exact Or.inl (Or.inl h)

theorem activeOrder_trans (a b c : Appeal) (h1 : activeOrder a b) (h2 : activeOrder b c) :
    activeOrder a c := by
  unfold activeOrder at *
  rcases h1 with h1 | ⟨h1, h1'⟩ <;> rcases h2 with h2 | ⟨h2, h2'⟩
  · exact Or.inl (by omega)
  · exact Or.inl (by omega)
  · exact Or.inl (by omega)
  · exact Or.inr ⟨by omega, le_trans h1' h2'⟩

theorem activeAppealRows_sorted (db : DB) (serviceIDs : List Int) :
    (activeAppealRows db serviceIDs).Pairwise activeOrder := by
  haveI : IsTotal Appeal activeOrder := ⟨activeOrder_total⟩
  haveI : IsTrans Appeal activeOrder := ⟨activeOrder_trans⟩
  unfold activeAppealRows
  exact List.Pairwise.sublist (List.take_sublist _ _) (List.sorted_insertionSort activeOrder _)

theorem activeAppealRows_mem (db : DB) (serviceIDs : List Int) (a : Appeal)
    (h : a ∈ activeAppealRows db serviceIDs) :
    a ∈ db.appeals ∧ (∃ serviceID, a.ServiceID = some serviceID ∧ serviceID ∈ serviceIDs) ∧
    a.Status ≠ "closed" ∧ a.Status ≠ "rejected" := by
  unfold activeAppealRows at h
  have h1 := (List.perm_insertionSort activeOrder _).subset (List.mem_of_mem_take h)
  rw [List.mem_filter] at h1
  obtain ⟨hm, hp⟩ := h1
  refine ⟨hm, ?_⟩
  cases hs : a.ServiceID with
  | none => simp [hs] at hp
  | some serviceID =>
    simp [hs] at hp
    exact ⟨⟨serviceID, rfl, hp.1⟩, hp.2.1, hp.2.2⟩

theorem servicesOf_linked (cat : Catalog) (userID serviceID : Int)
    (h : serviceID ∈ (cat.servicesOf userID).map (fun s => s.ID)) :
    ∃ us ∈ cat.user_services, us.UserID = userID ∧ us.ServiceID = serviceID := by
  rw [List.mem_map] at h
  obtain ⟨s, hs, rfl⟩ := h
  unfold Catalog.servicesOf at hs
  rw [List.mem_filterMap] at hs
  obtain ⟨us, hus, hf⟩ := hs
  rw [List.mem_filter] at hus
  have h2 := List.find?_some hf
  exact ⟨us, hus.1, by simpa using hus.2, (by simpa using h2 : s.ID = us.ServiceID).symm⟩

theorem executorDashboard_active (db : DB) (cat : Catalog) (w : ExecutorDashboardWorld)
    (userID : Int) (d : ExecutorDashboard)
    (h : AppealRepository.GetExecutorDashboard db cat w userID = .ok d) :
    d.active_appeals = [] ∨
    d.active_appeals
      = (activeAppealRows db ((cat.servicesOf userID).map (fun s => s.ID))).map
          (scanActiveAppeal w (cat.servicesOf userID)) := by
  unfold AppealRepository.GetExecutorDashboard at h
  cases h1 : w.services with
  | some e => simp [h1] at h
  | none =>
    simp only [h1] at h
    split_ifs at h with h2
    · left
      cases h
      rfl
    · cases h3 : w.active with
      | some e => simp [h3] at h
      | none =>
        right
        simp only [h3] at h
        repeat' split at h
        all_goals first
          | (cases h; rfl)
          | (simp at h)

/-- Claim C23 fails as stated: appeals 1 and 2 of the executor's service have the same
priority and appeal 2 was created later; the active list puts appeal 1, the older one,
before appeal 2 (after appeal 3, whose priority is higher). -/
theorem executorDashboard_lists_older_appeal_first :
    (queueDB.getAppeal 1).map (fun a => (a.Priority, a.CreatedAt)) = some (2, 100) ∧
    (queueDB.getAppeal 2).map (fun a => (a.Priority, a.CreatedAt)) = some (2, 200) ∧
    activeIDs (AppealRepository.GetExecutorDashboard queueDB sampleCatalog
      quietExecutorWorld 9) = some [3, 1, 2] := by
  decide

/-- Claim C23, amended: whenever the executor dashboard is returned, every appeal of its
active list is a stored appeal of a service linked to the executor and is neither closed
nor rejected; the list is ordered by priority descending and, among appeals of equal
priority, by creation time ascending (the oldest appeal first); and it holds at most 50
appeals. -/
theorem executorDashboard_active_appeals_ordered (db : DB) (cat : Catalog)
    (w : ExecutorDashboardWorld) (userID : Int) (d : ExecutorDashboard)
    (h : AppealRepository.GetExecutorDashboard db cat w userID = .ok d) :
    (∀ row ∈ d.active_appeals, ∃ a ∈ db.appeals,
      row.id = a.ID ∧ row.status = a.Status ∧ row.priority = a.Priority ∧
      row.created_at = a.CreatedAt ∧ a.ServiceID = some row.service_id ∧
      (∃ us ∈ cat.user_services, us.UserID = userID ∧ us.ServiceID = row.service_id) ∧
      a.Status ≠ "closed" ∧ a.Status ≠ "rejected") ∧
    d.active_appeals.Pairwise (fun x y =>
      x.priority > y.priority ∨ (x.priority = y.priority ∧ x.created_at ≤ y.created_at)) ∧
    d.active_appeals.length ≤ 50 := by
  rcases executorDashboard_active db cat w userID d h with h0 | h0
  · rw [h0]
    simp
  · rw [h0]
    refine ⟨?_, ?_, ?_⟩
    · intro row hrow
      rw [List.mem_map] at hrow
      obtain ⟨a, ha, rfl⟩ := hrow
      obtain ⟨hm, ⟨serviceID, hs, hin⟩, hc, hr⟩ := activeAppealRows_mem db _ a ha
      refine ⟨a, hm, rfl, rfl, rfl, rfl, ?_, ?_, hc, hr⟩
      · simp [scanActiveAppeal, hs]
      · simpa [scanActiveAppeal, hs] using servicesOf_linked cat userID serviceID hin
    · rw [List.pairwise_map]
      exact activeAppealRows_sorted db _
    · rw [List.length_map]
      unfold activeAppealRows
      exact List.length_take_le _ _

theorem executorDashboard_active_appeals_ordered_witness :
    ∃ d, AppealRepository.GetExecutorDashboard queueDB sampleCatalog quietExecutorWorld 9
        = .ok d ∧
      d.active_appeals.map (fun row => row.id) = [3, 1, 2] ∧
      d.active_appeals.Pairwise (fun x y =>
        x.priority > y.priority ∨ (x.priority = y.priority ∧ x.created_at ≤ y.created_at)) :=
  ⟨_, rfl, by decide,
    (executorDashboard_active_appeals_ordered queueDB sampleCatalog quietExecutorWorld 9 _
      rfl).2.1⟩

/-! ## On-time percentage -/

theorem onTimePercentage_of_zero (rnd : ℚ → ℚ) (onTimeCount : Int) :
    onTimePercentage rnd onTimeCount 0 = .fin 0 := by
  simp [onTimePercentage]

theorem onTimePercentage_isFinite (rnd : ℚ → ℚ) (hr : ∀ n : Int, n ≠ 0 → rnd n ≠ 0)
    (onTimeCount totalCompleted : Int) :
    (onTimePercentage rnd onTimeCount totalCompleted).isFinite = true := by
  unfold onTimePercentage
  split_ifs with h
  · have h0 : rnd (totalCompleted : ℚ) ≠ 0 := hr totalCompleted (by omega)
    simp [F64.ofInt, F64.div, F64.mul, F64.isFinite, h0]
  · rfl

theorem length_filter_eq_zero {α : Type} (p : α → Bool) (l : List α)
    (h : ∀ a ∈ l, p a = false) : ((l.filter p).length : Int) = 0 := by
  have : l.filter p = [] := by
    rw [List.filter_eq_nil_iff]
    intro a ha
    simp [h a ha]
  simp [this]

theorem getStatistics_onTime (db : DB) (cat : Catalog) (w : StatisticsWorld) (rnd : ℚ → ℚ)
    (fromDate toDate : Option Time) (stats : Statistics)
    (h : AppealRepository.GetStatistics db cat w rnd fromDate toDate = .ok stats) :
    stats.on_time_percentage = onTimePercentage rnd stats.on_time_count stats.total_completed ∧
    (stats.total_completed = 0 ∨
      stats.total_completed
        = (((db.appeals.filter (inDateRange fromDate toDate)).filter isCompleted).filter
            isCompleted).length) := by
  unfold AppealRepository.GetStatistics at h
  cases h1 : w.before <;> simp only [h1, reduceCtorEq] at h
  cases h2 : w.category <;> simp only [h2, reduceCtorEq] at h
  cases h3 : w.service <;> simp only [h3, reduceCtorEq] at h
  cases h4 : w.between <;> simp only [h4, reduceCtorEq] at h
  cases h5 : w.onTime with
  | none =>
    simp only [h5, Except.ok.injEq] at h
    subst h
    exact ⟨rfl, Or.inr rfl⟩
  | some e =>
    cases e with
    | ErrNoRows =>
      simp only [h5, Except.ok.injEq] at h
      subst h
      exact ⟨rfl, Or.inl rfl⟩
    | failure msg => simp [h5] at h

theorem getServiceStatistics_onTime (db : DB) (cat : Catalog) (w : ServiceStatisticsWorld)
    (rnd : ℚ → ℚ) (now : Time) (serviceID : Int) (s : ServiceStatistics)
    (h : AppealRepository.GetServiceStatistics db cat w rnd now serviceID = .ok s) :
    s.overall.on_time_percentage
      = onTimePercentage rnd s.overall.on_time_count s.overall.total_completed ∧
    (s.overall.total_completed = 0 ∨
      s.overall.total_completed
        = ((db.appeals.filter (fun a => a.ServiceID == some serviceID)).filter
            isCompleted).length) := by
  unfold AppealRepository.GetServiceStatistics at h
  cases h1 : w.serviceInfo <;>
    cases h2 : cat.services.find? (fun s => s.ID == serviceID) <;>
    simp only [h1, h2, reduceCtorEq] at h
  cases h4 : w.between <;> cases h5 : w.categoryDist <;> cases h6 : w.after <;>
    cases h3 : w.overall with
    | none =>
      simp only [h3, h4, h5, h6, reduceCtorEq, Except.ok.injEq] at h
      try (subst h; exact ⟨rfl, Or.inr rfl⟩)
    | some e =>
      cases e with
      | ErrNoRows =>
        simp only [h3, h4, h5, h6, reduceCtorEq, Except.ok.injEq] at h
        try (subst h; exact ⟨rfl, Or.inl rfl⟩)
      | failure msg => simp [h3] at h

/-- Claim C21: in the overall statistics, in every row of the admin dashboard's per-service
breakdown and in the per-service statistics, the on-time percentage is a finite number for
every data set (no division by zero, whose result would be NaN or an infinity), and it is
exactly 0 when the group holds no appeal in status closed or completed. `rnd` is the
rounding of `float64`, which sends no integer other than 0 to 0. -/
theorem onTime_percentage_is_zero_safe (rnd : ℚ → ℚ) (hr : ∀ n : Int, n ≠ 0 → rnd n ≠ 0)
    (db : DB) (cat : Catalog) (now : Time) :
    (∀ w fromDate toDate stats,
      AppealRepository.GetStatistics db cat w rnd fromDate toDate = .ok stats →
      stats.on_time_percentage.isFinite = true ∧
      ((∀ a ∈ db.appeals, inDateRange fromDate toDate a = true → isCompleted a = false) →
        stats.on_time_percentage = .fin 0)) ∧
    (∀ w d, AppealRepository.GetAdminDashboard db cat w rnd now = .ok d →
      ∀ row ∈ d.all_services_stats,
        row.on_time_percentage.isFinite = true ∧
        ((∀ a ∈ db.appeals, a.ServiceID = some row.id → isCompleted a = false) →
          row.on_time_percentage = .fin 0)) ∧
    (∀ w serviceID s,
      AppealRepository.GetServiceStatistics db cat w rnd now serviceID = .ok s →
      s.overall.on_time_percentage.isFinite = true ∧
      ((∀ a ∈ db.appeals, a.ServiceID = some serviceID → isCompleted a = false) →
        s.overall.on_time_percentage = .fin 0)) := by
  refine ⟨?_, ?_, ?_⟩
  · intro w fromDate toDate stats h
    obtain ⟨hp, ht⟩ := getStatistics_onTime db cat w rnd fromDate toDate stats h
    rw [hp]
    refine ⟨onTimePercentage_isFinite rnd hr _ _, fun hz => ?_⟩
    have h0 : stats.total_completed = 0 := by
      rcases ht with ht | ht
      · exact ht
      · rw [ht]
        apply length_filter_eq_zero
        intro a ha
        have ha1 := List.mem_filter.mp (List.mem_filter.mp ha).1
        exact hz a ha1.1 ha1.2
    rw [h0, onTimePercentage_of_zero]
  · intro w d h row hrow
    unfold AppealRepository.GetAdminDashboard at h
    cases h1 : w.before <;> simp only [h1, reduceCtorEq] at h
    cases h2 : w.allServices <;> simp only [h2, reduceCtorEq, Except.ok.injEq] at h
    subst h
    simp only [List.mem_map] at hrow
    obtain ⟨s, -, rfl⟩ := hrow
    refine ⟨onTimePercentage_isFinite rnd hr _ _, fun hz => ?_⟩
    have h0 : (((db.appeals.filter (fun a => a.ServiceID == some s.ID)).filter
        isCompleted).length : Int) = 0 := by
      apply length_filter_eq_zero
      intro a ha
      have ha1 := List.mem_filter.mp ha
      exact hz a ha1.1 (by simpa [allServicesStatsRow] using ha1.2)
    show onTimePercentage rnd _ _ = _
    rw [h0, onTimePercentage_of_zero]
  · intro w serviceID s h
    obtain ⟨hp, ht⟩ := getServiceStatistics_onTime db cat w rnd now serviceID s h
    rw [hp]
    refine ⟨onTimePercentage_isFinite rnd hr _ _, fun hz => ?_⟩
    have h0 : s.overall.total_completed = 0 := by
      rcases ht with ht | ht
      · exact ht
      · rw [ht]
        apply length_filter_eq_zero
        intro a ha
        have ha1 := List.mem_filter.mp ha
        exact hz a ha1.1 (by simpa using ha1.2)
    rw [h0, onTimePercentage_of_zero]

theorem onTime_percentage_is_zero_safe_witness :
    (∀ n : Int, n ≠ 0 → exactRounding n ≠ 0) ∧
    ∃ stats, AppealRepository.GetStatistics sampleDB sampleCatalog quietStatisticsWorld
        exactRounding none none = .ok stats ∧
      stats.total_completed = 0 ∧ stats.on_time_percentage = .fin 0 :=
  have hr : ∀ n : Int, n ≠ 0 → exactRounding n ≠ 0 := fun n hn => by
    simpa [exactRounding] using hn
  ⟨hr, _, rfl, rfl,
    ((onTime_percentage_is_zero_safe exactRounding hr sampleDB sampleCatalog 0).1
      quietStatisticsWorld none none _ rfl).2 (by decide)⟩

/-- One closed appeal of the water service, closed ten seconds after it was filed: the
on-time percentage of the service is 100. -/
theorem onTime_percentage_of_queueDB :
    ∃ d, AppealRepository.GetAdminDashboard queueDB sampleCatalog quietAdminWorld
        exactRounding 1000 = .ok d ∧
      d.all_services_stats.map (fun row => (row.id, row.total_completed,
        row.on_time_percentage)) = [(4, 1, .fin 100)] := by
  refine ⟨_, rfl, ?_⟩
  simp [allServicesStatsRow, quietAdminWorld, sampleCatalog, waterService, queueDB,
    sampleAppeal, isCompleted, closedWithin30Days, onTimePercentage, F64.ofInt, F64.div,
    F64.mul, exactRounding]

/-! ## Grouped counts -/

theorem find?_filter_ne_key (m : CountMap) (key k : String) (h : k ≠ key) :
    (m.filter (fun e => e.1 != key)).find? (fun e => e.1 == k)
      = m.find? (fun e => e.1 == k) := by
  induction m with
  | nil => rfl
  | cons e m ih =>
    by_cases he : e.1 = key
    · have h1 : (e.1 == k) = false := by
        rw [he]; exact beq_false_of_ne (fun e => h e.symm)
      have h2 : (e.1 != key) = false := by simp [he]
      simp only [List.filter_cons, h2, List.find?_cons, h1]
      exact ih
    · have h2 : (e.1 != key) = true := by simp [he]
      simp only [List.filter_cons, h2, List.find?_cons, ih, if_true]

theorem find?_filter_key (m : CountMap) (key : String) :
    (m.filter (fun e => e.1 != key)).find? (fun e => e.1 == key) = none := by
  rw [List.find?_eq_none]
  intro e he
  have := (List.mem_filter.mp he).2
  simpa using this

theorem countMap_get_set (m : CountMap) (key : String) (value : Int) (k : String) :
    (m.set key value).get k = if k = key then some value else m.get k := by
  unfold CountMap.set CountMap.get
  rw [List.find?_append]
  by_cases h : k = key
  · subst h
    rw [find?_filter_key]
    simp
  · rw [find?_filter_ne_key m key k h]
    have h1 : (key == k) = false := beq_false_of_ne (fun e => h e.symm)
    simp [h, List.find?_cons, h1]

theorem scanNamedCounts_get_other (bucket : String) (rows : List (Option String × Int))
    (m : CountMap) (k : String) (h : ∀ r ∈ rows, r.1.getD bucket ≠ k) :
    (rows.foldl
      (fun m row =>
        let name := match row.1 with
          | some categoryName => categoryName
          | none => bucket
        m.set name row.2) m).get k = m.get k := by
  induction rows generalizing m with
  | nil => rfl
  | cons r rows ih =>
    rw [List.foldl_cons, ih _ (fun r1 h1 => h r1 (List.mem_cons_of_mem _ h1))]
    have hr := h r (List.mem_cons_self _ _)
    rw [countMap_get_set]
    rcases r with ⟨_ | n, c⟩
    · simp only [Option.getD_none] at hr
      simp [Ne.symm hr]
    · simp only [Option.getD_some] at hr
      simp [Ne.symm hr]

theorem scanNamedCounts_get (bucket : String) (rows : List (Option String × Int))
    (m : CountMap) (hn : (rows.map (fun r => r.1.getD bucket)).Nodup)
    (r : Option String × Int) (hr : r ∈ rows) :
    (rows.foldl
      (fun m row =>
        let name := match row.1 with
          | some categoryName => categoryName
          | none => bucket
        m.set name row.2) m).get (r.1.getD bucket) = some r.2 := by
  induction rows generalizing m with
  | nil => cases hr
  | cons r0 rows ih =>
    rw [List.map_cons, List.nodup_cons] at hn
    rw [List.foldl_cons]
    rcases List.mem_cons.mp hr with h | h
    · subst h
      rw [scanNamedCounts_get_other bucket rows _ _ ?_]
      · rw [countMap_get_set]
        rcases r with ⟨_ | n, c⟩ <;> simp
      · intro r1 h1 he
        exact hn.1 (List.mem_map.mpr ⟨r1, h1, he⟩)
    · exact ih _ hn.2 h

theorem mem_groupCounts {α : Type} [DecidableEq α] (keys : List α) (k : α) (h : k ∈ keys) :
    (k, ((keys.filter (fun x => decide (x = k))).length : Int)) ∈ groupCounts keys := by
  unfold groupCounts
  exact List.mem_map.mpr ⟨k, List.mem_dedup.mpr h, rfl⟩

theorem groupCounts_keys {α : Type} [DecidableEq α] (keys : List α) :
    (groupCounts keys).map (fun r => r.1) = keys.dedup := by
  unfold groupCounts
  rw [List.map_map]
  exact List.map_id _

theorem topGroups_perm {α : Type} [DecidableEq α] (n : Nat) (keys : List α)
    (h : keys.dedup.length ≤ n) : (topGroups n keys).Perm (groupCounts keys) := by
  unfold topGroups
  rw [List.take_of_length_le]
  · exact List.perm_insertionSort _ _
  · rw [(List.perm_insertionSort _ _).length_eq]
    unfold groupCounts
    rw [List.length_map]
    exact h

theorem scanNamedCounts_topGroups (bucket : String) (keys : List (Option String))
    (hlen : keys.dedup.length ≤ 10) (hb : some bucket ∉ keys)
    (k : Option String) (hk : k ∈ keys) :
    (scanNamedCounts bucket (topGroups 10 keys)).get (k.getD bucket)
      = some ((keys.filter (fun x => decide (x = k))).length : Int) := by
  have hp := topGroups_perm 10 keys hlen
  have hmem : (k, ((keys.filter (fun x => decide (x = k))).length : Int))
      ∈ topGroups 10 keys :=
    hp.symm.subset (mem_groupCounts keys k hk)
  have hkeys : ((topGroups 10 keys).map (fun r => r.1)).Nodup := by
    rw [(hp.map _).nodup_iff, groupCounts_keys]
    exact List.nodup_dedup _
  have hsub : ∀ r ∈ topGroups 10 keys, r.1 ∈ keys := by
    intro r hr
    have : r.1 ∈ (groupCounts keys).map (fun r => r.1) :=
      List.mem_map.mpr ⟨r, hp.subset hr, rfl⟩
    rw [groupCounts_keys] at this
    exact List.mem_dedup.mp this
  have hn : ((topGroups 10 keys).map (fun r => r.1.getD bucket)).Nodup := by
    have : (topGroups 10 keys).map (fun r => r.1.getD bucket)
        = ((topGroups 10 keys).map (fun r => r.1)).map (fun o => o.getD bucket) := by
      rw [List.map_map]; rfl
    rw [this]
    refine List.Nodup.map_on ?_ hkeys
    intro x hx y hy hxy
    rw [List.mem_map] at hx hy
    obtain ⟨rx, hrx, rfl⟩ := hx
    obtain ⟨ry, hry, rfl⟩ := hy
    have h1 := hsub rx hrx
    have h2 := hsub ry hry
    rcases hx1 : rx.1 with _ | nx <;> rcases hy1 : ry.1 with _ | ny
    · rfl
    · rw [hx1, hy1] at hxy
      simp only [Option.getD_none, Option.getD_some] at hxy
      rw [hy1, ← hxy] at h2
      exact absurd h2 hb
    · rw [hx1, hy1] at hxy
      simp only [Option.getD_none, Option.getD_some] at hxy
      rw [hx1, hxy] at h1
      exact absurd h1 hb
    · rw [hx1, hy1] at hxy
      simp only [Option.getD_some] at hxy
      rw [hxy]
  exact scanNamedCounts_get bucket _ [] hn _ hmem

theorem length_filter_map_none {α β : Type} [DecidableEq β] (f : α → Option β)
    (l : List α) :
    ((l.map f).filter (fun x => decide (x = none))).length
      = (l.filter (fun a => (f a).isNone)).length := by
  induction l with
  | nil => rfl
  | cons a l ih =>
    cases h : f a with
    | none => simp [List.filter_cons, h, ih]
    | some b => simp [List.filter_cons, h, ih]

theorem categoryName_ne_bucket (cat : Catalog) (bucket : String)
    (h : ∀ c ∈ cat.categories, c.Name ≠ bucket) (l : List Appeal) :
    some bucket ∉ l.map cat.categoryName := by
  intro hm
  rw [List.mem_map] at hm
  obtain ⟨a, -, ha⟩ := hm
  unfold Catalog.categoryName at ha
  cases hc : a.CategoryID with
  | none => simp [hc] at ha
  | some id =>
    simp only [hc, Option.map_eq_some'] at ha
    obtain ⟨c, hf, hn⟩ := ha
    exact h c (List.mem_of_find?_eq_some hf) hn

theorem serviceName_ne_bucket (cat : Catalog) (bucket : String)
    (h : ∀ s ∈ cat.services, s.Name ≠ bucket) (l : List Appeal) :
    some bucket ∉ l.map cat.serviceName := by
  intro hm
  rw [List.mem_map] at hm
  obtain ⟨a, -, ha⟩ := hm
  unfold Catalog.serviceName at ha
  cases hc : a.ServiceID with
  | none => simp [hc] at ha
  | some id =>
    simp only [hc, Option.map_eq_some'] at ha
    obtain ⟨c, hf, hn⟩ := ha
    exact h c (List.mem_of_find?_eq_some hf) hn

theorem getStatistics_maps (db : DB) (cat : Catalog) (w : StatisticsWorld) (rnd : ℚ → ℚ)
    (fromDate toDate : Option Time) (stats : Statistics)
    (h : AppealRepository.GetStatistics db cat w rnd fromDate toDate = .ok stats) :
    stats.by_category = scanNamedCounts "Без категорії"
      (topGroups 10 ((db.appeals.filter (inDateRange fromDate toDate)).map cat.categoryName)) ∧
    stats.by_service = scanNamedCounts "Не призначено"
      (topGroups 10 ((db.appeals.filter (inDateRange fromDate toDate)).map cat.serviceName)) := by
  unfold AppealRepository.GetStatistics at h
  cases h1 : w.before <;> simp only [h1, reduceCtorEq] at h
  cases h2 : w.category <;> simp only [h2, reduceCtorEq] at h
  cases h3 : w.service <;> simp only [h3, reduceCtorEq] at h
  cases h4 : w.between <;> simp only [h4, reduceCtorEq] at h
  cases h5 : w.onTime with
  | none =>
    simp only [h5, Except.ok.injEq] at h
    subst h
    exact ⟨rfl, rfl⟩
  | some e =>
    cases e with
    | ErrNoRows =>
      simp only [h5, Except.ok.injEq] at h
      subst h
      exact ⟨rfl, rfl⟩
    | failure msg => simp [h5] at h

/-! ## Appeals without a category or a service in the grouped counts -/

/-- Claim C22 fails as stated: the water service has one appeal and that appeal has no
category; the per-service statistics count the appeal (`total_appeals` is 1), and the
category distribution, an inner join with `categories`, is empty: the appeal is dropped
and no bucket stands for it. -/
theorem serviceStatistics_category_distribution_drops_uncategorized :
    uncategorizedDB.appeals.map (fun a => (a.ServiceID, a.CategoryID)) = [(some 4, none)] ∧
    ∃ s, AppealRepository.GetServiceStatistics uncategorizedDB sampleCatalog
        quietServiceStatisticsWorld exactRounding 1000 4 = .ok s ∧
      s.overall.total_appeals = 1 ∧ s.category_distribution = [] :=
  ⟨by decide, _, rfl, by decide, by decide⟩

/-- The overall counts keep the ten largest groups only: with two appeals in each of ten
categories and one appeal without a category, `by_category` has no entry under the bucket
name. -/
theorem statistics_cut_off_the_bucket :
    (crowdedDB.appeals.filter (fun a => a.CategoryID.isNone)).length = 1 ∧
    ∃ stats, AppealRepository.GetStatistics crowdedDB crowdedCatalog quietStatisticsWorld
        exactRounding none none = .ok stats ∧
      stats.by_category.get "Без категорії" = none ∧ stats.by_category.length = 10 :=
  ⟨by decide, _, rfl, by decide, by decide⟩

/-- Claim C22, amended: in the overall statistics, when the appeals of the date range fall
into at most ten groups by category name and no category is itself named like the bucket,
the appeals without a category are counted under "Без категорії": as soon as there is one,
`by_category` holds under that name the number of appeals of the range to which no category
is joined. The same holds for `by_service` and the bucket "Не призначено". -/
theorem statistics_count_uncategorized_and_unassigned (db : DB) (cat : Catalog)
    (w : StatisticsWorld) (rnd : ℚ → ℚ) (fromDate toDate : Option Time) (stats : Statistics)
    (h : AppealRepository.GetStatistics db cat w rnd fromDate toDate = .ok stats) :
    ((∃ a ∈ db.appeals, inDateRange fromDate toDate a = true ∧ a.CategoryID = none) →
      ((db.appeals.filter (inDateRange fromDate toDate)).map
        cat.categoryName).dedup.length ≤ 10 →
      (∀ c ∈ cat.categories, c.Name ≠ "Без категорії") →
      stats.by_category.get "Без категорії"
        = some (((db.appeals.filter (inDateRange fromDate toDate)).filter
            (fun a => (cat.categoryName a).isNone)).length : Int)) ∧
    ((∃ a ∈ db.appeals, inDateRange fromDate toDate a = true ∧ a.ServiceID = none) →
      ((db.appeals.filter (inDateRange fromDate toDate)).map
        cat.serviceName).dedup.length ≤ 10 →
      (∀ s ∈ cat.services, s.Name ≠ "Не призначено") →
      stats.by_service.get "Не призначено"
        = some (((db.appeals.filter (inDateRange fromDate toDate)).filter
            (fun a => (cat.serviceName a).isNone)).length : Int)) := by
  obtain ⟨hc, hs⟩ := getStatistics_maps db cat w rnd fromDate toDate stats h
  constructor
  · rintro ⟨a, ha, hr, hn⟩ hlen hb
    have hk : (none : Option String)
        ∈ (db.appeals.filter (inDateRange fromDate toDate)).map cat.categoryName :=
      List.mem_map.mpr ⟨a, List.mem_filter.mpr ⟨ha, hr⟩, by simp [Catalog.categoryName, hn]⟩
    have := scanNamedCounts_topGroups "Без категорії" _ hlen
      (categoryName_ne_bucket cat _ hb _) none hk
    rw [hc, ← length_filter_map_none]
    exact this
  · rintro ⟨a, ha, hr, hn⟩ hlen hb
    have hk : (none : Option String)
        ∈ (db.appeals.filter (inDateRange fromDate toDate)).map cat.serviceName :=
      List.mem_map.mpr ⟨a, List.mem_filter.mpr ⟨ha, hr⟩, by simp [Catalog.serviceName, hn]⟩
    have := scanNamedCounts_topGroups "Не призначено" _ hlen
      (serviceName_ne_bucket cat _ hb _) none hk
    rw [hs, ← length_filter_map_none]
    exact this

theorem statistics_count_uncategorized_and_unassigned_witness :
    (∃ stats, AppealRepository.GetStatistics uncategorizedDB sampleCatalog
        quietStatisticsWorld exactRounding none none = .ok stats ∧
      stats.by_category.get "Без категорії" = some (1 : Int)) ∧
    (∃ stats, AppealRepository.GetStatistics sampleDB sampleCatalog
        quietStatisticsWorld exactRounding none none = .ok stats ∧
      stats.by_service.get "Не призначено" = some (1 : Int)) :=
  ⟨⟨_, rfl, (statistics_count_uncategorized_and_unassigned uncategorizedDB sampleCatalog
      quietStatisticsWorld exactRounding none none _ rfl).1 (by decide) (by decide)
      (by decide)⟩,
   ⟨_, rfl, (statistics_count_uncategorized_and_unassigned sampleDB sampleCatalog
      quietStatisticsWorld exactRounding none none _ rfl).2 (by decide) (by decide)
      (by decide)⟩⟩

/-! ## Concurrent status changes -/

/-- A call that runs alone, statement by statement, does what the sequential embedding of
`UpdateStatus` does, at either isolation level. -/
theorem updateStatus_alone (level : Isolation) (db : DB) (c : UpdateStatusCall) :
    Server.finish level { committed := db, calls := [(c, .notStarted)] } 0 5
      = { committed := (AppealRepository.UpdateStatus db TxFaults.none c.now c.appealID
            c.newStatus c.userID c.comment).2,
          calls := [(c, .returned (AppealRepository.UpdateStatus db TxFaults.none c.now
            c.appealID c.newStatus c.userID c.comment).1)] } := by
  cases hget : db.getAppeal c.appealID with
  | none =>
    simp [Server.finish, Server.step, selectStatus, hget, AppealRepository.UpdateStatus, Begin,
      TxFaults.none, Rollback]
  | some a =>
    have hrows := rowsWithID_ne_zero db c.appealID a hget
    by_cases hs : a.Status = c.newStatus
    · have hn := updateStatus_noop_run db c.now c.appealID c.userID c.comment a hget
      rw [hs] at hn
      rw [hn]
      cases level <;>
        simp [Server.finish, Server.step, selectStatus, hget, Server.lockedByOther, List.enum,
          List.enumFrom, hs]
    · rw [updateStatus_run db c.now c.appealID c.newStatus c.userID c.comment a hget hs]
      by_cases hc : c.newStatus = StatusClosed ∨ c.newStatus = StatusCompleted <;>
      cases level <;>
        simp [Server.finish, Server.step, selectStatus, hget, Server.lockedByOther, List.enum,
          List.enumFrom, hs, hrows, UpdateStatusCall.write, hc, DB.insertHistory,
          DB.updateAppeals]

theorem write_id (c : UpdateStatusCall) (a : Appeal) : (c.write a).ID = a.ID := by
  unfold UpdateStatusCall.write
  split_ifs <;> rfl

theorem write_status (c : UpdateStatusCall) (a : Appeal) : (c.write a).Status = c.newStatus := by
  unfold UpdateStatusCall.write
  split_ifs <;> rfl

theorem race_until_second_update (db : DB) (a : Appeal) (c1 c2 : UpdateStatusCall)
    (hget : db.getAppeal c1.appealID = some a) (hid : c2.appealID = c1.appealID)
    (h1 : a.Status ≠ c1.newStatus) (h2 : a.Status ≠ c2.newStatus) :
    Server.run .readCommitted
        { committed := db, calls := [(c1, .notStarted), (c2, .notStarted)] }
        raceScheduleUntilSecondUpdate
      = some
          { committed :=
              { appeals := (db.updateAppeals c1.appealID c1.write).appeals,
                appeal_history := db.appeal_history ++
                  [{ ID := db.appeal_history_id_seq + 1, AppealID := c1.appealID,
                     UserID := c1.userID, OldStatus := some a.Status,
                     NewStatus := c1.newStatus,
                     Action := statusChangeAction a.Status c1.newStatus,
                     Comment := c1.comment, CreatedAt := c1.now }],
                appeals_id_seq := db.appeals_id_seq,
                appeal_history_id_seq := db.appeal_history_id_seq + 1 },
            calls := [(c1, .returned none), (c2, .updated a.Status)] } := by
  have hrows := rowsWithID_ne_zero db c1.appealID a hget
  have hex : ¬ ∀ x ∈ db.appeals,
      ¬ (if x.ID = c1.appealID then c1.write x else x).ID = c1.appealID := by
    intro hall
    have hmem : a ∈ db.appeals := List.mem_of_find?_eq_some hget
    have haid := getAppeal_id db c1.appealID a hget
    exact hall a hmem (by rw [if_pos haid, write_id, haid])
  simp only [DB.rowsWithID, DB.updateAppeals] at hrows
  simp [Server.run, Server.step, raceScheduleUntilSecondUpdate, selectStatus, hget, hid,
    Server.lockedByOther, List.enum, List.enumFrom, CallPhase.holdsRowLock, h1, h2,
    DB.rowsWithID, DB.updateAppeals, hrows]
  rw [if_neg hex]

theorem run_append (level : Isolation) (s : Server) (l1 l2 : List Nat) :
    s.run level (l1 ++ l2) = (s.run level l1).bind (fun s1 => s1.run level l2) := by
  induction l1 generalizing s with
  | nil => rfl
  | cons i l1 ih =>
    simp only [List.cons_append, Server.run]
    cases s.step level i with
    | none => rfl
    | some s1 => exact ih s1

theorem race_to_the_end (db : DB) (a : Appeal) (c1 c2 : UpdateStatusCall)
    (hget : db.getAppeal c1.appealID = some a) (hid : c2.appealID = c1.appealID)
    (h1 : a.Status ≠ c1.newStatus) (h2 : a.Status ≠ c2.newStatus) :
    Server.run .readCommitted
        { committed := db, calls := [(c1, .notStarted), (c2, .notStarted)] } raceSchedule
      = some
          { committed :=
              { appeals :=
                  ((db.updateAppeals c1.appealID c1.write).updateAppeals c1.appealID
                    c2.write).appeals,
                appeal_history := db.appeal_history ++
                  [{ ID := db.appeal_history_id_seq + 1, AppealID := c1.appealID,
                     UserID := c1.userID, OldStatus := some a.Status,
                     NewStatus := c1.newStatus,
                     Action := statusChangeAction a.Status c1.newStatus,
                     Comment := c1.comment, CreatedAt := c1.now },
                   { ID := db.appeal_history_id_seq + 1 + 1, AppealID := c1.appealID,
                     UserID := c2.userID, OldStatus := some a.Status,
                     NewStatus := c2.newStatus,
                     Action := statusChangeAction a.Status c2.newStatus,
                     Comment := c2.comment, CreatedAt := c2.now }],
                appeals_id_seq := db.appeals_id_seq,
                appeal_history_id_seq := db.appeal_history_id_seq + 1 + 1 },
            calls := [(c1, .returned none), (c2, .returned none)] } := by
  have hs : raceSchedule = raceScheduleUntilSecondUpdate ++ [1, 1] := rfl
  rw [hs, run_append, race_until_second_update db a c1 c2 hget hid h1 h2]
  simp [Server.run, Server.step, hid, h2, DB.updateAppeals]

/-- The race in general, at READ COMMITTED, for every appeal and every two targets other
than its status: when both calls read the status before the first one commits, the first
call's status is the committed one when the second call's `UPDATE` has run, and yet the
history row of the second call records as old status the status from before the first
call. Both calls return nil, and the last commit decides the final status. -/
theorem race_records_stale_old_status (db : DB) (a : Appeal) (c1 c2 : UpdateStatusCall)
    (hget : db.getAppeal c1.appealID = some a) (hid : c2.appealID = c1.appealID)
    (h1 : a.Status ≠ c1.newStatus) (h2 : a.Status ≠ c2.newStatus) :
    (∃ s, Server.run .readCommitted
        { committed := db, calls := [(c1, .notStarted), (c2, .notStarted)] }
        raceScheduleUntilSecondUpdate = some s ∧
      (s.committed.getAppeal c1.appealID).map (fun x => x.Status) = some c1.newStatus ∧
      s.calls = [(c1, .returned none), (c2, .updated a.Status)]) ∧
    ∃ s, Server.run .readCommitted
        { committed := db, calls := [(c1, .notStarted), (c2, .notStarted)] } raceSchedule
        = some s ∧
      s.calls = [(c1, .returned none), (c2, .returned none)] ∧
      (s.committed.getAppeal c1.appealID).map (fun x => x.Status) = some c2.newStatus ∧
      (s.committed.historyOf c1.appealID).map (fun h => (h.OldStatus, h.NewStatus))
        = (db.historyOf c1.appealID).map (fun h => (h.OldStatus, h.NewStatus)) ++
            [(some a.Status, c1.newStatus), (some a.Status, c2.newStatus)] := by
  have hg1 : (db.updateAppeals c1.appealID c1.write).getAppeal c1.appealID
      = some (c1.write a) :=
    getAppeal_updateAppeals_self db c1.appealID c1.write (write_id c1) a hget
  have hg2 : ((db.updateAppeals c1.appealID c1.write).updateAppeals c1.appealID
      c2.write).getAppeal c1.appealID = some (c2.write (c1.write a)) :=
    getAppeal_updateAppeals_self _ c1.appealID c2.write (write_id c2) _ hg1
  constructor
  · refine ⟨_, race_until_second_update db a c1 c2 hget hid h1 h2, ?_, rfl⟩
    show ((db.updateAppeals c1.appealID c1.write).getAppeal c1.appealID).map _ = _
    rw [hg1]
    simp [write_status]
  · refine ⟨_, race_to_the_end db a c1 c2 hget hid h1 h2, rfl, ?_, ?_⟩
    · show (((db.updateAppeals c1.appealID c1.write).updateAppeals c1.appealID
        c2.write).getAppeal c1.appealID).map _ = _
      rw [hg2]
      simp [write_status]
    · simp [DB.historyOf, List.filter_append]

/-- Claim C26, evaluated on the code at READ COMMITTED (the level of a `Begin` without
options on a server with PostgreSQL's defaults): appeal 1 is `new`; a dispatcher's call to
`assigned` and an executor's call to `in_progress` both read `new`; the first commits
`assigned`, then the second commits `in_progress` with a history row that says the status
was changed from `new`. Run one after the other, the same two calls record `assigned` as
the old status of the second row. At REPEATABLE READ the second call's `UPDATE` fails and
nothing of it is committed; and while the first call holds the lock of the row the second
call's `UPDATE` cannot run. -/
theorem concurrent_updateStatus_records_stale_old_status :
    Server.summary (raceServer.run .readCommitted raceSchedule)
      = some ([.returned none, .returned none], some "in_progress",
          [(some "new", "assigned"), (some "new", "in_progress")]) ∧
    Server.summary (some ((raceServer.finish .readCommitted 0 5).finish .readCommitted 1 5))
      = some ([.returned none, .returned none], some "in_progress",
          [(some "new", "assigned"), (some "assigned", "in_progress")]) ∧
    Server.summary (raceServer.run .repeatableRead raceScheduleUntilSecondUpdate)
      = some ([.returned none,
          .returned (some (.wrapped "failed to update status"
            (.failure "could not serialize access due to concurrent update")))],
          some "assigned", [(some "new", "assigned")]) ∧
    raceServer.run .readCommitted [0, 0, 1, 1, 0, 1] = none :=
  ⟨by decide, by decide, by decide, by decide⟩

end CitizenAppeals
